import Mathlib

/-!
# The amd_energy component: event catalog and counter state machine

A shallow embedding of `src/components/amd_energy/linux-amd_energy.c`.

Conventions of the embedding.
* A C array is a total map from index to value (`Nat → α`); the loops of the
  component only touch indices below `AMD_ENERGY_MAX_COUNTERS`.  The indexed
  stores of `_amd_energy_update_control_state` have no bound check in the
  source; a store outside the arrays is undefined in C, and the model performs
  the stores that are within them (`update_body`, `update_in_bounds`).
* `long long` and `int` values are integers; signed overflow is undefined in C
  and the arithmetic of the model is exact.  Where the source masks a value or
  converts between `unsigned int` and `int`, the reduction modulo a power of two
  is written out (`mask32`, `toInt32`, `toUInt32`).
* `double` arithmetic is IEEE-754 binary64 with round-to-nearest-even, modelled
  on rationals (`roundDouble`), exponent range not limited.
* A register read (`open_fd` followed by `read_msr`) is a function from the
  cpu index and the register address to the 64-bit content, as the `long long`
  that `read_msr` returns.  `read_msr` ends the process when the read fails;
  the model describes the runs in which the reads succeed.
* Constants and types that come from the PAPI headers (not part of the
  component file) are parameters (`PapiDefs`) or symbolic (`PapiStatus`).
-/

namespace AmdEnergy

/-! ## Framework constants -/

/-- Constants of `papi.h` used by the component. The header is not part of the
component, so the functions below take the constants as a parameter. -/
structure PapiDefs where
  PAPI_MAX_STR_LEN : Nat
  PAPI_MIN_STR_LEN : Nat
  PAPI_NATIVE_AND_MASK : Nat
  PAPI_DATATYPE_UINT64 : Int
deriving Repr

/-- The values the constants have in the PAPI releases (`papi.h`); used for
concrete instances only. -/
def papiRelease : PapiDefs :=
  { PAPI_MAX_STR_LEN := 128
    PAPI_MIN_STR_LEN := 64
    PAPI_NATIVE_AND_MASK := 0xBFFFFFFF
    PAPI_DATATYPE_UINT64 := 1 }

/-- Return codes of the component functions, by their `papi.h` names. -/
inductive PapiStatus where
  | PAPI_OK
  | PAPI_EINVAL
  | PAPI_ENOMEM
  | PAPI_ESYS
  | PAPI_ENOEVNT
  | PAPI_ENOSUPP
  | PAPI_ENOIMPL
deriving DecidableEq, Repr

/-- The `modifier` argument of `ntv_enum_events`: the two values the component
distinguishes, and any other value (the `default:` label of the switch). -/
inductive EnumModifier where
  | PAPI_ENUM_FIRST
  | PAPI_ENUM_EVENTS
  | other
deriving DecidableEq, Repr

/-! ## Component constants -/

def MSR_AMD_RAPL_POWER_UNIT : Nat := 0xc0010299

def MSR_AMD_PKG_ENERGY_STATUS : Nat := 0xc001029B

def MSR_AMD_PP0_ENERGY_STATUS : Nat := 0xc001029A

def AMD_ENERGY_MAX_COUNTERS : Nat := 260

def PACKAGE_ENERGY : Int := 0

def PACKAGE_ENERGY_CNT : Int := 5

/-! ## Machine integers -/

/-- The `int` that an `unsigned int` bit pattern converts to (two's complement). -/
def toInt32 (n : Nat) : Int :=
  if n % 4294967296 < 2147483648 then ((n % 4294967296 : Nat) : Int)
  else ((n % 4294967296 : Nat) : Int) - 4294967296

/-- The `unsigned int` that an `int` converts to. -/
def toUInt32 (z : Int) : Nat := (z % 4294967296).toNat

/-- The operation `x & 0xFFFFFFFF` on a two's-complement `long long`: the low 32 bits. -/
def mask32 (x : Int) : Int := x % 4294967296

/-- Assignment `a[i] = v` on an array. -/
def setAt {α : Type} (a : Nat → α) (i : Nat) (v : α) : Nat → α :=
  fun j => if j = i then v else a j

/-- The loop `for (i = 0; i < n; i++) body(i)` over a state. -/
def for_loop {σ : Type} (body : Nat → σ → σ) : Nat → σ → σ
  | 0, s => s
  | n + 1, s => body n (for_loop body n s)

/-! ## Double precision -/

/-- Nearest integer, ties to even. -/
def roundHalfEven (x : ℚ) : ℤ :=
  if x - ⌊x⌋ < 1 / 2 then ⌊x⌋
  else if 1 / 2 < x - ⌊x⌋ then ⌊x⌋ + 1
  else if ⌊x⌋ % 2 = 0 then ⌊x⌋ else ⌊x⌋ + 1

/-- The binary64 value nearest to a rational (53-bit significand, ties to even). -/
def roundDouble (q : ℚ) : ℚ :=
  if q = 0 then 0
  else roundHalfEven (q / (2 : ℚ) ^ (Int.log 2 |q| - 52)) * (2 : ℚ) ^ (Int.log 2 |q| - 52)

/-- The conversion `(long long)x` of a double: the fractional part is discarded. -/
def truncToLongLong (q : ℚ) : ℤ := if 0 ≤ q then ⌊q⌋ else ⌈q⌉

/-! ## Data model -/

structure _energy_register_t where
  selector : Nat
deriving DecidableEq, Repr

structure _energy_native_event_entry_t where
  name : String
  units : String
  description : String
  fd_offset : Int
  msr : Int
  type : Int
  return_type : Int
  resources : _energy_register_t
deriving DecidableEq, Repr

/-- An entry as `papi_calloc` delivers it: every byte zero. -/
def zero_entry : _energy_native_event_entry_t :=
  { name := "", units := "", description := "", fd_offset := 0, msr := 0, type := 0,
    return_type := 0, resources := { selector := 0 } }

structure _energy_control_state_t where
  being_measured : Nat → Int
  count : Nat → Int
  need_difference : Nat → Int
  lastupdate : Int

structure _energy_context_t where
  start_value : Nat → Int
  accumulated_value : Nat → Int
  state : _energy_control_state_t

/-- The two fields of the framework's `NativeInfo_t` that the component uses. -/
structure NativeInfo_t where
  ni_event : Int
  ni_position : Int
deriving DecidableEq, Repr

/-- The content of the registers at one moment: cpu index and register
address to the value `read_msr` returns. -/
abbrev MsrFile := Int → Nat → Int

/-! ## Internal functions -/

/-- Source: `read_energy_value`: the register of event `index`, read on its cpu. -/
def read_energy_value (events : Nat → _energy_native_event_entry_t) (msrs : MsrFile)
    (index : Nat) : Int :=
  msrs (events index).fd_offset (toUInt32 (events index).msr)

/-- Source: `convert_energy_readings`. For a `PACKAGE_ENERGY` event the value is
divided by the energy divisor and multiplied by `1e9` in double precision, and
converted back to `long long`; any other event keeps the input value. -/
def convert_energy_readings (events : Nat → _energy_native_event_entry_t)
    (cpu_energy_divisor : Int) (index : Nat) (value : Int) : Int :=
  if (events index).type = PACKAGE_ENERGY then
    truncToLongLong
      (roundDouble (roundDouble (roundDouble (value : ℚ) / (cpu_energy_divisor : ℚ)) * 1000000000))
  else value

/-! ## Event catalog (the event-creation part of `_amd_energy_init_component`) -/

/-- Text that `snprintf(buf, size, "...%d", j)` leaves in the buffer. -/
def snprintf_d (size : Nat) (text : String) (j : Nat) : String :=
  String.mk ((text ++ toString j).data.take (size - 1))

/-- Text that `strncpy(buf, text, size); buf[size-1] = 0` leaves in the buffer. -/
def strncpy_z (size : Nat) (text : String) : String :=
  String.mk (text.data.take (size - 1))

/-- State of the event-creation loops: the array and the two cursors `i` and `k`. -/
structure EventCursor where
  events : Nat → _energy_native_event_entry_t
  i : Nat
  k : Nat

/-- The assignments to `energy_native_events[i]` in the loop over packages
(source lines 441-455), at position `pos` for package `j`. -/
def package_cnt_fields (papi : PapiDefs) (cpu_to_use : Nat → Int) (j pos : Nat)
    (e : _energy_native_event_entry_t) : _energy_native_event_entry_t :=
  { e with
    name := snprintf_d papi.PAPI_MAX_STR_LEN "PACKAGE_ENERGY_CNT:PACKAGE" j
    description := snprintf_d papi.PAPI_MAX_STR_LEN "Energy used in counts by chip package " j
    fd_offset := cpu_to_use j
    msr := toInt32 MSR_AMD_PKG_ENERGY_STATUS
    resources := { selector := pos + 1 }
    type := PACKAGE_ENERGY_CNT
    return_type := papi.PAPI_DATATYPE_UINT64 }

/-- The assignments to `energy_native_events[k]` in the loop over packages
(source lines 457-473), at position `pos` for package `j`. -/
def package_energy_fields (papi : PapiDefs) (cpu_to_use : Nat → Int) (j pos : Nat)
    (e : _energy_native_event_entry_t) : _energy_native_event_entry_t :=
  { e with
    name := snprintf_d papi.PAPI_MAX_STR_LEN "PACKAGE_ENERGY:PACKAGE" j
    units := strncpy_z papi.PAPI_MIN_STR_LEN "nJ"
    description := snprintf_d papi.PAPI_MAX_STR_LEN "Energy used by chip package " j
    fd_offset := cpu_to_use j
    msr := toInt32 MSR_AMD_PKG_ENERGY_STATUS
    resources := { selector := pos + 1 }
    type := PACKAGE_ENERGY
    return_type := papi.PAPI_DATATYPE_UINT64 }

/-- The assignments to `energy_native_events[i]` in the loop over cores
(source lines 482-494), at position `pos` for core `j`. -/
def core_cnt_fields (papi : PapiDefs) (j pos : Nat)
    (e : _energy_native_event_entry_t) : _energy_native_event_entry_t :=
  { e with
    name := snprintf_d papi.PAPI_MAX_STR_LEN "PP0_ENERGY_CNT:CORE" j
    description :=
      snprintf_d papi.PAPI_MAX_STR_LEN "Energy used in counts by all cores in package " j
    fd_offset := (j : Int)
    msr := toInt32 MSR_AMD_PP0_ENERGY_STATUS
    resources := { selector := pos + 1 }
    type := PACKAGE_ENERGY_CNT
    return_type := papi.PAPI_DATATYPE_UINT64 }

/-- The assignments to `energy_native_events[k]` in the loop over cores
(source lines 496-511), at position `pos` for core `j`. -/
def core_energy_fields (papi : PapiDefs) (j pos : Nat)
    (e : _energy_native_event_entry_t) : _energy_native_event_entry_t :=
  { e with
    name := snprintf_d papi.PAPI_MAX_STR_LEN "PP0_ENERGY:CORE" j
    units := strncpy_z papi.PAPI_MIN_STR_LEN "nJ"
    description := snprintf_d papi.PAPI_MAX_STR_LEN "Energy used by all cores in package " j
    fd_offset := (j : Int)
    msr := toInt32 MSR_AMD_PP0_ENERGY_STATUS
    resources := { selector := pos + 1 }
    type := PACKAGE_ENERGY
    return_type := papi.PAPI_DATATYPE_UINT64 }

/-- Body of the loop over packages (source lines 439-477): the entry at `i`,
then the entry at `k`, then both cursors advance. -/
def package_event_body (papi : PapiDefs) (cpu_to_use : Nat → Int) (j : Nat)
    (st : EventCursor) : EventCursor :=
  let ev := st.events
  let ev := setAt ev st.i (package_cnt_fields papi cpu_to_use j st.i (ev st.i))
  let ev := setAt ev st.k (package_energy_fields papi cpu_to_use j st.k (ev st.k))
  { events := ev, i := st.i + 1, k := st.k + 1 }

/-- Body of the loop over cores (source lines 480-515). -/
def core_event_body (papi : PapiDefs) (j : Nat) (st : EventCursor) : EventCursor :=
  let ev := st.events
  let ev := setAt ev st.i (core_cnt_fields papi j st.i (ev st.i))
  let ev := setAt ev st.k (core_energy_fields papi j st.k (ev st.k))
  { events := ev, i := st.i + 1, k := st.k + 1 }

/-- The catalog as the component keeps it: `num_events` and `energy_native_events`. -/
structure Catalog where
  num_events : Nat
  energy_native_events : Nat → _energy_native_event_entry_t

/-- Source: `_amd_energy_init_component`, lines 415-515: from the package count,
the core count and the `cpu_to_use` table of the topology scan, allocate
`num_events` zeroed entries and fill them in the two loops. -/
def create_events (papi : PapiDefs) (num_packages num_cpus : Nat) (cpu_to_use : Nat → Int) :
    Catalog :=
  let num_events := (num_packages + num_cpus) * 2
  let st : EventCursor := { events := fun _ => zero_entry, i := 0, k := num_events / 2 }
  let st := for_loop (package_event_body papi cpu_to_use) num_packages st
  let st := for_loop (core_event_body papi) num_cpus st
  { num_events := num_events, energy_native_events := st.events }

/-! ## Counter state machine -/

/-- Source: `_amd_energy_init_control_state`. -/
def _amd_energy_init_control_state (control : _energy_control_state_t) :
    PapiStatus × _energy_control_state_t :=
  (PapiStatus.PAPI_OK,
   for_loop (fun i c => { c with being_measured := setAt c.being_measured i 0 })
     AMD_ENERGY_MAX_COUNTERS control)

/-- Body of the loop of `_amd_energy_start` (source lines 563-568). -/
def start_body (events : Nat → _energy_native_event_entry_t) (msrs : MsrFile)
    (control : _energy_control_state_t) (i : Nat) (context : _energy_context_t) :
    _energy_context_t :=
  if control.being_measured i ≠ 0 ∧ control.need_difference i ≠ 0 then
    let context :=
      { context with
        start_value := setAt context.start_value i (mask32 (read_energy_value events msrs i)) }
    { context with accumulated_value := setAt context.accumulated_value i 0 }
  else context

/-- Source: `_amd_energy_start`; `now` is the value of `PAPI_get_real_usec()`. -/
def _amd_energy_start (events : Nat → _energy_native_event_entry_t) (msrs : MsrFile)
    (now : Int) (context : _energy_context_t) (control : _energy_control_state_t) :
    PapiStatus × _energy_context_t × _energy_control_state_t :=
  let context := for_loop (start_body events msrs control) AMD_ENERGY_MAX_COUNTERS context
  (PapiStatus.PAPI_OK, context, { control with lastupdate := now })

/-- Body of the loop of `_amd_energy_stop` (source lines 586-606). -/
def stop_body (events : Nat → _energy_native_event_entry_t) (cpu_energy_divisor : Int)
    (msrs : MsrFile) (i : Nat) (s : _energy_context_t × _energy_control_state_t) :
    _energy_context_t × _energy_control_state_t :=
  let context := s.1
  let control := s.2
  if control.being_measured i ≠ 0 then
    let temp := read_energy_value events msrs i
    if control.need_difference i ≠ 0 then
      let temp := mask32 temp
      let newstart := temp
      let temp :=
        if temp < context.start_value i then temp + (0x100000000 - context.start_value i)
        else temp - context.start_value i
      let context := { context with start_value := setAt context.start_value i newstart }
      let context :=
        { context with
          accumulated_value :=
            setAt context.accumulated_value i (context.accumulated_value i + temp) }
      let temp := context.accumulated_value i
      (context,
       { control with
         count := setAt control.count i (convert_energy_readings events cpu_energy_divisor i temp) })
    else
      (context,
       { control with
         count := setAt control.count i (convert_energy_readings events cpu_energy_divisor i temp) })
  else s

/-- Source: `_amd_energy_stop`. -/
def _amd_energy_stop (events : Nat → _energy_native_event_entry_t) (cpu_energy_divisor : Int)
    (msrs : MsrFile) (now : Int) (context : _energy_context_t)
    (control : _energy_control_state_t) :
    PapiStatus × _energy_context_t × _energy_control_state_t :=
  let s := for_loop (stop_body events cpu_energy_divisor msrs) AMD_ENERGY_MAX_COUNTERS
    (context, control)
  (PapiStatus.PAPI_OK, s.1, { s.2 with lastupdate := now })

/-- Source: `_amd_energy_read`: the result also carries what `*events` points
to afterwards, the `count` array of the control state. -/
def _amd_energy_read (events : Nat → _energy_native_event_entry_t) (cpu_energy_divisor : Int)
    (msrs : MsrFile) (now : Int) (context : _energy_context_t)
    (control : _energy_control_state_t) :
    PapiStatus × (Nat → Int) × _energy_context_t × _energy_control_state_t :=
  let r := _amd_energy_stop events cpu_energy_divisor msrs now context control
  (PapiStatus.PAPI_OK, r.2.2.count, r.2.1, r.2.2)

/-- The index that `_amd_energy_update_control_state` computes for a native
event: `ni_event & PAPI_NATIVE_AND_MASK`, an unsigned value stored in an `int`. -/
def native_index (papi : PapiDefs) (n : NativeInfo_t) : Int :=
  toInt32 (Nat.land (toUInt32 n.ni_event) papi.PAPI_NATIVE_AND_MASK)

/-- Body of the second loop of `_amd_energy_update_control_state` (source lines
688-697) for one entry of `native`. The source stores to `being_measured[index]`
and `need_difference[index]` without a bound check, and the arrays have
`AMD_ENERGY_MAX_COUNTERS` entries: for an index outside
`[0, AMD_ENERGY_MAX_COUNTERS)` the two stores fall outside the arrays, which C
leaves undefined (with the usual layout of the structure they land in `count`
or `lastupdate`). The model performs the stores that are within the arrays and
no other; `update_in_bounds` says when every store of a call is within them. -/
def update_body (papi : PapiDefs) (events : Nat → _energy_native_event_entry_t)
    (n : NativeInfo_t) (control : _energy_control_state_t) :
    NativeInfo_t × _energy_control_state_t :=
  let index := native_index papi n
  let n :=
    { n with ni_position := toInt32 ((events index.toNat).resources.selector + 4294967295) }
  if 0 ≤ index ∧ index < (AMD_ENERGY_MAX_COUNTERS : Int) then
    let control := { control with being_measured := setAt control.being_measured index.toNat 1 }
    let control :=
      { control with
        need_difference := setAt control.need_difference index.toNat
          (if (events index.toNat).type = PACKAGE_ENERGY ∨
              (events index.toNat).type = PACKAGE_ENERGY_CNT
           then 1 else 0) }
    (n, control)
  else (n, control)

/-- Every store of `_amd_energy_update_control_state` for the entries of `native`
is within the arrays of the control state: every index is in
`[0, AMD_ENERGY_MAX_COUNTERS)`. Outside this condition the call is undefined
in C. -/
def update_in_bounds (papi : PapiDefs) (native : List NativeInfo_t) : Prop :=
  ∀ n ∈ native, 0 ≤ native_index papi n ∧ native_index papi n < (AMD_ENERGY_MAX_COUNTERS : Int)

instance (papi : PapiDefs) (native : List NativeInfo_t) :
    Decidable (update_in_bounds papi native) := by
  unfold update_in_bounds; infer_instance

/-- The second loop of `_amd_energy_update_control_state` over the `count`
entries of `native`, in order. -/
def update_loop (papi : PapiDefs) (events : Nat → _energy_native_event_entry_t) :
    List NativeInfo_t → _energy_control_state_t → List NativeInfo_t × _energy_control_state_t
  | [], control => ([], control)
  | n :: rest, control =>
    let r := update_body papi events n control
    let rs := update_loop papi events rest r.2
    (r.1 :: rs.1, rs.2)

/-- Source: `_amd_energy_update_control_state`; `native` holds the `count`
entries of the argument array, and the result carries the array as written. -/
def _amd_energy_update_control_state (papi : PapiDefs)
    (events : Nat → _energy_native_event_entry_t) (control : _energy_control_state_t)
    (native : List NativeInfo_t) :
    PapiStatus × List NativeInfo_t × _energy_control_state_t :=
  let control :=
    for_loop (fun i c => { c with being_measured := setAt c.being_measured i 0 })
      AMD_ENERGY_MAX_COUNTERS control
  let r := update_loop papi events native control
  (PapiStatus.PAPI_OK, r.1, r.2)

/-! ## Native event enumeration -/

/-- Source: `_amd_energy_ntv_enum_events`; the result carries the value of
`*EventCode` after the call. -/
def _amd_energy_ntv_enum_events (papi : PapiDefs) (num_events : Int) (EventCode : Nat)
    (modifier : EnumModifier) : PapiStatus × Nat :=
  match modifier with
  | EnumModifier.PAPI_ENUM_FIRST =>
    if num_events = 0 then (PapiStatus.PAPI_ENOEVNT, EventCode)
    else (PapiStatus.PAPI_OK, 0)
  | EnumModifier.PAPI_ENUM_EVENTS =>
    let index := toInt32 (Nat.land EventCode papi.PAPI_NATIVE_AND_MASK)
    if index < num_events - 1 then (PapiStatus.PAPI_OK, (EventCode + 1) % 4294967296)
    else (PapiStatus.PAPI_ENOEVNT, EventCode)
  | EnumModifier.other => (PapiStatus.PAPI_EINVAL, EventCode)

/-- The codes a caller collects from `code` on: `code` itself, then the code of
each further `PAPI_ENUM_EVENTS` call as long as the call returns `PAPI_OK`;
`fuel` bounds the number of further calls. -/
def enum_from (papi : PapiDefs) (num_events : Int) : Nat → Nat → List Nat
  | 0, code => [code]
  | fuel + 1, code =>
    if (_amd_energy_ntv_enum_events papi num_events code EnumModifier.PAPI_ENUM_EVENTS).1 =
        PapiStatus.PAPI_OK then
      code :: enum_from papi num_events fuel
        (_amd_energy_ntv_enum_events papi num_events code EnumModifier.PAPI_ENUM_EVENTS).2
    else [code]

/-- The codes a caller collects by enumerating from the first event: one
`PAPI_ENUM_FIRST` call on a variable holding `code0`, then `PAPI_ENUM_EVENTS`
calls until one fails. -/
def enum_all (papi : PapiDefs) (num_events : Int) (code0 fuel : Nat) : List Nat :=
  if (_amd_energy_ntv_enum_events papi num_events code0 EnumModifier.PAPI_ENUM_FIRST).1 =
      PapiStatus.PAPI_OK then
    enum_from papi num_events fuel
      (_amd_energy_ntv_enum_events papi num_events code0 EnumModifier.PAPI_ENUM_FIRST).2
  else []

/-! ## Sequences of calls -/

/-- One measurement call after a start: which function is called, what the
registers hold at that moment, and the clock value. -/
structure Call where
  is_read : Bool
  msrs : MsrFile
  now : Int

/-- The context and control state after one stop or read call. -/
def run_call (events : Nat → _energy_native_event_entry_t) (cpu_energy_divisor : Int)
    (c : Call) (s : _energy_context_t × _energy_control_state_t) :
    _energy_context_t × _energy_control_state_t :=
  if c.is_read then
    ((_amd_energy_read events cpu_energy_divisor c.msrs c.now s.1 s.2).2.2.1,
     (_amd_energy_read events cpu_energy_divisor c.msrs c.now s.1 s.2).2.2.2)
  else
    ((_amd_energy_stop events cpu_energy_divisor c.msrs c.now s.1 s.2).2.1,
     (_amd_energy_stop events cpu_energy_divisor c.msrs c.now s.1 s.2).2.2)

/-- The context and control state after a sequence of stop and read calls. -/
def run_calls (events : Nat → _energy_native_event_entry_t) (cpu_energy_divisor : Int) :
    List Call → _energy_context_t × _energy_control_state_t →
      _energy_context_t × _energy_control_state_t
  | [], s => s
  | c :: cs, s => run_calls events cpu_energy_divisor cs (run_call events cpu_energy_divisor c s)

/-! ## Component initialization -/

def POWER_UNIT_OFFSET : Nat := 0

def POWER_UNIT_MASK : Nat := 0x0f

def ENERGY_UNIT_OFFSET : Nat := 0x08

def ENERGY_UNIT_MASK : Nat := 0x1f

/-- The expression `(x >> offset) & mask` on a two's-complement `long long`, for
a mask of the form `2^k - 1`: the shift is the division by `2^offset` rounded
down, the mask is the remainder modulo `mask + 1`. -/
def shr_and (x : Int) (offset mask : Nat) : Int :=
  (x / 2 ^ offset) % ((mask : Int) + 1)

/-- The expression `1 << n` in `int` for a shift count from 0 to 31. The value
`2^31` does not fit an `int`: C leaves the overflow undefined, and the
two's-complement result, which the model takes, is `INT_MIN`. -/
def shl_int32 (n : Int) : Int := toInt32 (2 ^ n.toNat)

/-- The `vendor` field of the hardware info: the value that the component
accepts, and any other value. -/
inductive Vendor where
  | PAPI_VENDOR_AMD
  | other
deriving DecidableEq, Repr

/-- Outcome of `fopen` followed by `fscanf(fff, "%d", &v)` on a file of sysfs:
the file cannot be opened, no number can be read, or the number `v` is read. -/
inductive ScanResult where
  | no_file
  | no_number
  | number (v : Int)
deriving DecidableEq, Repr

/-- Source: `get_kernel_nr_cpus`, on the outcome of scanning
`/sys/devices/system/cpu/kernel_max`. -/
def get_kernel_nr_cpus (kernel_max : ScanResult) : Int :=
  match kernel_max with
  | ScanResult.no_file => 1
  | ScanResult.no_number => 1
  | ScanResult.number v => v + 1

/-- The local state of the topology scan of `_amd_energy_init_component`: the
arrays `packages` and `cpu_to_use`, the counter `num_packages`, and the core
index `j`. -/
structure TopologyScan where
  packages : Nat → Int
  cpu_to_use : Nat → Int
  num_packages : Nat
  j : Nat

/-- A failed initialization: the return value and the text written to
`disabled_reason`. -/
structure InitFailure where
  retval : PapiStatus
  reason : String
deriving DecidableEq, Repr

/-- The name of the topology file of core `j`. -/
def topology_filename (j : Nat) : String :=
  "/sys/devices/system/cpu/cpu" ++ toString j ++ "/topology/physical_package_id"

/-- Text that `strcpy(buf, head); strncat(buf, tail, size - strlen(buf) - 1)`
leaves in the buffer. -/
def strcpy_strncat (size : Nat) (head tail : String) : String :=
  head ++ String.mk (tail.data.take (size - head.length - 1))

/-- Body of the `while` loop of the topology scan (source lines 316-361) for a
core whose topology file exists: `entry` is the package id read from it, or
`none` when no number can be read. The result is the state after the
iteration, and the failure when the iteration leaves through `fn_fail`. -/
def topology_step (papi : PapiDefs) (nr_cpus : Int) (entry : Option Int) (st : TopologyScan) :
    TopologyScan × Option InitFailure :=
  match entry with
  | none =>
    (st, some
      { retval := PapiStatus.PAPI_ESYS
        reason := strcpy_strncat papi.PAPI_MAX_STR_LEN "Error reading file: "
          (topology_filename st.j) })
  | some package =>
    if 0 ≤ package ∧ package < nr_cpus then
      if st.packages package.toNat = -1 then
        ({ packages := setAt st.packages package.toNat package
           cpu_to_use := setAt st.cpu_to_use package.toNat (st.j : Int)
           num_packages := st.num_packages + 1
           j := st.j + 1 }, none)
      else ({ st with j := st.j + 1 }, none)
    else
      (st, some
        { retval := PapiStatus.PAPI_ESYS
          reason := strncpy_z papi.PAPI_MAX_STR_LEN "Package outside of allowed range" })

/-- The `while` loop of the topology scan over the topology files that exist,
cores 0, 1, ... in order; the loop ends at the first core without a file. -/
def topology_loop (papi : PapiDefs) (nr_cpus : Int) :
    List (Option Int) → TopologyScan → TopologyScan × Option InitFailure
  | [], st => (st, none)
  | entry :: rest, st =>
    match (topology_step papi nr_cpus entry st).2 with
    | some failure => ((topology_step papi nr_cpus entry st).1, some failure)
    | none => topology_loop papi nr_cpus rest (topology_step papi nr_cpus entry st).1

/-- The sentinel fill (source lines 262-266) of an array of `nr_cpus` entries.
Entries at or beyond `nr_cpus` do not exist in C; the model gives them 0. -/
def sentinel_fill (nr_cpus : Int) : Nat → Int :=
  for_loop (fun i a => setAt a i (-1)) nr_cpus.toNat (fun _ => 0)

/-- The topology scan of `_amd_energy_init_component` (source lines 253-266 and
315-361): `nr_cpus`, the sentinel fill and the loop over the cores, starting
from the value of the static counter `num_packages`. -/
def discover_topology (papi : PapiDefs) (kernel_max : ScanResult) (topology : List (Option Int))
    (num_packages : Nat) : TopologyScan × Option InitFailure :=
  topology_loop papi (get_kernel_nr_cpus kernel_max) topology
    { packages := sentinel_fill (get_kernel_nr_cpus kernel_max)
      cpu_to_use := sentinel_fill (get_kernel_nr_cpus kernel_max)
      num_packages := num_packages
      j := 0 }

/-- What `_amd_energy_init_component` finds on the machine. -/
structure InitEnv where
  /-- Field `vendor` of the hardware info. -/
  vendor : Vendor
  /-- Field `cpuid_family` of the hardware info. -/
  cpuid_family : Int
  /-- Scan of `/sys/devices/system/cpu/kernel_max`. -/
  kernel_max : ScanResult
  /-- The package ids in the topology files of cores 0, 1, ..., as far as the
  files exist; `none` for a file without a number. -/
  topology : List (Option Int)
  /-- Whether `papi_calloc` delivers `fd_array`. -/
  fd_array_allocated : Bool
  /-- Whether `open_fd` of the cpu delivers a descriptor. -/
  can_open : Int → Bool
  /-- The text of `strerror(errno)` after a failed open. -/
  open_error : String
  /-- Whether the `pread` of the unit register delivers 8 bytes. -/
  rapl_readable : Bool
  /-- The content of the registers. -/
  msrs : MsrFile
  /-- Whether `papi_calloc` delivers `energy_native_events`. -/
  events_allocated : Bool
  /-- The text of the message on a failed allocation of the events (it holds the
  file name, the line and the byte count). -/
  events_error : String

/-- The static variables of the component and the fields of its `cmp_info`
that `_amd_energy_init_component` writes. -/
structure ComponentState where
  energy_native_events : Nat → _energy_native_event_entry_t
  num_events : Nat
  num_packages : Nat
  num_cpus : Nat
  power_divisor : Int
  cpu_energy_divisor : Int
  msr_rapl_power_unit : Nat
  disabled_reason : String
  disabled : PapiStatus
  num_native_events : Nat
  num_cntrs : Nat
  num_mpx_cntrs : Nat
  CmpIdx : Int

/-- The component when the library is loaded: the initial values of the static
variables (no events, no packages, an empty reason). -/
def component_at_load : ComponentState :=
  { energy_native_events := fun _ => zero_entry
    num_events := 0
    num_packages := 0
    num_cpus := 0
    power_divisor := 0
    cpu_energy_divisor := 0
    msr_rapl_power_unit := 0
    disabled_reason := ""
    disabled := PapiStatus.PAPI_OK
    num_native_events := 0
    num_cntrs := 0
    num_mpx_cntrs := 0
    CmpIdx := 0 }

/-- The label `fn_exit` of `_amd_energy_init_component`: the return value is
stored as the disabled status of the component. -/
def init_exit (retval : PapiStatus) (g : ComponentState) : PapiStatus × ComponentState :=
  (retval, { g with disabled := retval })

/-- Source: `_amd_energy_init_component`, from the unit register on (lines
406-525): the divisors, the allocation of the events, the event catalog and
the exported counts. -/
def init_units_and_events (papi : PapiDefs) (env : InitEnv) (cidx : Int)
    (cpu_to_use : Nat → Int) (g : ComponentState) : PapiStatus × ComponentState :=
  let result := env.msrs (cpu_to_use 0) g.msr_rapl_power_unit
  let g :=
    { g with power_divisor := shl_int32 (shr_and result POWER_UNIT_OFFSET POWER_UNIT_MASK) }
  let g :=
    { g with
      cpu_energy_divisor := shl_int32 (shr_and result ENERGY_UNIT_OFFSET ENERGY_UNIT_MASK) }
  let g := { g with num_events := (g.num_packages + g.num_cpus) * 2 }
  if env.events_allocated = false then
    init_exit PapiStatus.PAPI_ENOMEM
      { g with disabled_reason := strncpy_z papi.PAPI_MAX_STR_LEN env.events_error }
  else
    let g :=
      { g with
        energy_native_events :=
          (create_events papi g.num_packages g.num_cpus cpu_to_use).energy_native_events }
    let g := { g with num_native_events := g.num_events }
    let g := { g with num_cntrs := g.num_events }
    let g := { g with num_mpx_cntrs := g.num_events }
    let g := { g with CmpIdx := cidx }
    init_exit PapiStatus.PAPI_OK g

/-- Source: `_amd_energy_init_component`, after the topology scan (lines
362-404): the package count check, the descriptor table, and the check that
the unit register can be opened and read. -/
def init_after_topology (papi : PapiDefs) (env : InitEnv) (cidx : Int) (scan : TopologyScan)
    (g : ComponentState) : PapiStatus × ComponentState :=
  let g := { g with num_cpus := scan.j }
  if g.num_packages = 0 then
    init_exit PapiStatus.PAPI_ESYS
      { g with
        disabled_reason :=
          strncpy_z papi.PAPI_MAX_STR_LEN "Can\x27t access /dev/cpu/*/<msr_safe | msr>" }
  else if env.fd_array_allocated = false then
    init_exit PapiStatus.PAPI_ENOMEM g
  else if env.can_open (scan.cpu_to_use 0) = false then
    init_exit PapiStatus.PAPI_ESYS
      { g with
        disabled_reason :=
          strncpy_z papi.PAPI_MAX_STR_LEN ("Can\x27t open fd for cpu0: " ++ env.open_error) }
  else if env.rapl_readable = false then
    init_exit PapiStatus.PAPI_ESYS
      { g with
        disabled_reason := strncpy_z papi.PAPI_MAX_STR_LEN "Unable to access RAPL registers" }
  else init_units_and_events papi env cidx scan.cpu_to_use g

/-- Source: `_amd_energy_init_component`. The static counter `num_packages` is
incremented by the scan itself, so that it keeps its value when the scan
fails. -/
def _amd_energy_init_component (papi : PapiDefs) (env : InitEnv) (cidx : Int)
    (g : ComponentState) : PapiStatus × ComponentState :=
  match env.vendor with
  | Vendor.other =>
    init_exit PapiStatus.PAPI_ENOSUPP
      { g with disabled_reason := strncpy_z papi.PAPI_MAX_STR_LEN "Not a supported processor" }
  | Vendor.PAPI_VENDOR_AMD =>
    let g := { g with msr_rapl_power_unit := MSR_AMD_RAPL_POWER_UNIT }
    if env.cpuid_family ≠ 0x17 then
      init_exit PapiStatus.PAPI_ENOIMPL
        { g with disabled_reason := strncpy_z papi.PAPI_MAX_STR_LEN "CPU family not supported" }
    else
      let scan := discover_topology papi env.kernel_max env.topology g.num_packages
      let g := { g with num_packages := scan.1.num_packages }
      match scan.2 with
      | some failure => init_exit failure.retval { g with disabled_reason := failure.reason }
      | none => init_after_topology papi env cidx scan.1 g

/-! ## Lookup of native events -/

/-- Sizes of the text fields of the framework's `PAPI_event_info_t` (declared in
`papi.h`, not part of the component). -/
structure InfoSizes where
  symbol : Nat
  long_descr : Nat
  units : Nat
deriving Repr

/-- The fields of `PAPI_event_info_t` that `_amd_energy_ntv_code_to_info` writes. -/
structure EventInfo where
  symbol : String
  long_descr : String
  units : String
  data_type : Int
deriving DecidableEq, Repr

/-- Text that `strncpy(buf, text, len)` writes to the buffer. -/
def strncpy_n (len : Nat) (text : String) : String :=
  String.mk (text.data.take len)

/-- Source: `_amd_energy_ntv_code_to_name`; the result carries the text copied
to `name`, `none` when nothing is copied. -/
def _amd_energy_ntv_code_to_name (papi : PapiDefs)
    (events : Nat → _energy_native_event_entry_t) (num_events : Int) (EventCode : Nat)
    (len : Nat) : PapiStatus × Option String :=
  let index := toInt32 (Nat.land EventCode papi.PAPI_NATIVE_AND_MASK)
  if 0 ≤ index ∧ index < num_events then
    (PapiStatus.PAPI_OK, some (strncpy_n len (events index.toNat).name))
  else (PapiStatus.PAPI_ENOEVNT, none)

/-- Source: `_amd_energy_ntv_code_to_descr`. -/
def _amd_energy_ntv_code_to_descr (events : Nat → _energy_native_event_entry_t)
    (num_events : Int) (EventCode : Nat) (len : Nat) : PapiStatus × Option String :=
  let index := toInt32 EventCode
  if 0 ≤ index ∧ index < num_events then
    (PapiStatus.PAPI_OK, some (strncpy_n len (events index.toNat).description))
  else (PapiStatus.PAPI_ENOEVNT, none)

/-- Source: `_amd_energy_ntv_code_to_info`. -/
def _amd_energy_ntv_code_to_info (sizes : InfoSizes)
    (events : Nat → _energy_native_event_entry_t) (num_events : Int) (EventCode : Nat) :
    PapiStatus × Option EventInfo :=
  let index := toInt32 EventCode
  if index < 0 ∨ index ≥ num_events then (PapiStatus.PAPI_ENOEVNT, none)
  else
    (PapiStatus.PAPI_OK,
     some
      { symbol := strncpy_z sizes.symbol (events index.toNat).name
        long_descr := strncpy_z sizes.long_descr (events index.toNat).description
        units := strncpy_z sizes.units (events index.toNat).units
        data_type := (events index.toNat).return_type })

/-- The sizes of the text fields in the PAPI releases; used for concrete
instances only. -/
def infoSizesRelease : InfoSizes := { symbol := 1024, long_descr := 1024, units := 64 }

/-! ## The wraparound law of the specification -/

/-- The wraparound law in the words of the specification: a reading below the
baseline counts as one wrap of the 32-bit counter. -/
def wrap_delta (baseline reading : Int) : Int :=
  if reading < baseline then reading + (4294967296 - baseline) else reading - baseline

/-- A slot that start and stop difference: selected and flagged. -/
def differenced (control : _energy_control_state_t) (i : Nat) : Prop :=
  control.being_measured i ≠ 0 ∧ control.need_difference i ≠ 0

instance (control : _energy_control_state_t) (i : Nat) : Decidable (differenced control i) := by
  unfold differenced; infer_instance

/-- The per-call deltas of slot `i` along a sequence of calls, in the words of the
specification: each is the wraparound law applied to the baseline the previous
call left and the masked reading of this call. -/
def call_deltas (events : Nat → _energy_native_event_entry_t) (cpu_energy_divisor : Int)
    (i : Nat) : List Call → _energy_context_t × _energy_control_state_t → List Int
  | [], _ => []
  | c :: cs, s =>
    wrap_delta (s.1.start_value i) (mask32 (read_energy_value events c.msrs i)) ::
      call_deltas events cpu_energy_divisor i cs (run_call events cpu_energy_divisor c s)

/-! ## Concrete instances -/

/-- A control state with slot 0 selected and differenced, nothing else selected. -/
def control_slot0 : _energy_control_state_t :=
  { being_measured := fun j => if j = 0 then 1 else 0
    count := fun _ => 0
    need_difference := fun j => if j = 0 then 1 else 0
    lastupdate := 0 }

/-- A context whose baselines are all `b`, with totals `a`. -/
def context_const (b a : Int) : _energy_context_t :=
  { start_value := fun _ => b
    accumulated_value := fun _ => a
    state := control_slot0 }

/-- Registers that all hold the value `v`. -/
def msrs_const (v : Int) : MsrFile := fun _ _ => v

/-- The twelve native events of a machine with 2 packages and 4 cores, as the
framework passes them. -/
def native_twelve : List NativeInfo_t :=
  (List.range 12).map (fun c => { ni_event := (c : Int), ni_position := 0 })

/-- The native event with code 260 alone, as the framework passes it: on a
catalog of more than `AMD_ENERGY_MAX_COUNTERS` events, the first event beyond
the slots of the arrays. -/
def native_code_260 : List NativeInfo_t := [{ ni_event := 260, ni_position := 0 }]

/-- A control state with nothing selected, no difference flag set, and every
reported count equal to `c`. -/
def control_reported (c : Int) : _energy_control_state_t :=
  { being_measured := fun _ => 0
    count := fun _ => c
    need_difference := fun _ => 0
    lastupdate := 0 }

/-- The `cpu_to_use` table of a machine whose packages 0 and 1 are first seen on
cpus 0 and 2. -/
def cpu_to_use_two : Nat → Int := fun j => if j = 0 then 0 else if j = 1 then 2 else -1

/-- A machine of family 17h with 4 cores in packages 0, 0, 1, 1, on which
every file and register can be read and the unit register holds `unit`. -/
def env_two_packages (unit : Int) : InitEnv :=
  { vendor := Vendor.PAPI_VENDOR_AMD
    cpuid_family := 0x17
    kernel_max := ScanResult.number 7
    topology := [some 0, some 0, some 1, some 1]
    fd_array_allocated := true
    can_open := fun _ => true
    open_error := ""
    rapl_readable := true
    msrs := fun _ _ => unit
    events_allocated := true
    events_error := "" }

/-- A machine of family 17h whose topology files hold the given package ids,
with `kernel_max` 7, on which every file and register can be read. -/
def env_with_topology (topology : List (Option Int)) : InitEnv :=
  { vendor := Vendor.PAPI_VENDOR_AMD
    cpuid_family := 0x17
    kernel_max := ScanResult.number 7
    topology := topology
    fd_array_allocated := true
    can_open := fun _ => true
    open_error := ""
    rapl_readable := true
    msrs := fun _ _ => 0x000A1003
    events_allocated := true
    events_error := "" }

/-- The state of the topology scan after the cores with the package ids `pre`,
in the words of the specification: the core count, one more package for every
distinct id, and for every id its first core as representative; an id that did
not occur keeps the sentinel. -/
def scan_invariant (nr_cpus : Int) (n0 : Nat) (pre : List Int) (st : TopologyScan) : Prop :=
  st.j = pre.length ∧ st.num_packages = n0 + pre.toFinset.card ∧
  ∀ p : Int, 0 ≤ p → p < nr_cpus →
    (p ∈ pre → st.packages p.toNat = p ∧ st.cpu_to_use p.toNat = (pre.indexOf p : Int)) ∧
    (p ∉ pre → st.packages p.toNat = -1 ∧ st.cpu_to_use p.toNat = -1)

/-- The failure of the topology scan on a package id outside the range. -/
def range_failure (papi : PapiDefs) : InitFailure :=
  { retval := PapiStatus.PAPI_ESYS
    reason := strncpy_z papi.PAPI_MAX_STR_LEN "Package outside of allowed range" }

/-- The value of a decimal digit string with the digit `c` appended to a string
of value `acc`; folding it over the digits reads back what `%d` printed. -/
def digit_value (acc : Nat) (c : Char) : Nat := acc * 10 + (c.toNat - 48)

/-- The four kinds of names of the catalog, in the order of the catalog. -/
def kind_text (kind : Fin 4) : String :=
  if kind = 0 then "PACKAGE_ENERGY_CNT:PACKAGE"
  else if kind = 1 then "PP0_ENERGY_CNT:CORE"
  else if kind = 2 then "PACKAGE_ENERGY:PACKAGE"
  else "PP0_ENERGY:CORE"

/-- The kind of name at a position of the catalog of `P` packages and `C` cores. -/
def name_kind (P C pos : Nat) : Fin 4 :=
  if pos < P then 0 else if pos < P + C then 1 else if pos < P + C + P then 2 else 3

/-- The package or core index in the name at a position of the catalog. -/
def name_index (P C pos : Nat) : Nat :=
  if pos < P then pos
  else if pos < P + C then pos - P
  else if pos < P + C + P then pos - (P + C)
  else pos - (P + C + P)

/-- The readings of a slot follow a true, unwrapped counter: from the value
`t_prev` on, each call of the list comes with the true value `t` of the counter
at that moment, the counter does not decrease, grows by less than `2^32`
between two calls, and the register read by the call holds a value whose low
32 bits are those of `t`. -/
def tracks_counter (events : Nat → _energy_native_event_entry_t) (i : Nat) :
    Int → List (Call × Int) → Prop
  | _, [] => True
  | t_prev, step :: rest =>
    t_prev ≤ step.2 ∧ step.2 - t_prev < 4294967296 ∧
      mask32 (read_energy_value events step.1.msrs i) = step.2 % 4294967296 ∧
      tracks_counter events i step.2 rest

/-- The true value of the counter at the last call of the list, `t0` when the
list is empty. -/
def last_counter : Int → List (Call × Int) → Int
  | t0, [] => t0
  | _, step :: rest => last_counter step.2 rest

/-- The three calls of the counter state machine. -/
inductive OperationKind where
  | start
  | stop
  | read
deriving DecidableEq, Repr

/-- One call of the counter state machine: which function is called, what the
registers hold at that moment, and the clock value. -/
structure Operation where
  kind : OperationKind
  msrs : MsrFile
  now : Int

/-- The context and control state after one start, stop or read call. -/
def run_operation (events : Nat → _energy_native_event_entry_t) (cpu_energy_divisor : Int)
    (op : Operation) (s : _energy_context_t × _energy_control_state_t) :
    _energy_context_t × _energy_control_state_t :=
  match op.kind with
  | OperationKind.start =>
    ((_amd_energy_start events op.msrs op.now s.1 s.2).2.1,
     (_amd_energy_start events op.msrs op.now s.1 s.2).2.2)
  | OperationKind.stop =>
    ((_amd_energy_stop events cpu_energy_divisor op.msrs op.now s.1 s.2).2.1,
     (_amd_energy_stop events cpu_energy_divisor op.msrs op.now s.1 s.2).2.2)
  | OperationKind.read =>
    ((_amd_energy_read events cpu_energy_divisor op.msrs op.now s.1 s.2).2.2.1,
     (_amd_energy_read events cpu_energy_divisor op.msrs op.now s.1 s.2).2.2.2)

/-- The context and control state after a sequence of start, stop and read calls. -/
def run_operations (events : Nat → _energy_native_event_entry_t) (cpu_energy_divisor : Int) :
    List Operation → _energy_context_t × _energy_control_state_t →
      _energy_context_t × _energy_control_state_t
  | [], s => s
  | op :: ops, s =>
    run_operations events cpu_energy_divisor ops (run_operation events cpu_energy_divisor op s)

/-- The invariant of a slot: the baseline is a 32-bit value and the total is not
negative. -/
def slot_invariant (s : _energy_context_t × _energy_control_state_t) (i : Nat) : Prop :=
  0 ≤ s.1.start_value i ∧ s.1.start_value i < 4294967296 ∧ 0 ≤ s.1.accumulated_value i

/-- A stop at the true counter value `0x100000010` and a read at `0x1FFFFFFF0`,
after a start at `0xFFFFFFF0`: the 32-bit register holds `0x10`, then
`0xFFFFFFF0`. -/
def steps_two_wraps : List (Call × Int) :=
  [({ is_read := false, msrs := msrs_const 0x10, now := 1 }, 0x100000010),
   ({ is_read := true, msrs := msrs_const 0xFFFFFFF0, now := 2 }, 0x1FFFFFFF0)]

/-! # Theorems -/

/-! ## Arrays, masks and the loops in closed form -/

theorem setAt_same {α : Type} (a : Nat → α) (i : Nat) (v : α) : setAt a i v i = v := by
  simp [setAt]

theorem setAt_other {α : Type} (a : Nat → α) (i j : Nat) (v : α) (h : j ≠ i) :
    setAt a i v j = a j := by
  simp [setAt, h]

theorem mask32_nonneg (x : Int) : 0 ≤ mask32 x := by
  unfold mask32; omega

theorem mask32_lt (x : Int) : mask32 x < 4294967296 := by
  unfold mask32; omega

theorem mask32_of_range (x : Int) (h0 : 0 ≤ x) (h1 : x < 4294967296) : mask32 x = x := by
  unfold mask32; omega

theorem wrap_delta_nonneg (b r : Int) (hb : b < 4294967296) (hr : 0 ≤ r) :
    0 ≤ wrap_delta b r := by
  unfold wrap_delta; split <;> omega

theorem wrap_delta_self (b : Int) : wrap_delta b b = 0 := by
  unfold wrap_delta; simp

/-- The loop of `_amd_energy_start` after `n` iterations. -/
theorem start_loop_closed (events : Nat → _energy_native_event_entry_t) (msrs : MsrFile)
    (control : _energy_control_state_t) (n : Nat) (context : _energy_context_t) :
    for_loop (start_body events msrs control) n context =
      { start_value := fun j =>
          if j < n ∧ differenced control j then mask32 (read_energy_value events msrs j)
          else context.start_value j
        accumulated_value := fun j =>
          if j < n ∧ differenced control j then 0 else context.accumulated_value j
        state := context.state } := by
  induction n with
  | zero => simp [for_loop]
  | succ n ih =>
    rw [for_loop, ih]
    unfold start_body
    by_cases hd : control.being_measured n ≠ 0 ∧ control.need_difference n ≠ 0
    · rw [if_pos hd]
      simp only [_energy_context_t.mk.injEq, and_true]
      constructor <;> funext j <;> by_cases hj : j = n
      · subst hj; simp [setAt, differenced, hd]
      · have : j < n + 1 ↔ j < n := by omega
        simp [setAt, hj, this]
      · subst hj; simp [setAt, differenced, hd]
      · have : j < n + 1 ↔ j < n := by omega
        simp [setAt, hj, this]
    · rw [if_neg hd]
      simp only [_energy_context_t.mk.injEq, and_true]
      constructor <;> funext j <;> by_cases hj : j = n
      · subst hj; simp [differenced, hd]
      · have : j < n + 1 ↔ j < n := by omega
        simp [this]
      · subst hj; simp [differenced, hd]
      · have : j < n + 1 ↔ j < n := by omega
        simp [this]

/-- The loop of `_amd_energy_stop` after `n` iterations. -/
theorem stop_loop_closed (events : Nat → _energy_native_event_entry_t) (D : Int)
    (msrs : MsrFile) (n : Nat) (context : _energy_context_t)
    (control : _energy_control_state_t) :
    for_loop (stop_body events D msrs) n (context, control) =
      ({ start_value := fun j =>
           if j < n ∧ differenced control j then mask32 (read_energy_value events msrs j)
           else context.start_value j
         accumulated_value := fun j =>
           if j < n ∧ differenced control j then
             context.accumulated_value j +
               wrap_delta (context.start_value j) (mask32 (read_energy_value events msrs j))
           else context.accumulated_value j
         state := context.state },
       { being_measured := control.being_measured
         count := fun j =>
           if j < n ∧ control.being_measured j ≠ 0 then
             if control.need_difference j ≠ 0 then
               convert_energy_readings events D j
                 (context.accumulated_value j +
                   wrap_delta (context.start_value j) (mask32 (read_energy_value events msrs j)))
             else convert_energy_readings events D j (read_energy_value events msrs j)
           else control.count j
         need_difference := control.need_difference
         lastupdate := control.lastupdate }) := by
  induction n with
  | zero => simp [for_loop]
  | succ n ih =>
    rw [for_loop, ih]
    unfold stop_body
    simp only []
    by_cases hb : control.being_measured n ≠ 0
    · rw [if_pos hb]
      by_cases hn : control.need_difference n ≠ 0
      · rw [if_pos hn]
        simp only [Prod.mk.injEq, _energy_context_t.mk.injEq, _energy_control_state_t.mk.injEq,
          and_true, true_and]
        refine ⟨⟨?_, ?_⟩, ?_⟩ <;> funext j <;> by_cases hj : j = n
        · subst hj; simp [setAt, differenced, hb, hn]
        · have : j < n + 1 ↔ j < n := by omega
          simp [setAt, hj, this]
        · subst hj; simp [setAt, differenced, hb, hn, wrap_delta]
        · have : j < n + 1 ↔ j < n := by omega
          simp [setAt, hj, this]
        · subst hj; simp [setAt, differenced, hb, hn, wrap_delta]
        · have : j < n + 1 ↔ j < n := by omega
          simp [setAt, hj, this]
      · rw [if_neg hn]
        simp only [Prod.mk.injEq, _energy_context_t.mk.injEq, _energy_control_state_t.mk.injEq,
          and_true, true_and]
        refine ⟨⟨?_, ?_⟩, ?_⟩ <;> funext j <;> by_cases hj : j = n
        · subst hj; simp [differenced, hn]
        · have : j < n + 1 ↔ j < n := by omega
          simp [this]
        · subst hj; simp [differenced, hn]
        · have : j < n + 1 ↔ j < n := by omega
          simp [this]
        · subst hj; simp [setAt, hb, hn]
        · have : j < n + 1 ↔ j < n := by omega
          simp [setAt, hj, this]
    · rw [if_neg hb]
      simp only [Prod.mk.injEq, _energy_context_t.mk.injEq, _energy_control_state_t.mk.injEq,
        and_true, true_and]
      refine ⟨⟨?_, ?_⟩, ?_⟩ <;> funext j <;> by_cases hj : j = n
      · subst hj; simp [differenced, hb]
      · have : j < n + 1 ↔ j < n := by omega
        simp [this]
      · subst hj; simp [differenced, hb]
      · have : j < n + 1 ↔ j < n := by omega
        simp [this]
      · subst hj; simp [hb]
      · have : j < n + 1 ↔ j < n := by omega
        simp [this]

/-- The context that `_amd_energy_start` leaves, slot by slot. -/
theorem start_context (events : Nat → _energy_native_event_entry_t) (msrs : MsrFile) (now : Int)
    (context : _energy_context_t) (control : _energy_control_state_t) :
    (_amd_energy_start events msrs now context control).2.1 =
      { start_value := fun j =>
          if j < AMD_ENERGY_MAX_COUNTERS ∧ differenced control j then
            mask32 (read_energy_value events msrs j)
          else context.start_value j
        accumulated_value := fun j =>
          if j < AMD_ENERGY_MAX_COUNTERS ∧ differenced control j then 0
          else context.accumulated_value j
        state := context.state } := by
  unfold _amd_energy_start
  simp only [start_loop_closed]

/-- The control state that `_amd_energy_start` leaves. -/
theorem start_control (events : Nat → _energy_native_event_entry_t) (msrs : MsrFile) (now : Int)
    (context : _energy_context_t) (control : _energy_control_state_t) :
    (_amd_energy_start events msrs now context control).2.2 =
      { control with lastupdate := now } := by
  unfold _amd_energy_start
  simp only []

/-- The context that `_amd_energy_stop` leaves, slot by slot. -/
theorem stop_context (events : Nat → _energy_native_event_entry_t) (D : Int) (msrs : MsrFile)
    (now : Int) (context : _energy_context_t) (control : _energy_control_state_t) :
    (_amd_energy_stop events D msrs now context control).2.1 =
      { start_value := fun j =>
          if j < AMD_ENERGY_MAX_COUNTERS ∧ differenced control j then
            mask32 (read_energy_value events msrs j)
          else context.start_value j
        accumulated_value := fun j =>
          if j < AMD_ENERGY_MAX_COUNTERS ∧ differenced control j then
            context.accumulated_value j +
              wrap_delta (context.start_value j) (mask32 (read_energy_value events msrs j))
          else context.accumulated_value j
        state := context.state } := by
  unfold _amd_energy_stop
  simp only [stop_loop_closed]

/-- The control state that `_amd_energy_stop` leaves, slot by slot. -/
theorem stop_control (events : Nat → _energy_native_event_entry_t) (D : Int) (msrs : MsrFile)
    (now : Int) (context : _energy_context_t) (control : _energy_control_state_t) :
    (_amd_energy_stop events D msrs now context control).2.2 =
      { being_measured := control.being_measured
        count := fun j =>
          if j < AMD_ENERGY_MAX_COUNTERS ∧ control.being_measured j ≠ 0 then
            if control.need_difference j ≠ 0 then
              convert_energy_readings events D j
                (context.accumulated_value j +
                  wrap_delta (context.start_value j) (mask32 (read_energy_value events msrs j)))
            else convert_energy_readings events D j (read_energy_value events msrs j)
          else control.count j
        need_difference := control.need_difference
        lastupdate := now } := by
  unfold _amd_energy_stop
  simp only [stop_loop_closed]

/-- An active differenced slot after `_amd_energy_stop`: baseline, total and count. -/
theorem stop_slot (events : Nat → _energy_native_event_entry_t) (D : Int) (msrs : MsrFile)
    (now : Int) (context : _energy_context_t) (control : _energy_control_state_t) (i : Nat)
    (hi : i < AMD_ENERGY_MAX_COUNTERS) (hd : differenced control i) :
    (_amd_energy_stop events D msrs now context control).2.1.start_value i =
        mask32 (read_energy_value events msrs i) ∧
    (_amd_energy_stop events D msrs now context control).2.1.accumulated_value i =
        context.accumulated_value i +
          wrap_delta (context.start_value i) (mask32 (read_energy_value events msrs i)) ∧
    (_amd_energy_stop events D msrs now context control).2.2.count i =
        convert_energy_readings events D i
          (context.accumulated_value i +
            wrap_delta (context.start_value i) (mask32 (read_energy_value events msrs i))) := by
  rw [stop_context, stop_control]
  have hb : control.being_measured i ≠ 0 := hd.1
  have hn : control.need_difference i ≠ 0 := hd.2
  simp [hi, hd, hb, hn]

/-- An active differenced slot after `_amd_energy_start`. -/
theorem start_slot (events : Nat → _energy_native_event_entry_t) (msrs : MsrFile)
    (now : Int) (context : _energy_context_t) (control : _energy_control_state_t) (i : Nat)
    (hi : i < AMD_ENERGY_MAX_COUNTERS) (hd : differenced control i) :
    (_amd_energy_start events msrs now context control).2.1.start_value i =
        mask32 (read_energy_value events msrs i) ∧
    (_amd_energy_start events msrs now context control).2.1.accumulated_value i = 0 := by
  rw [start_context]
  simp [hi, hd]

/-- Stop keeps the selection and the difference flags. -/
theorem stop_differenced (events : Nat → _energy_native_event_entry_t) (D : Int) (msrs : MsrFile)
    (now : Int) (context : _energy_context_t) (control : _energy_control_state_t) (i : Nat) :
    differenced (_amd_energy_stop events D msrs now context control).2.2 i ↔
      differenced control i := by
  rw [stop_control]; simp [differenced]

/-- Start keeps the selection and the difference flags. -/
theorem start_differenced (events : Nat → _energy_native_event_entry_t) (msrs : MsrFile)
    (now : Int) (context : _energy_context_t) (control : _energy_control_state_t) (i : Nat) :
    differenced (_amd_energy_start events msrs now context control).2.2 i ↔
      differenced control i := by
  rw [start_control]; simp [differenced]

/-- Read is stop, with the `count` array handed back. -/
theorem read_eq_stop (events : Nat → _energy_native_event_entry_t) (D : Int) (msrs : MsrFile)
    (now : Int) (context : _energy_context_t) (control : _energy_control_state_t) :
    _amd_energy_read events D msrs now context control =
      (PapiStatus.PAPI_OK,
       (_amd_energy_stop events D msrs now context control).2.2.count,
       (_amd_energy_stop events D msrs now context control).2.1,
       (_amd_energy_stop events D msrs now context control).2.2) := rfl

/-- The context after read is the context after stop. -/
theorem read_context (events : Nat → _energy_native_event_entry_t) (D : Int) (msrs : MsrFile)
    (now : Int) (context : _energy_context_t) (control : _energy_control_state_t) :
    (_amd_energy_read events D msrs now context control).2.2.1 =
      (_amd_energy_stop events D msrs now context control).2.1 := by
  rw [read_eq_stop]

/-- The control state after read is the control state after stop. -/
theorem read_control (events : Nat → _energy_native_event_entry_t) (D : Int) (msrs : MsrFile)
    (now : Int) (context : _energy_context_t) (control : _energy_control_state_t) :
    (_amd_energy_read events D msrs now context control).2.2.2 =
      (_amd_energy_stop events D msrs now context control).2.2 := by
  rw [read_eq_stop]

theorem control_slot0_differenced : differenced control_slot0 0 := by
  unfold differenced control_slot0; simp

/-! ## Claims on start, stop and read -/

/-- C1: for every stored baseline `b` and every raw reading, with `r` the reading
masked to its low 32 bits, `_amd_energy_stop` adds to the accumulated total of
an active differenced slot the delta `r + (2^32 - b)` when `r < b` and `r - b`
when `r >= b`; with baseline `0xFFFFFFF0` and reading `0x00000010` the delta is
`0x20`. -/
theorem stop_adds_wraparound_delta (events : Nat → _energy_native_event_entry_t) (D : Int)
    (msrs : MsrFile) (now : Int) (context : _energy_context_t)
    (control : _energy_control_state_t) (i : Nat)
    (hi : i < AMD_ENERGY_MAX_COUNTERS) (hb : control.being_measured i ≠ 0)
    (hn : control.need_difference i ≠ 0) :
    (mask32 (read_energy_value events msrs i) < context.start_value i →
      (_amd_energy_stop events D msrs now context control).2.1.accumulated_value i =
        context.accumulated_value i +
          (mask32 (read_energy_value events msrs i) + (2 ^ 32 - context.start_value i))) ∧
    (context.start_value i ≤ mask32 (read_energy_value events msrs i) →
      (_amd_energy_stop events D msrs now context control).2.1.accumulated_value i =
        context.accumulated_value i +
          (mask32 (read_energy_value events msrs i) - context.start_value i)) ∧
    (context.start_value i = 0xFFFFFFF0 → mask32 (read_energy_value events msrs i) = 0x00000010 →
      (_amd_energy_stop events D msrs now context control).2.1.accumulated_value i =
        context.accumulated_value i + 0x20) := by
  have h := (stop_slot events D msrs now context control i hi ⟨hb, hn⟩).2.1
  rw [h]
  unfold wrap_delta
  refine ⟨?_, ?_, ?_⟩
  · intro hlt; rw [if_pos hlt]; norm_num
  · intro hle; rw [if_neg (not_lt.mpr hle)]
  · intro h1 h2; rw [h1, h2]; norm_num

/-- Witness of C1: baseline `0xFFFFFFF0`, raw reading `0x10`, previous total 7. -/
theorem stop_adds_wraparound_delta_witness :
    (0 < AMD_ENERGY_MAX_COUNTERS ∧ control_slot0.being_measured 0 ≠ 0 ∧
      control_slot0.need_difference 0 ≠ 0) ∧
    (_amd_energy_stop (fun _ => zero_entry) 65536 (msrs_const 0x10) 0
        (context_const 0xFFFFFFF0 7) control_slot0).2.1.accumulated_value 0 = 7 + 0x20 :=
  ⟨⟨by decide, by decide, by decide⟩,
   (stop_adds_wraparound_delta (fun _ => zero_entry) 65536 (msrs_const 0x10) 0
      (context_const 0xFFFFFFF0 7) control_slot0 0 (by decide) (by decide) (by decide)).2.2
      rfl (by decide)⟩

/-- C8: `_amd_energy_start` stores, for every slot that is selected and flagged
for differencing, the raw reading modulo 2^32 as `start_value` and 0 as
`accumulated_value`; every other slot keeps both values; and the `count`,
`being_measured` and `need_difference` arrays are the ones before the call. -/
theorem start_frame (events : Nat → _energy_native_event_entry_t) (msrs : MsrFile) (now : Int)
    (context : _energy_context_t) (control : _energy_control_state_t) (i : Nat) :
    (_amd_energy_start events msrs now context control).2.1.start_value i =
      (if i < AMD_ENERGY_MAX_COUNTERS ∧ control.being_measured i ≠ 0 ∧
          control.need_difference i ≠ 0 then
        read_energy_value events msrs i % 2 ^ 32
      else context.start_value i) ∧
    (_amd_energy_start events msrs now context control).2.1.accumulated_value i =
      (if i < AMD_ENERGY_MAX_COUNTERS ∧ control.being_measured i ≠ 0 ∧
          control.need_difference i ≠ 0 then 0
      else context.accumulated_value i) ∧
    (_amd_energy_start events msrs now context control).2.2.count = control.count ∧
    (_amd_energy_start events msrs now context control).2.2.being_measured =
      control.being_measured ∧
    (_amd_energy_start events msrs now context control).2.2.need_difference =
      control.need_difference ∧
    (_amd_energy_start events msrs now context control).1 = PapiStatus.PAPI_OK := by
  rw [start_context, start_control]
  refine ⟨?_, ?_, rfl, rfl, rfl, rfl⟩
  · simp only [differenced, mask32]; norm_num
  · simp only [differenced]

/-- C9, as stated, fails: with the raw reading `0x100000005` (bit 32 set) the
baseline that `_amd_energy_stop` stores for an active differenced slot is 5,
the low 32 bits, and not the reading. -/
theorem stop_baseline_unmasked_counterexample :
    read_energy_value (fun _ => zero_entry) (msrs_const 0x100000005) 0 = 0x100000005 ∧
    (_amd_energy_stop (fun _ => zero_entry) 65536 (msrs_const 0x100000005) 0
        (context_const 0 0) control_slot0).2.1.start_value 0 = 5 ∧
    (_amd_energy_stop (fun _ => zero_entry) 65536 (msrs_const 0x100000005) 0
        (context_const 0 0) control_slot0).2.1.start_value 0 ≠
      read_energy_value (fun _ => zero_entry) (msrs_const 0x100000005) 0 := by
  have h := (stop_slot (fun _ => zero_entry) 65536 (msrs_const 0x100000005) 0
    (context_const 0 0) control_slot0 0 (by decide) control_slot0_differenced).1
  rw [h]
  decide

/-- C9, amended: after `_amd_energy_stop` processes an active slot with
`need_difference` set, the stored baseline (`start_value`) is the new reading
masked to its low 32 bits, and the value passed to the conversion is the
running accumulated total (the total after the delta of this call is added). -/
theorem stop_baseline_masked (events : Nat → _energy_native_event_entry_t) (D : Int)
    (msrs : MsrFile) (now : Int) (context : _energy_context_t)
    (control : _energy_control_state_t) (i : Nat)
    (hi : i < AMD_ENERGY_MAX_COUNTERS) (hb : control.being_measured i ≠ 0)
    (hn : control.need_difference i ≠ 0) :
    (_amd_energy_stop events D msrs now context control).2.1.start_value i =
      read_energy_value events msrs i % 2 ^ 32 ∧
    (_amd_energy_stop events D msrs now context control).2.2.count i =
      convert_energy_readings events D i
        ((_amd_energy_stop events D msrs now context control).2.1.accumulated_value i) := by
  obtain ⟨h1, h2, h3⟩ := stop_slot events D msrs now context control i hi ⟨hb, hn⟩
  rw [h1, h2, h3]
  exact ⟨by simp only [mask32]; norm_num, rfl⟩

/-- Witness of the amended C9: raw reading `0x100000005`, stored baseline 5. -/
theorem stop_baseline_masked_witness :
    (0 < AMD_ENERGY_MAX_COUNTERS ∧ control_slot0.being_measured 0 ≠ 0 ∧
      control_slot0.need_difference 0 ≠ 0) ∧
    (_amd_energy_stop (fun _ => zero_entry) 65536 (msrs_const 0x100000005) 0
        (context_const 0 0) control_slot0).2.1.start_value 0 = 5 :=
  ⟨⟨by decide, by decide, by decide⟩,
   ((stop_baseline_masked (fun _ => zero_entry) 65536 (msrs_const 0x100000005) 0
      (context_const 0 0) control_slot0 0 (by decide) (by decide) (by decide)).1).trans
      (by decide)⟩

/-- C10: `_amd_energy_read` leaves the context and the control state that
`_amd_energy_stop` leaves on the same inputs, returns `PAPI_OK` and hands back
the `count` array of that control state; and after a start, two consecutive
reads report for an active differenced slot the conversion of the sum of the
deltas of both intervals, which is also the accumulated total. -/
theorem read_is_stop_and_accumulates (events : Nat → _energy_native_event_entry_t) (D : Int)
    (msrs0 msrs1 msrs2 : MsrFile) (now0 now1 now2 : Int) (context : _energy_context_t)
    (control : _energy_control_state_t) (i : Nat)
    (hi : i < AMD_ENERGY_MAX_COUNTERS) (hb : control.being_measured i ≠ 0)
    (hn : control.need_difference i ≠ 0) :
    _amd_energy_read events D msrs1 now1 context control =
      (PapiStatus.PAPI_OK,
       (_amd_energy_stop events D msrs1 now1 context control).2.2.count,
       (_amd_energy_stop events D msrs1 now1 context control).2.1,
       (_amd_energy_stop events D msrs1 now1 context control).2.2) ∧
    (_amd_energy_read events D msrs2 now2
        (_amd_energy_read events D msrs1 now1
          (_amd_energy_start events msrs0 now0 context control).2.1
          (_amd_energy_start events msrs0 now0 context control).2.2).2.2.1
        (_amd_energy_read events D msrs1 now1
          (_amd_energy_start events msrs0 now0 context control).2.1
          (_amd_energy_start events msrs0 now0 context control).2.2).2.2.2).2.2.1.accumulated_value i =
      wrap_delta (mask32 (read_energy_value events msrs0 i))
          (mask32 (read_energy_value events msrs1 i)) +
        wrap_delta (mask32 (read_energy_value events msrs1 i))
          (mask32 (read_energy_value events msrs2 i)) ∧
    (_amd_energy_read events D msrs2 now2
        (_amd_energy_read events D msrs1 now1
          (_amd_energy_start events msrs0 now0 context control).2.1
          (_amd_energy_start events msrs0 now0 context control).2.2).2.2.1
        (_amd_energy_read events D msrs1 now1
          (_amd_energy_start events msrs0 now0 context control).2.1
          (_amd_energy_start events msrs0 now0 context control).2.2).2.2.2).2.1 i =
      convert_energy_readings events D i
        (wrap_delta (mask32 (read_energy_value events msrs0 i))
            (mask32 (read_energy_value events msrs1 i)) +
          wrap_delta (mask32 (read_energy_value events msrs1 i))
            (mask32 (read_energy_value events msrs2 i))) := by
  have hd : differenced control i := ⟨hb, hn⟩
  have hd0 := (start_differenced events msrs0 now0 context control i).mpr hd
  obtain ⟨s1, s2⟩ := start_slot events msrs0 now0 context control i hi hd
  have hd1 := (stop_differenced events D msrs1 now1
    (_amd_energy_start events msrs0 now0 context control).2.1
    (_amd_energy_start events msrs0 now0 context control).2.2 i).mpr hd0
  obtain ⟨a1, a2, _⟩ := stop_slot events D msrs1 now1
    (_amd_energy_start events msrs0 now0 context control).2.1
    (_amd_energy_start events msrs0 now0 context control).2.2 i hi hd0
  obtain ⟨_, b2, b3⟩ := stop_slot events D msrs2 now2
    (_amd_energy_stop events D msrs1 now1
      (_amd_energy_start events msrs0 now0 context control).2.1
      (_amd_energy_start events msrs0 now0 context control).2.2).2.1
    (_amd_energy_stop events D msrs1 now1
      (_amd_energy_start events msrs0 now0 context control).2.1
      (_amd_energy_start events msrs0 now0 context control).2.2).2.2 i hi hd1
  refine ⟨read_eq_stop events D msrs1 now1 context control, ?_, ?_⟩
  · simp only [read_eq_stop]
    rw [b2, a1, a2, s1, s2, zero_add]
  · simp only [read_eq_stop]
    rw [b3, a1, a2, s1, s2, zero_add]

/-- Witness of C10: slot 0, readings 1, 4 and 9: the total after two reads is 3 + 5. -/
theorem read_is_stop_and_accumulates_witness :
    (0 < AMD_ENERGY_MAX_COUNTERS ∧ control_slot0.being_measured 0 ≠ 0 ∧
      control_slot0.need_difference 0 ≠ 0) ∧
    (_amd_energy_read (fun _ => zero_entry) 65536 (msrs_const 9) 0
        (_amd_energy_read (fun _ => zero_entry) 65536 (msrs_const 4) 0
          (_amd_energy_start (fun _ => zero_entry) (msrs_const 1) 0 (context_const 0 0)
            control_slot0).2.1
          (_amd_energy_start (fun _ => zero_entry) (msrs_const 1) 0 (context_const 0 0)
            control_slot0).2.2).2.2.1
        (_amd_energy_read (fun _ => zero_entry) 65536 (msrs_const 4) 0
          (_amd_energy_start (fun _ => zero_entry) (msrs_const 1) 0 (context_const 0 0)
            control_slot0).2.1
          (_amd_energy_start (fun _ => zero_entry) (msrs_const 1) 0 (context_const 0 0)
            control_slot0).2.2).2.2.2).2.2.1.accumulated_value 0 = 3 + 5 :=
  ⟨⟨by decide, by decide, by decide⟩,
   ((read_is_stop_and_accumulates (fun _ => zero_entry) 65536 (msrs_const 1) (msrs_const 4)
      (msrs_const 9) 0 0 0 (context_const 0 0) control_slot0 0 (by decide) (by decide)
      (by decide)).2.1).trans (by decide)⟩

/-- One call on an active differenced slot. -/
theorem run_call_slot (events : Nat → _energy_native_event_entry_t) (D : Int) (c : Call)
    (s : _energy_context_t × _energy_control_state_t) (i : Nat)
    (hi : i < AMD_ENERGY_MAX_COUNTERS) (hd : differenced s.2 i) :
    (run_call events D c s).1.start_value i = mask32 (read_energy_value events c.msrs i) ∧
    (run_call events D c s).1.accumulated_value i =
      s.1.accumulated_value i +
        wrap_delta (s.1.start_value i) (mask32 (read_energy_value events c.msrs i)) ∧
    differenced (run_call events D c s).2 i := by
  obtain ⟨h1, h2, _⟩ := stop_slot events D c.msrs c.now s.1 s.2 i hi hd
  have h3 := (stop_differenced events D c.msrs c.now s.1 s.2 i).mpr hd
  unfold run_call
  by_cases hr : c.is_read = true
  · rw [if_pos hr, read_context, read_control]; exact ⟨h1, h2, h3⟩
  · rw [if_neg hr]; dsimp only; exact ⟨h1, h2, h3⟩

/-- The total after a sequence of calls is the total before plus the deltas. -/
theorem run_calls_total (events : Nat → _energy_native_event_entry_t) (D : Int) (i : Nat)
    (hi : i < AMD_ENERGY_MAX_COUNTERS) (cs : List Call) :
    ∀ s : _energy_context_t × _energy_control_state_t, differenced s.2 i →
      (run_calls events D cs s).1.accumulated_value i =
        s.1.accumulated_value i + (call_deltas events D i cs s).sum := by
  induction cs with
  | nil => intro s _; simp [run_calls, call_deltas]
  | cons c cs ih =>
    intro s hd
    obtain ⟨_, h2, h3⟩ := run_call_slot events D c s i hi hd
    rw [run_calls, call_deltas, ih _ h3, h2, List.sum_cons]; ring

/-- A sequence of calls keeps the slot differenced and, once a call was made or
the baseline was below 2^32 before, leaves a baseline below 2^32. -/
theorem run_calls_baseline (events : Nat → _energy_native_event_entry_t) (D : Int) (i : Nat)
    (hi : i < AMD_ENERGY_MAX_COUNTERS) (cs : List Call) :
    ∀ s : _energy_context_t × _energy_control_state_t, differenced s.2 i →
      s.1.start_value i < 4294967296 →
      differenced (run_calls events D cs s).2 i ∧
        (run_calls events D cs s).1.start_value i < 4294967296 := by
  induction cs with
  | nil => intro s hd hs; exact ⟨hd, hs⟩
  | cons c cs ih =>
    intro s hd _
    obtain ⟨h1, _, h3⟩ := run_call_slot events D c s i hi hd
    rw [run_calls]
    exact ih _ h3 (by rw [h1]; exact mask32_lt _)

/-- Running a sequence and then one more call. -/
theorem run_calls_append (events : Nat → _energy_native_event_entry_t) (D : Int)
    (cs : List Call) (c : Call) :
    ∀ s : _energy_context_t × _energy_control_state_t,
      run_calls events D (cs ++ [c]) s = run_call events D c (run_calls events D cs s) := by
  induction cs with
  | nil => intro s; rfl
  | cons a cs ih => intro s; rw [List.cons_append, run_calls, run_calls, ih]

/-- C2: for an active differenced slot, after one `_amd_energy_start` followed by
any sequence of stop/read calls, the accumulated value is the sum of the
per-call deltas (each the wraparound law against the baseline the previous call
left), and one more call never makes the accumulated value smaller. -/
theorem accumulated_is_sum_of_deltas (events : Nat → _energy_native_event_entry_t) (D : Int)
    (msrs0 : MsrFile) (now0 : Int) (context : _energy_context_t)
    (control : _energy_control_state_t) (i : Nat) (cs : List Call) (c : Call)
    (hi : i < AMD_ENERGY_MAX_COUNTERS) (hb : control.being_measured i ≠ 0)
    (hn : control.need_difference i ≠ 0) :
    (run_calls events D cs
        ((_amd_energy_start events msrs0 now0 context control).2.1,
         (_amd_energy_start events msrs0 now0 context control).2.2)).1.accumulated_value i =
      (call_deltas events D i cs
        ((_amd_energy_start events msrs0 now0 context control).2.1,
         (_amd_energy_start events msrs0 now0 context control).2.2)).sum ∧
    (run_calls events D cs
        ((_amd_energy_start events msrs0 now0 context control).2.1,
         (_amd_energy_start events msrs0 now0 context control).2.2)).1.accumulated_value i ≤
      (run_calls events D (cs ++ [c])
        ((_amd_energy_start events msrs0 now0 context control).2.1,
         (_amd_energy_start events msrs0 now0 context control).2.2)).1.accumulated_value i := by
  have hd : differenced control i := ⟨hb, hn⟩
  have hd0 := (start_differenced events msrs0 now0 context control i).mpr hd
  obtain ⟨s1, s2⟩ := start_slot events msrs0 now0 context control i hi hd
  constructor
  · rw [run_calls_total events D i hi cs _ hd0]
    simp only [s2, zero_add]
  · obtain ⟨hdn, hsn⟩ := run_calls_baseline events D i hi cs
      ((_amd_energy_start events msrs0 now0 context control).2.1,
       (_amd_energy_start events msrs0 now0 context control).2.2) hd0
      (by simp only [s1]; exact mask32_lt _)
    rw [run_calls_append]
    obtain ⟨_, h2, _⟩ := run_call_slot events D c _ i hi hdn
    rw [h2]
    have := wrap_delta_nonneg _ (mask32 (read_energy_value events c.msrs i)) hsn (mask32_nonneg _)
    omega

/-- Witness of C2: slot 0, start at reading `0xFFFFFFF0`, then a stop at `0x10`
and a read at `0x30`: the deltas are `0x20` and `0x20`. -/
theorem accumulated_is_sum_of_deltas_witness :
    (0 < AMD_ENERGY_MAX_COUNTERS ∧ control_slot0.being_measured 0 ≠ 0 ∧
      control_slot0.need_difference 0 ≠ 0) ∧
    (run_calls (fun _ => zero_entry) 65536
        [{ is_read := false, msrs := msrs_const 0x10, now := 1 },
         { is_read := true, msrs := msrs_const 0x30, now := 2 }]
        ((_amd_energy_start (fun _ => zero_entry) (msrs_const 0xFFFFFFF0) 0 (context_const 3 9)
            control_slot0).2.1,
         (_amd_energy_start (fun _ => zero_entry) (msrs_const 0xFFFFFFF0) 0 (context_const 3 9)
            control_slot0).2.2)).1.accumulated_value 0 = 0x20 + 0x20 :=
  ⟨⟨by decide, by decide, by decide⟩,
   ((accumulated_is_sum_of_deltas (fun _ => zero_entry) 65536 (msrs_const 0xFFFFFFF0) 0
      (context_const 3 9) control_slot0 0
      [{ is_read := false, msrs := msrs_const 0x10, now := 1 },
       { is_read := true, msrs := msrs_const 0x30, now := 2 }]
      { is_read := false, msrs := msrs_const 0x40, now := 3 }
      (by decide) (by decide) (by decide)).1).trans
    (by
      simp only [call_deltas, List.sum_cons, List.sum_nil]
      rw [(run_call_slot _ _ _ _ 0 (by decide)
        ((start_differenced _ _ _ _ _ 0).mpr control_slot0_differenced)).1,
        (start_slot _ _ _ _ _ 0 (by decide) control_slot0_differenced).1]
      decide)⟩

/-! ## Conversion to nanojoules -/

theorem roundHalfEven_intCast (m : ℤ) : roundHalfEven (m : ℚ) = m := by
  unfold roundHalfEven
  simp

/-- A value with at most 53 significant bits is a double: rounding keeps it. -/
theorem roundDouble_exact (m s : ℤ) (hm : |m| < 2 ^ 53) :
    roundDouble ((m : ℚ) * (2 : ℚ) ^ s) = (m : ℚ) * (2 : ℚ) ^ s := by
  unfold roundDouble
  by_cases h0 : (m : ℚ) * (2 : ℚ) ^ s = 0
  · rw [if_pos h0, h0]
  · rw [if_neg h0]
    have h2 : (0 : ℚ) < (2 : ℚ) ^ s := zpow_pos (by norm_num) s
    have hlt : |(m : ℚ) * (2 : ℚ) ^ s| < ((2 : ℕ) : ℚ) ^ (53 + s) := by
      rw [abs_mul, abs_of_pos h2, zpow_add₀ (by norm_num)]
      apply mul_lt_mul_of_pos_right _ h2
      have h53 : |(m : ℚ)| < (2 : ℚ) ^ (53 : ℕ) := by exact_mod_cast hm
      have hz : ((2 : ℕ) : ℚ) ^ (53 : ℤ) = (2 : ℚ) ^ (53 : ℕ) := by norm_num
      rw [hz]
      exact h53
    have hL : Int.log 2 |(m : ℚ) * (2 : ℚ) ^ s| < 53 + s :=
      (Int.lt_zpow_iff_log_lt (by norm_num) (abs_pos.mpr h0)).mp hlt
    generalize Int.log 2 |(m : ℚ) * (2 : ℚ) ^ s| = L at hL
    obtain ⟨t, ht⟩ : ∃ t : ℕ, (t : ℤ) = s - (L - 52) := ⟨(s - (L - 52)).toNat, by omega⟩
    have hs : s = (t : ℤ) + (L - 52) := by omega
    have hu : (2 : ℚ) ^ (L - 52) ≠ 0 := zpow_ne_zero _ (by norm_num)
    have hdiv : (m : ℚ) * (2 : ℚ) ^ s / (2 : ℚ) ^ (L - 52) = ((m * 2 ^ t : ℤ) : ℚ) := by
      rw [div_eq_iff hu, hs, zpow_add₀ (by norm_num), zpow_natCast]
      push_cast
      ring
    rw [hdiv, roundHalfEven_intCast]
    rw [hs, zpow_add₀ (by norm_num), zpow_natCast]
    push_cast
    ring

/-- For a `PACKAGE_ENERGY` event, a divisor `2^e` and a value whose product with
`5^9` has at most 53 bits, every double operation of the conversion is exact. -/
theorem convert_exact (events : Nat → _energy_native_event_entry_t) (index e : Nat) (V : Int)
    (ht : (events index).type = PACKAGE_ENERGY) (hV : |V| * 1953125 < 2 ^ 53) :
    convert_energy_readings events (2 ^ e) index V =
      truncToLongLong ((V : ℚ) * 1000000000 / (2 : ℚ) ^ e) := by
  unfold convert_energy_readings
  rw [if_pos ht]
  have hV1 : |V| < 2 ^ 53 := by
    have : 0 ≤ |V| := abs_nonneg V
    omega
  have e1 : roundDouble (V : ℚ) = (V : ℚ) := by
    have := roundDouble_exact V 0 hV1
    simpa using this
  have e2 : roundDouble ((V : ℚ) / (((2 ^ e : ℤ)) : ℚ)) = (V : ℚ) * (2 : ℚ) ^ (-(e : ℤ)) := by
    have h := roundDouble_exact V (-(e : ℤ)) hV1
    have hx : (V : ℚ) / (((2 ^ e : ℤ)) : ℚ) = (V : ℚ) * (2 : ℚ) ^ (-(e : ℤ)) := by
      push_cast
      rw [zpow_neg, zpow_natCast, div_eq_mul_inv]
    rw [hx, h]
  have e3 : roundDouble ((V : ℚ) * (2 : ℚ) ^ (-(e : ℤ)) * 1000000000) =
      (V : ℚ) * 1000000000 / (2 : ℚ) ^ e := by
    have hm : |V * 1953125| < 2 ^ 53 := by
      rw [abs_mul]; simpa using hV
    have h := roundDouble_exact (V * 1953125) (9 - (e : ℤ)) hm
    have hx : (V : ℚ) * (2 : ℚ) ^ (-(e : ℤ)) * 1000000000 =
        ((V * 1953125 : ℤ) : ℚ) * (2 : ℚ) ^ (9 - (e : ℤ)) := by
      rw [sub_eq_add_neg, zpow_add₀ (by norm_num)]
      push_cast
      ring
    have hy : ((V * 1953125 : ℤ) : ℚ) * (2 : ℚ) ^ (9 - (e : ℤ)) =
        (V : ℚ) * 1000000000 / (2 : ℚ) ^ e := by
      rw [sub_eq_add_neg, zpow_add₀ (by norm_num), zpow_neg, zpow_natCast]
      push_cast
      ring
    rw [hx, h, hy]
  rw [e1, e2, e3]

/-- Discarding the fraction of a quotient of integers is the division that
rounds toward zero. -/
theorem truncToLongLong_div (n : ℤ) (d : ℕ) (hd : 0 < d) :
    truncToLongLong ((n : ℚ) / (d : ℚ)) = Int.tdiv n (d : ℤ) := by
  have hdq : (0 : ℚ) < (d : ℚ) := by exact_mod_cast hd
  unfold truncToLongLong
  by_cases hn : 0 ≤ n
  · have hq : (0 : ℚ) ≤ (n : ℚ) / (d : ℚ) := div_nonneg (by exact_mod_cast hn) hdq.le
    rw [if_pos hq, Rat.floor_intCast_div_natCast, Int.tdiv_eq_ediv hn (by omega)]
  · have hneg : (n : ℚ) < 0 := by exact_mod_cast (not_le.mp hn)
    have hq : ¬ (0 : ℚ) ≤ (n : ℚ) / (d : ℚ) := not_le.mpr (div_neg_of_neg_of_pos hneg hdq)
    rw [if_neg hq]
    have h1 : (n : ℚ) / (d : ℚ) = -(((-n : ℤ) : ℚ) / (d : ℚ)) := by push_cast; ring
    rw [h1, Int.ceil_neg, Rat.floor_intCast_div_natCast]
    have h2 : n = -(-n) := by omega
    conv_rhs => rw [h2, Int.neg_tdiv, Int.tdiv_eq_ediv (by omega : (0 : ℤ) ≤ -n) (by omega)]

/-- The conversion of a `PACKAGE_ENERGY` value within the exact range. -/
theorem convert_tdiv (events : Nat → _energy_native_event_entry_t) (index e : Nat) (V : Int)
    (ht : (events index).type = PACKAGE_ENERGY) (hV : |V| * 1953125 < 2 ^ 53) :
    convert_energy_readings events (2 ^ e) index V = Int.tdiv (V * 1000000000) (2 ^ e) := by
  rw [convert_exact events index e V ht hV]
  have h := truncToLongLong_div (V * 1000000000) (2 ^ e) (Nat.pow_pos (by norm_num))
  push_cast at h
  exact h

/-- C3, as stated, fails: for a `PACKAGE_ENERGY` event with divisor 2048 and raw
value 3 the energy is 1464843.75 nJ; the nearest integer is 1464844, and
`convert_energy_readings` returns 1464843. -/
theorem convert_rounds_counterexample :
    zero_entry.type = PACKAGE_ENERGY ∧
    round ((3 : ℚ) / 2048 * 1000000000) = 1464844 ∧
    convert_energy_readings (fun _ => zero_entry) 2048 0 3 = 1464843 ∧
    convert_energy_readings (fun _ => zero_entry) 2048 0 3 ≠
      round ((3 : ℚ) / 2048 * 1000000000) := by
  have hr : round ((3 : ℚ) / 2048 * 1000000000) = 1464844 := by
    rw [round_eq, Int.floor_eq_iff]; norm_num
  have hc : convert_energy_readings (fun _ => zero_entry) 2048 0 3 = 1464843 := by
    have h := convert_tdiv (fun _ => zero_entry) 0 11 3 rfl (by decide)
    norm_num at h
    rw [h]
    decide
  refine ⟨rfl, hr, hc, ?_⟩
  rw [hr, hc]
  decide

/-- C3, amended: for a CONVERTED_ENERGY slot (type `PACKAGE_ENERGY`), an energy
divisor `D = 2^e` as the initialization computes it (`e <= 30`) and a raw value
`V` with `|V| * 5^9 < 2^53` (every `|V| <= 2^32` is in this range),
`convert_energy_readings` returns `V * 10^9 / D` with the fraction discarded
(rounded toward zero, not to the nearest integer); `D = 65536` and `V = 65536`
give 1,000,000,000. -/
theorem convert_truncates (events : Nat → _energy_native_event_entry_t) (index e : Nat)
    (V : Int) (ht : (events index).type = PACKAGE_ENERGY) (he : e ≤ 30)
    (hV : |V| * 1953125 < 2 ^ 53) :
    convert_energy_readings events (2 ^ e) index V = Int.tdiv (V * 1000000000) (2 ^ e) ∧
    convert_energy_readings events 65536 index 65536 = 1000000000 := by
  have _ := he
  refine ⟨convert_tdiv events index e V ht hV, ?_⟩
  have h := convert_tdiv events index 16 65536 ht (by decide)
  norm_num at h
  rw [h]
  decide

/-- Witness of the amended C3: divisor `2^11`, raw value 3, result 1464843. -/
theorem convert_truncates_witness :
    (zero_entry.type = PACKAGE_ENERGY ∧ 11 ≤ 30 ∧ |(3 : Int)| * 1953125 < 2 ^ 53) ∧
    convert_energy_readings (fun _ => zero_entry) (2 ^ 11) 0 3 = 1464843 :=
  ⟨⟨rfl, by decide, by decide⟩,
   ((convert_truncates (fun _ => zero_entry) 0 11 3 rfl (by decide) (by decide)).1).trans
     (by decide)⟩

/-! ## Enumeration of the native events -/

theorem toInt32_small (c : Nat) (h : c < 2147483648) : toInt32 c = (c : Int) := by
  unfold toInt32
  have h1 : c % 4294967296 = c := Nat.mod_eq_of_lt (by omega)
  rw [h1, if_pos h]

/-- A `PAPI_ENUM_EVENTS` call on a code before the last one. -/
theorem enum_events_next (papi : PapiDefs) (n c : Nat) (hn : n < 2147483648)
    (hmask : ∀ c, c < n → Nat.land c papi.PAPI_NATIVE_AND_MASK = c) (hc : c + 1 < n) :
    _amd_energy_ntv_enum_events papi (n : Int) c EnumModifier.PAPI_ENUM_EVENTS =
      (PapiStatus.PAPI_OK, c + 1) := by
  unfold _amd_energy_ntv_enum_events
  simp only []
  rw [hmask c (by omega), toInt32_small c (by omega)]
  have h1 : (c : Int) < (n : Int) - 1 := by omega
  have h2 : (c + 1) % 4294967296 = c + 1 := Nat.mod_eq_of_lt (by omega)
  rw [if_pos h1, h2]

/-- A `PAPI_ENUM_EVENTS` call on the last code. -/
theorem enum_events_last (papi : PapiDefs) (n : Nat) (hn1 : 1 ≤ n) (hn : n < 2147483648)
    (hmask : ∀ c, c < n → Nat.land c papi.PAPI_NATIVE_AND_MASK = c) :
    _amd_energy_ntv_enum_events papi (n : Int) (n - 1) EnumModifier.PAPI_ENUM_EVENTS =
      (PapiStatus.PAPI_ENOEVNT, n - 1) := by
  unfold _amd_energy_ntv_enum_events
  simp only []
  rw [hmask (n - 1) (by omega), toInt32_small (n - 1) (by omega)]
  have h1 : ¬ (((n - 1 : Nat) : Int) < (n : Int) - 1) := by omega
  rw [if_neg h1]

/-- Enumeration from a valid code collects the codes up to the last one. -/
theorem enum_from_range (papi : PapiDefs) (n : Nat) (hn : n < 2147483648)
    (hmask : ∀ c, c < n → Nat.land c papi.PAPI_NATIVE_AND_MASK = c) :
    ∀ fuel c : Nat, c < n → n ≤ c + fuel →
      enum_from papi (n : Int) fuel c = List.range' c (n - c) := by
  intro fuel
  induction fuel with
  | zero =>
    intro c hc hf
    have : n - c = 1 := by omega
    rw [this]; rfl
  | succ fuel ih =>
    intro c hc hf
    unfold enum_from
    by_cases hlast : c + 1 < n
    · rw [enum_events_next papi n c hn hmask hlast]
      simp only [if_true]
      rw [ih (c + 1) hlast (by omega)]
      have : n - c = (n - (c + 1)) + 1 := by omega
      rw [this, List.range'_succ]
    · have hc1 : c = n - 1 := by omega
      have h := enum_events_last papi n (by omega) hn hmask
      rw [← hc1] at h
      rw [h]
      have : n - c = 1 := by omega
      rw [this]
      simp

/-- C6: for a catalog of length `n >= 1`, `PAPI_ENUM_FIRST` returns `PAPI_OK` with
code 0, every `PAPI_ENUM_EVENTS` call on a code `c` with `c + 1 < n` returns
`PAPI_OK` with code `c + 1`, so that the enumeration collects exactly the codes
`0, 1, ..., n-1` in order; the `PAPI_ENUM_EVENTS` call on code `n - 1` returns
`PAPI_ENOEVNT` and leaves the code. The length is an `int`, and the absent
constant `PAPI_NATIVE_AND_MASK` is taken to leave the codes below `n`
unchanged. -/
theorem enum_events_dense (papi : PapiDefs) (n code0 fuel : Nat) (hn1 : 1 ≤ n)
    (hn : n < 2147483648)
    (hmask : ∀ c, c < n → Nat.land c papi.PAPI_NATIVE_AND_MASK = c) (hfuel : n ≤ fuel) :
    _amd_energy_ntv_enum_events papi (n : Int) code0 EnumModifier.PAPI_ENUM_FIRST =
      (PapiStatus.PAPI_OK, 0) ∧
    (∀ c, c + 1 < n →
      _amd_energy_ntv_enum_events papi (n : Int) c EnumModifier.PAPI_ENUM_EVENTS =
        (PapiStatus.PAPI_OK, c + 1)) ∧
    _amd_energy_ntv_enum_events papi (n : Int) (n - 1) EnumModifier.PAPI_ENUM_EVENTS =
      (PapiStatus.PAPI_ENOEVNT, n - 1) ∧
    enum_all papi (n : Int) code0 fuel = List.range n := by
  have hfirst : _amd_energy_ntv_enum_events papi (n : Int) code0 EnumModifier.PAPI_ENUM_FIRST =
      (PapiStatus.PAPI_OK, 0) := by
    unfold _amd_energy_ntv_enum_events
    have : ¬ ((n : Int) = 0) := by omega
    simp only [if_neg this]
  refine ⟨hfirst, fun c hc => enum_events_next papi n c hn hmask hc,
    enum_events_last papi n hn1 hn hmask, ?_⟩
  unfold enum_all
  rw [hfirst]
  simp only [if_true]
  rw [enum_from_range papi n hn hmask fuel 0 (by omega) (by omega), List.range_eq_range']
  simp

/-- Witness of C6: a catalog of 12 events with the mask of the PAPI releases. -/
theorem enum_events_dense_witness :
    (1 ≤ 12 ∧ 12 < 2147483648 ∧
      (∀ c, c < 12 → Nat.land c papiRelease.PAPI_NATIVE_AND_MASK = c) ∧ 12 ≤ 20) ∧
    enum_all papiRelease 12 7 20 = [0, 1, 2, 3, 4, 5, 6, 7, 8, 9, 10, 11] :=
  ⟨⟨by decide, by decide, by decide, by decide⟩,
   ((enum_events_dense papiRelease 12 7 20 (by decide) (by decide) (by decide)
      (by decide)).2.2.2).trans (by decide)⟩

/-! ## The event catalog -/

/-- A loop that writes one entry at each of the two cursors and advances both,
in closed form, when the `i` positions stay below the `k` positions. -/
theorem two_cursor_loop
    (fi fk : Nat → Nat → _energy_native_event_entry_t → _energy_native_event_entry_t)
    (body : Nat → EventCursor → EventCursor)
    (hbody : ∀ j st, body j st =
      { events := setAt (setAt st.events st.i (fi j st.i (st.events st.i))) st.k
          (fk j st.k (setAt st.events st.i (fi j st.i (st.events st.i)) st.k))
        i := st.i + 1
        k := st.k + 1 })
    (st : EventCursor) (n : Nat) (hn : st.i + n ≤ st.k) :
    for_loop body n st =
      { events := fun pos =>
          if st.i ≤ pos ∧ pos < st.i + n then fi (pos - st.i) pos (st.events pos)
          else if st.k ≤ pos ∧ pos < st.k + n then fk (pos - st.k) pos (st.events pos)
          else st.events pos
        i := st.i + n
        k := st.k + n } := by
  induction n with
  | zero =>
    cases st
    simp only [for_loop, EventCursor.mk.injEq, Nat.add_zero, and_true]
    funext pos
    have e1 : ∀ a : Nat, ¬ (a ≤ pos ∧ pos < a) := by intro a; omega
    simp only [e1, if_false]
  | succ n ih =>
    rw [for_loop, ih (by omega), hbody]
    simp only [EventCursor.mk.injEq]
    refine ⟨?_, by omega, by omega⟩
    funext pos
    simp only [setAt]
    have a1 : ¬ (st.k + n = st.i + n) := by omega
    have a2 : ¬ (st.i ≤ st.k + n ∧ st.k + n < st.i + n) := by omega
    have a3 : ¬ (st.k ≤ st.k + n ∧ st.k + n < st.k + n) := by omega
    have a4 : ¬ (st.i ≤ st.i + n ∧ st.i + n < st.i + n) := by omega
    have a5 : ¬ (st.k ≤ st.i + n ∧ st.i + n < st.k + n) := by omega
    rw [if_neg a1, if_neg a2, if_neg a3, if_neg a4, if_neg a5]
    by_cases h1 : pos = st.k + n
    · have e4 : ¬ (st.i ≤ pos ∧ pos < st.i + (n + 1)) := by omega
      have e5 : st.k ≤ pos ∧ pos < st.k + (n + 1) := by omega
      have e6 : pos - st.k = n := by omega
      rw [if_pos h1, if_neg e4, if_pos e5, e6, h1]
    · rw [if_neg h1]
      by_cases h2 : pos = st.i + n
      · have e5 : st.i ≤ pos ∧ pos < st.i + (n + 1) := by omega
        have e6 : pos - st.i = n := by omega
        rw [if_pos h2, if_pos e5, e6, h2]
      · rw [if_neg h2]
        by_cases h3 : st.i ≤ pos ∧ pos < st.i + n
        · have e5 : st.i ≤ pos ∧ pos < st.i + (n + 1) := by omega
          rw [if_pos h3, if_pos e5]
        · have e5 : ¬ (st.i ≤ pos ∧ pos < st.i + (n + 1)) := by omega
          rw [if_neg h3, if_neg e5]
          by_cases h4 : st.k ≤ pos ∧ pos < st.k + n
          · have e6 : st.k ≤ pos ∧ pos < st.k + (n + 1) := by omega
            rw [if_pos h4, if_pos e6]
          · have e6 : ¬ (st.k ≤ pos ∧ pos < st.k + (n + 1)) := by omega
            rw [if_neg h4, if_neg e6]

/-- The catalog in closed form: the entry at every position. -/
theorem create_events_entry (papi : PapiDefs) (P C : Nat) (cpu_to_use : Nat → Int) (pos : Nat) :
    (create_events papi P C cpu_to_use).energy_native_events pos =
      if pos < P then package_cnt_fields papi cpu_to_use pos pos zero_entry
      else if pos < P + C then core_cnt_fields papi (pos - P) pos zero_entry
      else if pos < P + C + P then
        package_energy_fields papi cpu_to_use (pos - (P + C)) pos zero_entry
      else if pos < P + C + P + C then core_energy_fields papi (pos - (P + C + P)) pos zero_entry
      else zero_entry := by
  unfold create_events
  have hhalf : (P + C) * 2 / 2 = P + C := by omega
  simp only [hhalf]
  rw [two_cursor_loop (package_cnt_fields papi cpu_to_use) (package_energy_fields papi cpu_to_use)
    (package_event_body papi cpu_to_use) (fun j st => rfl) _ P (by simp)]
  rw [two_cursor_loop (core_cnt_fields papi) (core_energy_fields papi)
    (core_event_body papi) (fun j st => rfl) _ C (by simp)]
  simp only [Nat.zero_add, Nat.zero_le, true_and]
  split_ifs <;> first | rfl | (exfalso; omega)

theorem create_events_num (papi : PapiDefs) (P C : Nat) (cpu_to_use : Nat → Int) :
    (create_events papi P C cpu_to_use).num_events = (P + C) * 2 := rfl

/-- The first half of the catalog: package counters. -/
theorem create_events_package_cnt (papi : PapiDefs) (P C : Nat) (cpu_to_use : Nat → Int)
    (j : Nat) (hj : j < P) :
    (create_events papi P C cpu_to_use).energy_native_events j =
      package_cnt_fields papi cpu_to_use j j zero_entry := by
  rw [create_events_entry, if_pos hj]

/-- The first half of the catalog: core counters. -/
theorem create_events_core_cnt (papi : PapiDefs) (P C : Nat) (cpu_to_use : Nat → Int)
    (j : Nat) (hj : j < C) :
    (create_events papi P C cpu_to_use).energy_native_events (P + j) =
      core_cnt_fields papi j (P + j) zero_entry := by
  rw [create_events_entry, if_neg (by omega), if_pos (by omega)]
  have : P + j - P = j := by omega
  rw [this]

/-- The second half of the catalog: package energies. -/
theorem create_events_package_energy (papi : PapiDefs) (P C : Nat) (cpu_to_use : Nat → Int)
    (j : Nat) (hj : j < P) :
    (create_events papi P C cpu_to_use).energy_native_events (P + C + j) =
      package_energy_fields papi cpu_to_use j (P + C + j) zero_entry := by
  rw [create_events_entry, if_neg (by omega), if_neg (by omega), if_pos (by omega)]
  have : P + C + j - (P + C) = j := by omega
  rw [this]

/-- The second half of the catalog: core energies. -/
theorem create_events_core_energy (papi : PapiDefs) (P C : Nat) (cpu_to_use : Nat → Int)
    (j : Nat) (hj : j < C) :
    (create_events papi P C cpu_to_use).energy_native_events (P + C + (P + j)) =
      core_energy_fields papi j (P + C + (P + j)) zero_entry := by
  rw [create_events_entry, if_neg (by omega), if_neg (by omega), if_neg (by omega),
    if_pos (by omega)]
  have : P + C + (P + j) - (P + C + P) = j := by omega
  rw [this]

theorem toUInt32_pkg : toUInt32 (toInt32 MSR_AMD_PKG_ENERGY_STATUS) = MSR_AMD_PKG_ENERGY_STATUS := by
  decide

theorem toUInt32_pp0 : toUInt32 (toInt32 MSR_AMD_PP0_ENERGY_STATUS) = MSR_AMD_PP0_ENERGY_STATUS := by
  decide

/-- C4: the catalog built from `P` packages and `C` cores has `num_events =
(P + C) * 2`, an even number; a descriptor at a position `pos` of the first half
has type `PACKAGE_ENERGY_CNT` and the one at `pos` of the second half has type
`PACKAGE_ENERGY`; in each half the positions below `P` are the package
descriptors in package order (package-energy register, read on `cpu_to_use` of
the package, named after the package) and the positions from `P` on are the
core descriptors in core order (core-energy register, read on the core, named
after the core). -/
theorem catalog_layout (papi : PapiDefs) (P C : Nat) (cpu_to_use : Nat → Int) (pos : Nat)
    (hpos : pos < P + C) :
    (create_events papi P C cpu_to_use).num_events = (P + C) * 2 ∧
    (create_events papi P C cpu_to_use).num_events % 2 = 0 ∧
    ((create_events papi P C cpu_to_use).energy_native_events pos).type = PACKAGE_ENERGY_CNT ∧
    ((create_events papi P C cpu_to_use).energy_native_events (P + C + pos)).type =
      PACKAGE_ENERGY ∧
    (pos < P →
      toUInt32 ((create_events papi P C cpu_to_use).energy_native_events pos).msr =
        MSR_AMD_PKG_ENERGY_STATUS ∧
      toUInt32 ((create_events papi P C cpu_to_use).energy_native_events (P + C + pos)).msr =
        MSR_AMD_PKG_ENERGY_STATUS ∧
      ((create_events papi P C cpu_to_use).energy_native_events pos).fd_offset =
        cpu_to_use pos ∧
      ((create_events papi P C cpu_to_use).energy_native_events (P + C + pos)).fd_offset =
        cpu_to_use pos ∧
      ((create_events papi P C cpu_to_use).energy_native_events pos).name =
        snprintf_d papi.PAPI_MAX_STR_LEN "PACKAGE_ENERGY_CNT:PACKAGE" pos ∧
      ((create_events papi P C cpu_to_use).energy_native_events (P + C + pos)).name =
        snprintf_d papi.PAPI_MAX_STR_LEN "PACKAGE_ENERGY:PACKAGE" pos) ∧
    (P ≤ pos →
      toUInt32 ((create_events papi P C cpu_to_use).energy_native_events pos).msr =
        MSR_AMD_PP0_ENERGY_STATUS ∧
      toUInt32 ((create_events papi P C cpu_to_use).energy_native_events (P + C + pos)).msr =
        MSR_AMD_PP0_ENERGY_STATUS ∧
      ((create_events papi P C cpu_to_use).energy_native_events pos).fd_offset =
        ((pos - P : Nat) : Int) ∧
      ((create_events papi P C cpu_to_use).energy_native_events (P + C + pos)).fd_offset =
        ((pos - P : Nat) : Int) ∧
      ((create_events papi P C cpu_to_use).energy_native_events pos).name =
        snprintf_d papi.PAPI_MAX_STR_LEN "PP0_ENERGY_CNT:CORE" (pos - P) ∧
      ((create_events papi P C cpu_to_use).energy_native_events (P + C + pos)).name =
        snprintf_d papi.PAPI_MAX_STR_LEN "PP0_ENERGY:CORE" (pos - P)) := by
  refine ⟨rfl, ?_, ?_, ?_, ?_, ?_⟩
  · rw [create_events_num]; omega
  · by_cases h : pos < P
    · rw [create_events_package_cnt papi P C cpu_to_use pos h]; rfl
    · obtain ⟨j, rfl⟩ : ∃ j, pos = P + j := ⟨pos - P, by omega⟩
      rw [create_events_core_cnt papi P C cpu_to_use j (by omega)]; rfl
  · by_cases h : pos < P
    · rw [create_events_package_energy papi P C cpu_to_use pos h]; rfl
    · obtain ⟨j, rfl⟩ : ∃ j, pos = P + j := ⟨pos - P, by omega⟩
      rw [create_events_core_energy papi P C cpu_to_use j (by omega)]; rfl
  · intro h
    rw [create_events_package_cnt papi P C cpu_to_use pos h,
      create_events_package_energy papi P C cpu_to_use pos h]
    exact ⟨toUInt32_pkg, toUInt32_pkg, rfl, rfl, rfl, rfl⟩
  · intro h
    obtain ⟨j, rfl⟩ : ∃ j, pos = P + j := ⟨pos - P, by omega⟩
    rw [create_events_core_cnt papi P C cpu_to_use j (by omega),
      create_events_core_energy papi P C cpu_to_use j (by omega)]
    have : P + j - P = j := by omega
    rw [this]
    exact ⟨toUInt32_pp0, toUInt32_pp0, rfl, rfl, rfl, rfl⟩

/-- Witness of C4: 2 packages (read on cpus 0 and 2) and 4 cores, position 3,
the second core: the catalog has 12 events. -/
theorem catalog_layout_witness :
    3 < 2 + 4 ∧
    (create_events papiRelease 2 4 (fun j => if j = 0 then 0 else 2)).num_events = 12 ∧
    ((create_events papiRelease 2 4 (fun j => if j = 0 then 0 else 2)).energy_native_events
      3).type = PACKAGE_ENERGY_CNT ∧
    ((create_events papiRelease 2 4 (fun j => if j = 0 then 0 else 2)).energy_native_events
      9).type = PACKAGE_ENERGY :=
  ⟨by decide,
   (catalog_layout papiRelease 2 4 (fun j => if j = 0 then 0 else 2) 3 (by decide)).1,
   (catalog_layout papiRelease 2 4 (fun j => if j = 0 then 0 else 2) 3 (by decide)).2.2.1,
   (catalog_layout papiRelease 2 4 (fun j => if j = 0 then 0 else 2) 3 (by decide)).2.2.2.1⟩

/-- C5: for every index `i` below half the catalog length, the descriptors at
`i` and at `i + num_events / 2` have the same register address and the same
access point, so that a read of either slot reads the same register on the
same cpu; the one at `i` has type `PACKAGE_ENERGY_CNT` (RAW_COUNT) and the one
at `i + num_events / 2` has type `PACKAGE_ENERGY` (CONVERTED_ENERGY). -/
theorem catalog_halves_pair (papi : PapiDefs) (P C : Nat) (cpu_to_use : Nat → Int) (i : Nat)
    (msrs : MsrFile) (hi : i < (create_events papi P C cpu_to_use).num_events / 2) :
    ((create_events papi P C cpu_to_use).energy_native_events i).msr =
      ((create_events papi P C cpu_to_use).energy_native_events
        (i + (create_events papi P C cpu_to_use).num_events / 2)).msr ∧
    ((create_events papi P C cpu_to_use).energy_native_events i).fd_offset =
      ((create_events papi P C cpu_to_use).energy_native_events
        (i + (create_events papi P C cpu_to_use).num_events / 2)).fd_offset ∧
    read_energy_value (create_events papi P C cpu_to_use).energy_native_events msrs i =
      read_energy_value (create_events papi P C cpu_to_use).energy_native_events msrs
        (i + (create_events papi P C cpu_to_use).num_events / 2) ∧
    ((create_events papi P C cpu_to_use).energy_native_events i).type = PACKAGE_ENERGY_CNT ∧
    ((create_events papi P C cpu_to_use).energy_native_events
      (i + (create_events papi P C cpu_to_use).num_events / 2)).type = PACKAGE_ENERGY := by
  have hhalf : (create_events papi P C cpu_to_use).num_events / 2 = P + C := by
    rw [create_events_num]; omega
  rw [hhalf] at hi ⊢
  have hcomm : i + (P + C) = P + C + i := by omega
  rw [hcomm]
  unfold read_energy_value
  by_cases h : i < P
  · rw [create_events_package_cnt papi P C cpu_to_use i h,
      create_events_package_energy papi P C cpu_to_use i h]
    exact ⟨rfl, rfl, rfl, rfl, rfl⟩
  · obtain ⟨j, rfl⟩ : ∃ j, i = P + j := ⟨i - P, by omega⟩
    rw [create_events_core_cnt papi P C cpu_to_use j (by omega),
      create_events_core_energy papi P C cpu_to_use j (by omega)]
    exact ⟨rfl, rfl, rfl, rfl, rfl⟩

/-- Witness of C5: 2 packages and 4 cores, index 1 and its partner 7. -/
theorem catalog_halves_pair_witness :
    1 < (create_events papiRelease 2 4 (fun j => if j = 0 then 0 else 2)).num_events / 2 ∧
    ((create_events papiRelease 2 4 (fun j => if j = 0 then 0 else 2)).energy_native_events
      1).fd_offset =
    ((create_events papiRelease 2 4 (fun j => if j = 0 then 0 else 2)).energy_native_events
      (1 + (create_events papiRelease 2 4 (fun j => if j = 0 then 0 else 2)).num_events / 2)).fd_offset :=
  ⟨by decide,
   (catalog_halves_pair papiRelease 2 4 (fun j => if j = 0 then 0 else 2) 1 (msrs_const 0)
      (by decide)).2.1⟩

/-! ## Selection of the events to measure -/

/-- The first loop of `_amd_energy_update_control_state` and the loop of
`_amd_energy_init_control_state`: the first `n` entries of `being_measured` are
cleared. -/
theorem clear_loop_closed (n : Nat) (control : _energy_control_state_t) :
    for_loop (fun i c => { c with being_measured := setAt c.being_measured i 0 }) n control =
      { control with
        being_measured := fun j => if j < n then 0 else control.being_measured j } := by
  induction n with
  | zero => simp [for_loop]
  | succ n ih =>
    rw [for_loop, ih]
    simp only [_energy_control_state_t.mk.injEq, and_true, true_and]
    funext j
    simp only [setAt]
    by_cases h1 : j = n
    · have : j < n + 1 := by omega
      rw [if_pos h1, if_pos this]
    · rw [if_neg h1]
      by_cases h2 : j < n
      · have : j < n + 1 := by omega
        rw [if_pos h2, if_pos this]
      · have : ¬ j < n + 1 := by omega
        rw [if_neg h2, if_neg this]

/-- One entry of `native`: the slot of its index, when it is one of the slots of
the arrays, is marked as measured and gets its difference flag from the type
of its descriptor; every other slot keeps both entries; `count` and
`lastupdate` are kept. -/
theorem update_body_control (papi : PapiDefs) (events : Nat → _energy_native_event_entry_t)
    (a : NativeInfo_t) (control : _energy_control_state_t) :
    (update_body papi events a control).2 =
      { being_measured := fun j =>
          if j < AMD_ENERGY_MAX_COUNTERS ∧ native_index papi a = (j : Int) then 1
          else control.being_measured j
        count := control.count
        need_difference := fun j =>
          if j < AMD_ENERGY_MAX_COUNTERS ∧ native_index papi a = (j : Int) then
            (if (events j).type = PACKAGE_ENERGY ∨ (events j).type = PACKAGE_ENERGY_CNT
             then 1 else 0)
          else control.need_difference j
        lastupdate := control.lastupdate } := by
  unfold update_body
  simp only []
  by_cases hb : 0 ≤ native_index papi a ∧ native_index papi a < (AMD_ENERGY_MAX_COUNTERS : Int)
  · rw [if_pos hb]
    simp only [_energy_control_state_t.mk.injEq, and_true, true_and, setAt]
    constructor <;> funext j
    · unfold setAt
      by_cases h1 : j = (native_index papi a).toNat
      · have h2 : j < AMD_ENERGY_MAX_COUNTERS ∧ native_index papi a = (j : Int) := by omega
        rw [if_pos h1, if_pos h2]
      · have h2 : ¬ (j < AMD_ENERGY_MAX_COUNTERS ∧ native_index papi a = (j : Int)) := by omega
        rw [if_neg h1, if_neg h2]
    · unfold setAt
      by_cases h1 : j = (native_index papi a).toNat
      · have h2 : j < AMD_ENERGY_MAX_COUNTERS ∧ native_index papi a = (j : Int) := by omega
        rw [if_pos h1, if_pos h2, h1]
      · have h2 : ¬ (j < AMD_ENERGY_MAX_COUNTERS ∧ native_index papi a = (j : Int)) := by omega
        rw [if_neg h1, if_neg h2]
  · rw [if_neg hb]
    have h2 : ∀ j : Nat, ¬ (j < AMD_ENERGY_MAX_COUNTERS ∧ native_index papi a = (j : Int)) := by
      intro j; omega
    simp only [h2, if_false]

/-- The loop over `native` in closed form: a slot of the arrays whose index some
entry of `native` computes is marked as measured and gets its difference flag
from the type of its descriptor; every other slot keeps both entries; `count`
and `lastupdate` are kept. -/
theorem update_loop_control (papi : PapiDefs) (events : Nat → _energy_native_event_entry_t)
    (native : List NativeInfo_t) :
    ∀ control : _energy_control_state_t,
      (update_loop papi events native control).2 =
        { being_measured := fun j =>
            if j < AMD_ENERGY_MAX_COUNTERS ∧ ∃ n ∈ native, native_index papi n = (j : Int) then 1
            else control.being_measured j
          count := control.count
          need_difference := fun j =>
            if j < AMD_ENERGY_MAX_COUNTERS ∧ ∃ n ∈ native, native_index papi n = (j : Int) then
              (if (events j).type = PACKAGE_ENERGY ∨ (events j).type = PACKAGE_ENERGY_CNT
               then 1 else 0)
            else control.need_difference j
          lastupdate := control.lastupdate } := by
  induction native with
  | nil => intro control; simp [update_loop]
  | cons a rest ih =>
    intro control
    rw [update_loop]
    simp only []
    rw [ih, update_body_control]
    simp only [_energy_control_state_t.mk.injEq, and_true, true_and, List.mem_cons,
      exists_eq_or_imp]
    constructor <;> funext j
    · by_cases h1 : j < AMD_ENERGY_MAX_COUNTERS ∧ ∃ n ∈ rest, native_index papi n = (j : Int)
      · have h2 : j < AMD_ENERGY_MAX_COUNTERS ∧
            (native_index papi a = (j : Int) ∨ ∃ n ∈ rest, native_index papi n = (j : Int)) :=
          ⟨h1.1, Or.inr h1.2⟩
        rw [if_pos h1, if_pos h2]
      · rw [if_neg h1]
        by_cases h3 : j < AMD_ENERGY_MAX_COUNTERS ∧ native_index papi a = (j : Int)
        · have h2 : j < AMD_ENERGY_MAX_COUNTERS ∧
              (native_index papi a = (j : Int) ∨ ∃ n ∈ rest, native_index papi n = (j : Int)) :=
            ⟨h3.1, Or.inl h3.2⟩
          rw [if_pos h3, if_pos h2]
        · have h2 : ¬ (j < AMD_ENERGY_MAX_COUNTERS ∧
              (native_index papi a = (j : Int) ∨
                ∃ n ∈ rest, native_index papi n = (j : Int))) := by
            rintro ⟨hj, h | h⟩
            · exact h3 ⟨hj, h⟩
            · exact h1 ⟨hj, h⟩
          rw [if_neg h3, if_neg h2]
    · by_cases h1 : j < AMD_ENERGY_MAX_COUNTERS ∧ ∃ n ∈ rest, native_index papi n = (j : Int)
      · have h2 : j < AMD_ENERGY_MAX_COUNTERS ∧
            (native_index papi a = (j : Int) ∨ ∃ n ∈ rest, native_index papi n = (j : Int)) :=
          ⟨h1.1, Or.inr h1.2⟩
        rw [if_pos h1, if_pos h2]
      · rw [if_neg h1]
        by_cases h3 : j < AMD_ENERGY_MAX_COUNTERS ∧ native_index papi a = (j : Int)
        · have h2 : j < AMD_ENERGY_MAX_COUNTERS ∧
              (native_index papi a = (j : Int) ∨ ∃ n ∈ rest, native_index papi n = (j : Int)) :=
            ⟨h3.1, Or.inl h3.2⟩
          rw [if_pos h3, if_pos h2]
        · have h2 : ¬ (j < AMD_ENERGY_MAX_COUNTERS ∧
              (native_index papi a = (j : Int) ∨
                ∃ n ∈ rest, native_index papi n = (j : Int))) := by
            rintro ⟨hj, h | h⟩
            · exact h3 ⟨hj, h⟩
            · exact h1 ⟨hj, h⟩
          rw [if_neg h3, if_neg h2]

/-- The control state that `_amd_energy_update_control_state` leaves. -/
theorem update_control (papi : PapiDefs) (events : Nat → _energy_native_event_entry_t)
    (control : _energy_control_state_t) (native : List NativeInfo_t) :
    (_amd_energy_update_control_state papi events control native).2.2 =
      { being_measured := fun j =>
          if j < AMD_ENERGY_MAX_COUNTERS ∧ ∃ n ∈ native, native_index papi n = (j : Int) then 1
          else if j < AMD_ENERGY_MAX_COUNTERS then 0 else control.being_measured j
        count := control.count
        need_difference := fun j =>
          if j < AMD_ENERGY_MAX_COUNTERS ∧ ∃ n ∈ native, native_index papi n = (j : Int) then
            (if (events j).type = PACKAGE_ENERGY ∨ (events j).type = PACKAGE_ENERGY_CNT
             then 1 else 0)
          else control.need_difference j
        lastupdate := control.lastupdate } := by
  unfold _amd_energy_update_control_state
  simp only [update_loop_control, clear_loop_closed]

/-- The index of a native event whose code is a position of a catalog of `N`
events is the code itself, when `PAPI_NATIVE_AND_MASK` leaves the positions
unchanged. -/
theorem native_index_code (papi : PapiDefs) (n : NativeInfo_t) (N : Nat)
    (hN : N < 2147483648)
    (hmask : ∀ c, c < N → Nat.land c papi.PAPI_NATIVE_AND_MASK = c)
    (h0 : 0 ≤ n.ni_event) (h1 : n.ni_event < (N : Int)) :
    native_index papi n = n.ni_event := by
  obtain ⟨c, hc⟩ : ∃ c : Nat, n.ni_event = (c : Int) := ⟨n.ni_event.toNat, by omega⟩
  have hcN : c < N := by omega
  unfold native_index toUInt32
  rw [hc]
  have hu : ((c : Int) % 4294967296).toNat = c := by omega
  rw [hu, hmask c hcN, toInt32_small c (by omega)]

/-- The mask of the release leaves every code below 2^30 unchanged. -/
theorem native_mask_release (c : Nat) (hc : c < 1073741824) :
    Nat.land c papiRelease.PAPI_NATIVE_AND_MASK = c := by
  show c &&& 3221225471 = c
  apply Nat.eq_of_testBit_eq
  intro i
  rw [Nat.testBit_and]
  by_cases hi : i < 30
  · have hm : Nat.testBit 3221225471 i = true := by
      interval_cases i <;> rfl
    rw [hm, Bool.and_true]
  · have hlt : c < 2 ^ i :=
      lt_of_lt_of_le hc (by
        have : (2 : Nat) ^ 30 ≤ 2 ^ i := Nat.pow_le_pow_right (by decide) (by omega)
        omega)
    rw [Nat.testBit_lt_two_pow hlt, Bool.false_and]

/-- A call none of whose stores is within the arrays leaves the control state
of the clearing loop: no slot of the arrays is measured, and `count`,
`need_difference` and `lastupdate` are the ones before the call. -/
theorem update_out_of_arrays (papi : PapiDefs) (events : Nat → _energy_native_event_entry_t)
    (control : _energy_control_state_t) (native : List NativeInfo_t)
    (hout : ∀ n ∈ native,
      ¬ (0 ≤ native_index papi n ∧ native_index papi n < (AMD_ENERGY_MAX_COUNTERS : Int))) :
    (_amd_energy_update_control_state papi events control native).2.2 =
      { being_measured := fun j =>
          if j < AMD_ENERGY_MAX_COUNTERS then 0 else control.being_measured j
        count := control.count
        need_difference := control.need_difference
        lastupdate := control.lastupdate } := by
  rw [update_control]
  have h : ∀ j : Nat,
      ¬ (j < AMD_ENERGY_MAX_COUNTERS ∧ ∃ n ∈ native, native_index papi n = (j : Int)) := by
    rintro j ⟨hj, n, hn, hnj⟩
    exact hout n hn ⟨by omega, by omega⟩
  simp only [h, if_false]

/-- With no slot measured, start and then stop leave the context and the
reported counts as they were. -/
theorem start_stop_idle (events : Nat → _energy_native_event_entry_t) (D : Int)
    (msrs0 msrs1 : MsrFile) (now0 now1 : Int) (context : _energy_context_t)
    (control : _energy_control_state_t) (h : ∀ j, control.being_measured j = 0) :
    (_amd_energy_stop events D msrs1 now1
      (_amd_energy_start events msrs0 now0 context control).2.1
      (_amd_energy_start events msrs0 now0 context control).2.2).2.1 = context ∧
    (_amd_energy_stop events D msrs1 now1
      (_amd_energy_start events msrs0 now0 context control).2.1
      (_amd_energy_start events msrs0 now0 context control).2.2).2.2.count = control.count := by
  have hd : ∀ j : Nat, ¬ (j < AMD_ENERGY_MAX_COUNTERS ∧ differenced control j) := by
    rintro j ⟨_, hb, _⟩
    exact hb (h j)
  have hs : (_amd_energy_start events msrs0 now0 context control).2.1 = context := by
    rw [start_context]
    simp only [hd, if_false]
  rw [stop_context, stop_control, hs, start_control]
  have hd1 : ∀ j : Nat, ¬ (j < AMD_ENERGY_MAX_COUNTERS ∧
      differenced { control with lastupdate := now0 } j) := by
    rintro j ⟨_, hb, _⟩
    exact hb (h j)
  have hb1 : ∀ j : Nat, ¬ (j < AMD_ENERGY_MAX_COUNTERS ∧ control.being_measured j ≠ 0) := by
    rintro j ⟨_, hb⟩
    exact hb (h j)
  simp only [hd1, hb1, if_false, and_self]

/-- Every descriptor of the built catalog has one of the two event types. -/
theorem create_events_type (papi : PapiDefs) (P C : Nat) (cpu_to_use : Nat → Int) (pos : Nat)
    (hpos : pos < (create_events papi P C cpu_to_use).num_events) :
    ((create_events papi P C cpu_to_use).energy_native_events pos).type = PACKAGE_ENERGY ∨
    ((create_events papi P C cpu_to_use).energy_native_events pos).type = PACKAGE_ENERGY_CNT := by
  rw [create_events_num] at hpos
  rw [create_events_entry]
  split_ifs
  · exact Or.inr rfl
  · exact Or.inr rfl
  · exact Or.inl rfl
  · exact Or.inl rfl
  · exfalso; omega

/-- A selected event of the built catalog is differenced. -/
theorem update_differenced (papi : PapiDefs) (P C : Nat) (cpu_to_use : Nat → Int)
    (control : _energy_control_state_t) (native : List NativeInfo_t) (n : NativeInfo_t)
    (hn : n ∈ native) (h0 : 0 ≤ native_index papi n)
    (hmax : native_index papi n < (AMD_ENERGY_MAX_COUNTERS : Int))
    (hcat : (native_index papi n).toNat < (create_events papi P C cpu_to_use).num_events) :
    differenced
      (_amd_energy_update_control_state papi
        (create_events papi P C cpu_to_use).energy_native_events control native).2.2
      (native_index papi n).toNat := by
  rw [update_control]
  have hex : (native_index papi n).toNat < AMD_ENERGY_MAX_COUNTERS ∧
      ∃ m ∈ native, native_index papi m = (((native_index papi n).toNat : Nat) : Int) :=
    ⟨by omega, n, hn, by omega⟩
  have ht := create_events_type papi P C cpu_to_use _ hcat
  unfold differenced
  simp only [if_pos hex, if_pos ht]
  exact ⟨by decide, by decide⟩

/-- The conversion of the value 0 is 0, for both event types. -/
theorem convert_zero (events : Nat → _energy_native_event_entry_t) (D : Int) (index : Nat) :
    convert_energy_readings events D index 0 = 0 := by
  unfold convert_energy_readings
  split_ifs
  · simp [roundDouble, truncToLongLong]
  · rfl

/-- On a catalog that fits the arrays (at most `AMD_ENERGY_MAX_COUNTERS`
events, for instance the 12 events of 2 packages and 4 cores), for every
selection made through `_amd_energy_update_control_state` and every content of
the registers: after `_amd_energy_start` and then `_amd_energy_stop` with the
registers holding the same values, the slot of every selected event code has
`accumulated_value` 0 and reported `count` 0, for a RAW_COUNT as for a
CONVERTED_ENERGY slot. -/
theorem start_stop_same_readings_in_arrays (papi : PapiDefs) (P C : Nat)
    (cpu_to_use : Nat → Int) (D : Int) (msrs : MsrFile) (now0 now1 : Int)
    (context : _energy_context_t) (control : _energy_control_state_t)
    (native : List NativeInfo_t) (n : NativeInfo_t)
    (hfit : (create_events papi P C cpu_to_use).num_events ≤ AMD_ENERGY_MAX_COUNTERS)
    (hmask : ∀ c, c < (create_events papi P C cpu_to_use).num_events →
      Nat.land c papi.PAPI_NATIVE_AND_MASK = c)
    (hn : n ∈ native) (h0 : 0 ≤ n.ni_event)
    (hcat : n.ni_event < ((create_events papi P C cpu_to_use).num_events : Int)) :
    (_amd_energy_stop (create_events papi P C cpu_to_use).energy_native_events D msrs now1
      (_amd_energy_start (create_events papi P C cpu_to_use).energy_native_events msrs now0
        context
        (_amd_energy_update_control_state papi
          (create_events papi P C cpu_to_use).energy_native_events control native).2.2).2.1
      (_amd_energy_start (create_events papi P C cpu_to_use).energy_native_events msrs now0
        context
        (_amd_energy_update_control_state papi
          (create_events papi P C cpu_to_use).energy_native_events control
          native).2.2).2.2).2.1.accumulated_value n.ni_event.toNat = 0 ∧
    (_amd_energy_stop (create_events papi P C cpu_to_use).energy_native_events D msrs now1
      (_amd_energy_start (create_events papi P C cpu_to_use).energy_native_events msrs now0
        context
        (_amd_energy_update_control_state papi
          (create_events papi P C cpu_to_use).energy_native_events control native).2.2).2.1
      (_amd_energy_start (create_events papi P C cpu_to_use).energy_native_events msrs now0
        context
        (_amd_energy_update_control_state papi
          (create_events papi P C cpu_to_use).energy_native_events control
          native).2.2).2.2).2.2.count n.ni_event.toNat = 0 := by
  have hfit' : (create_events papi P C cpu_to_use).num_events ≤ 260 := hfit
  have hidx : native_index papi n = n.ni_event :=
    native_index_code papi n _ (by omega) hmask h0 hcat
  have hcat' : (native_index papi n).toNat < (create_events papi P C cpu_to_use).num_events := by
    omega
  have hmax' : (native_index papi n).toNat < AMD_ENERGY_MAX_COUNTERS := by
    show (native_index papi n).toNat < 260
    omega
  have hmax : native_index papi n < (AMD_ENERGY_MAX_COUNTERS : Int) := by
    show native_index papi n < ((260 : Nat) : Int)
    omega
  have hd := update_differenced papi P C cpu_to_use control native n hn (by omega) hmax hcat'
  have hd0 := (start_differenced (create_events papi P C cpu_to_use).energy_native_events msrs
    now0 context _ _).mpr hd
  obtain ⟨s1, s2⟩ := start_slot (create_events papi P C cpu_to_use).energy_native_events msrs
    now0 context _ _ hmax' hd
  obtain ⟨_, t2, t3⟩ := stop_slot (create_events papi P C cpu_to_use).energy_native_events D msrs
    now1 _ _ _ hmax' hd0
  rw [hidx] at t2 t3 s1 s2
  refine ⟨?_, ?_⟩
  · rw [t2, s1, s2, wrap_delta_self]; rfl
  · rw [t3, s1, s2, wrap_delta_self]
    exact convert_zero _ _ _

/-- The 12 events of 2 packages and 4 cores, all selected: slot 7 (the energy of
package 1) after start and stop on registers that all hold `0x12345678`. -/
theorem start_stop_same_readings_twelve :
    (_amd_energy_stop (create_events papiRelease 2 4 cpu_to_use_two).energy_native_events 65536
      (msrs_const 0x12345678) 1
      (_amd_energy_start (create_events papiRelease 2 4 cpu_to_use_two).energy_native_events
        (msrs_const 0x12345678) 0 (context_const 5 9)
        (_amd_energy_update_control_state papiRelease
          (create_events papiRelease 2 4 cpu_to_use_two).energy_native_events control_slot0
          native_twelve).2.2).2.1
      (_amd_energy_start (create_events papiRelease 2 4 cpu_to_use_two).energy_native_events
        (msrs_const 0x12345678) 0 (context_const 5 9)
        (_amd_energy_update_control_state papiRelease
          (create_events papiRelease 2 4 cpu_to_use_two).energy_native_events control_slot0
          native_twelve).2.2).2.2).2.2.count
      ({ ni_event := 7, ni_position := 0 } : NativeInfo_t).ni_event.toNat = 0 :=
  (start_stop_same_readings_in_arrays papiRelease 2 4 cpu_to_use_two 65536
    (msrs_const 0x12345678) 0 1 (context_const 5 9) control_slot0 native_twelve
    { ni_event := 7, ni_position := 0 } (by decide)
    (fun c hc => native_mask_release c (lt_trans hc (by decide))) (by decide) (by decide)
    (by decide)).2

/-- C7: the claim fails on a catalog of more than `AMD_ENERGY_MAX_COUNTERS`
events. With 2 packages and 256 cpus the catalog has 516 events; the event
with code 260 is one of them, its index is 260 = `AMD_ENERGY_MAX_COUNTERS`,
and `_amd_energy_update_control_state` stores `being_measured[260]` and
`need_difference[260]` outside the arrays without a bound check. No slot of
the arrays is selected by the call, and the loops of `_amd_energy_start` and
`_amd_energy_stop` stop at `AMD_ENERGY_MAX_COUNTERS`: after start and stop on
the same register contents the context is the one before, every baseline 5
and every total 9 (not 0), whatever the registers hold. -/
theorem start_stop_event_beyond_counters :
    (create_events papiRelease 2 256 cpu_to_use_two).num_events = 516 ∧
    native_index papiRelease { ni_event := 260, ni_position := 0 } =
      (AMD_ENERGY_MAX_COUNTERS : Int) ∧
    ¬ update_in_bounds papiRelease native_code_260 ∧
    (∀ j : Nat,
      (_amd_energy_update_control_state papiRelease
        (create_events papiRelease 2 256 cpu_to_use_two).energy_native_events
        (control_reported 7) native_code_260).2.2.being_measured j = 0) ∧
    ∀ (D : Int) (msrs : MsrFile) (now0 now1 : Int),
      (_amd_energy_stop (create_events papiRelease 2 256 cpu_to_use_two).energy_native_events
        D msrs now1
        (_amd_energy_start (create_events papiRelease 2 256 cpu_to_use_two).energy_native_events
          msrs now0 (context_const 5 9)
          (_amd_energy_update_control_state papiRelease
            (create_events papiRelease 2 256 cpu_to_use_two).energy_native_events
            (control_reported 7) native_code_260).2.2).2.1
        (_amd_energy_start (create_events papiRelease 2 256 cpu_to_use_two).energy_native_events
          msrs now0 (context_const 5 9)
          (_amd_energy_update_control_state papiRelease
            (create_events papiRelease 2 256 cpu_to_use_two).energy_native_events
            (control_reported 7) native_code_260).2.2).2.2).2.1 = context_const 5 9 := by
  have hu := update_out_of_arrays papiRelease
    (create_events papiRelease 2 256 cpu_to_use_two).energy_native_events (control_reported 7)
    native_code_260 (by decide)
  have hb : ∀ k, (_amd_energy_update_control_state papiRelease
      (create_events papiRelease 2 256 cpu_to_use_two).energy_native_events
      (control_reported 7) native_code_260).2.2.being_measured k = 0 := by
    intro k
    rw [hu]
    simp [control_reported]
  refine ⟨by rw [create_events_num], by decide, by decide, hb, ?_⟩
  intro D msrs now0 now1
  exact (start_stop_idle
    (create_events papiRelease 2 256 cpu_to_use_two).energy_native_events D msrs msrs now0 now1
    (context_const 5 9) _ hb).1

/-! ## The unit register -/

/-- A field of the unit register lies between 0 and its mask. -/
theorem shr_and_range (x : Int) (offset mask : Nat) :
    0 ≤ shr_and x offset mask ∧ shr_and x offset mask ≤ (mask : Int) := by
  unfold shr_and
  have h : (0 : Int) < (mask : Int) + 1 := by omega
  constructor
  · exact Int.emod_nonneg _ (by omega)
  · have := Int.emod_lt_of_pos (x / 2 ^ offset) h
    omega

/-- For a shift count up to 30 the `int` value of `1 << n` is `2^n`. -/
theorem shl_int32_small (n : Int) (h0 : 0 ≤ n) (h1 : n ≤ 30) :
    shl_int32 n = 2 ^ n.toNat ∧ 0 < shl_int32 n := by
  obtain ⟨k, rfl⟩ : ∃ k : Nat, n = (k : Int) := ⟨n.toNat, by omega⟩
  have hk : k ≤ 30 := by omega
  unfold shl_int32
  simp only [Int.toNat_ofNat]
  have hpow : 2 ^ k ≤ 2 ^ 30 := Nat.pow_le_pow_right (by norm_num) hk
  have hlt : 2 ^ k < 2147483648 := by
    have : (2 : Nat) ^ 30 = 1073741824 := by norm_num
    omega
  rw [toInt32_small _ hlt]
  have hpos : 0 < 2 ^ k := Nat.pow_pos (by norm_num)
  constructor
  · push_cast; rfl
  · exact_mod_cast hpos

/-- The power divisor is `2^p` and positive for every content of the register;
the energy divisor is `2^e` and positive for a field `e` up to 30. -/
theorem divisors_of_unit (papi : PapiDefs) (env : InitEnv) (cidx : Int)
    (cpu_to_use : Nat → Int) (g : ComponentState) :
    (init_units_and_events papi env cidx cpu_to_use g).2.power_divisor =
      2 ^ (shr_and (env.msrs (cpu_to_use 0) g.msr_rapl_power_unit) 0 0x0f).toNat ∧
    0 < (init_units_and_events papi env cidx cpu_to_use g).2.power_divisor ∧
    (shr_and (env.msrs (cpu_to_use 0) g.msr_rapl_power_unit) 8 0x1f ≤ 30 →
      (init_units_and_events papi env cidx cpu_to_use g).2.cpu_energy_divisor =
        2 ^ (shr_and (env.msrs (cpu_to_use 0) g.msr_rapl_power_unit) 8 0x1f).toNat ∧
      0 < (init_units_and_events papi env cidx cpu_to_use g).2.cpu_energy_divisor) := by
  have hp := shr_and_range (env.msrs (cpu_to_use 0) g.msr_rapl_power_unit) 0 0x0f
  have he := shr_and_range (env.msrs (cpu_to_use 0) g.msr_rapl_power_unit) 8 0x1f
  have hpd : (init_units_and_events papi env cidx cpu_to_use g).2.power_divisor =
      shl_int32 (shr_and (env.msrs (cpu_to_use 0) g.msr_rapl_power_unit) 0 0x0f) := by
    unfold init_units_and_events init_exit
    simp only []
    split_ifs <;> rfl
  have hed : (init_units_and_events papi env cidx cpu_to_use g).2.cpu_energy_divisor =
      shl_int32 (shr_and (env.msrs (cpu_to_use 0) g.msr_rapl_power_unit) 8 0x1f) := by
    unfold init_units_and_events init_exit
    simp only []
    split_ifs <;> rfl
  rw [hpd, hed]
  have h1 := shl_int32_small _ hp.1 (by have := hp.2; omega)
  refine ⟨h1.1, h1.2, ?_⟩
  intro h30
  exact shl_int32_small _ he.1 h30

/-- C11: the claim fails for the energy field 31. With the unit register
holding `0x1F00` (power field 0, energy field 31) a successful
`_amd_energy_init_component` stores `power_divisor = 1` and
`cpu_energy_divisor = -2147483648`: the `int` computation `1 << 31` does not
give `2^31`, and the stored energy divisor is not positive. -/
theorem energy_divisor_field_31 :
    shr_and 0x1F00 ENERGY_UNIT_OFFSET ENERGY_UNIT_MASK = 31 ∧
    (_amd_energy_init_component papiRelease (env_two_packages 0x1F00) 0
      component_at_load).1 = PapiStatus.PAPI_OK ∧
    (_amd_energy_init_component papiRelease (env_two_packages 0x1F00) 0
      component_at_load).2.power_divisor = 1 ∧
    (_amd_energy_init_component papiRelease (env_two_packages 0x1F00) 0
      component_at_load).2.cpu_energy_divisor = -2147483648 ∧
    ¬ (0 < (_amd_energy_init_component papiRelease (env_two_packages 0x1F00) 0
      component_at_load).2.cpu_energy_divisor) := by
  refine ⟨by decide, by decide, by decide, by decide, by decide⟩

/-! ## Raw counts, selectors and difference flags -/

/-- An event whose type is not `PACKAGE_ENERGY` keeps its value in the conversion. -/
theorem convert_raw (events : Nat → _energy_native_event_entry_t) (D : Int) (index : Nat)
    (V : Int) (ht : (events index).type = PACKAGE_ENERGY_CNT) :
    convert_energy_readings events D index V = V := by
  unfold convert_energy_readings
  have h : ¬ ((events index).type = PACKAGE_ENERGY) := by rw [ht]; decide
  rw [if_neg h]

/-- A slot of the arrays that an entry of `native` addresses, after
`_amd_energy_update_control_state`: measured, with the difference flag of its
descriptor type. -/
theorem update_selected (papi : PapiDefs) (events : Nat → _energy_native_event_entry_t)
    (control : _energy_control_state_t) (native : List NativeInfo_t) (n : NativeInfo_t)
    (hn : n ∈ native) (h0 : 0 ≤ native_index papi n)
    (hmax : native_index papi n < (AMD_ENERGY_MAX_COUNTERS : Int)) :
    (_amd_energy_update_control_state papi events control native).2.2.being_measured
      (native_index papi n).toNat = 1 ∧
    (_amd_energy_update_control_state papi events control native).2.2.need_difference
      (native_index papi n).toNat =
        (if (events (native_index papi n).toNat).type = PACKAGE_ENERGY ∨
            (events (native_index papi n).toNat).type = PACKAGE_ENERGY_CNT then 1 else 0) := by
  rw [update_control]
  have hex : (native_index papi n).toNat < AMD_ENERGY_MAX_COUNTERS ∧
      ∃ m ∈ native, native_index papi m = (((native_index papi n).toNat : Nat) : Int) :=
    ⟨by omega, n, hn, by omega⟩
  simp only [if_pos hex, and_self]

/-- C12: for a RAW_COUNT slot (type `PACKAGE_ENERGY_CNT`) `convert_energy_readings`
returns every value unchanged, for every energy divisor; so for a slot selected
through `_amd_energy_update_control_state` the count that stop leaves, and that
read hands back, is the accumulated total of the slot, whatever the divisor. -/
theorem raw_count_is_total (papi : PapiDefs) (events : Nat → _energy_native_event_entry_t)
    (D : Int) (msrs : MsrFile) (now : Int) (context : _energy_context_t)
    (control : _energy_control_state_t) (native : List NativeInfo_t) (n : NativeInfo_t)
    (hn : n ∈ native) (h0 : 0 ≤ native_index papi n)
    (hmax : native_index papi n < (AMD_ENERGY_MAX_COUNTERS : Int))
    (ht : (events (native_index papi n).toNat).type = PACKAGE_ENERGY_CNT) :
    (∀ V D1 : Int, convert_energy_readings events D1 (native_index papi n).toNat V = V) ∧
    (_amd_energy_stop events D msrs now context
        (_amd_energy_update_control_state papi events control native).2.2).2.2.count
      (native_index papi n).toNat =
      (_amd_energy_stop events D msrs now context
        (_amd_energy_update_control_state papi events control native).2.2).2.1.accumulated_value
      (native_index papi n).toNat ∧
    (_amd_energy_read events D msrs now context
        (_amd_energy_update_control_state papi events control native).2.2).2.1
      (native_index papi n).toNat =
      (_amd_energy_read events D msrs now context
        (_amd_energy_update_control_state papi events control
          native).2.2).2.2.1.accumulated_value
      (native_index papi n).toNat := by
  have hmax' : (native_index papi n).toNat < AMD_ENERGY_MAX_COUNTERS := by omega
  obtain ⟨u1, u2⟩ := update_selected papi events control native n hn h0 hmax
  have hd : differenced (_amd_energy_update_control_state papi events control native).2.2
      (native_index papi n).toNat := by
    unfold differenced
    rw [u1, u2, if_pos (Or.inr ht)]
    exact ⟨by decide, by decide⟩
  obtain ⟨_, t2, t3⟩ := stop_slot events D msrs now context _ _ hmax' hd
  refine ⟨fun V D1 => convert_raw events D1 _ V ht, ?_, ?_⟩
  · rw [t3, t2, convert_raw events D _ _ ht]
  · rw [read_eq_stop]
    simp only []
    rw [t3, t2, convert_raw events D _ _ ht]

/-- Witness of C12: 2 packages and 4 cores, all 12 events selected, slot 3 (the
count of core 1). -/
theorem raw_count_is_total_witness :
    (({ ni_event := 3, ni_position := 0 } : NativeInfo_t) ∈ native_twelve ∧
      0 ≤ native_index papiRelease { ni_event := 3, ni_position := 0 } ∧
      native_index papiRelease { ni_event := 3, ni_position := 0 } <
        (AMD_ENERGY_MAX_COUNTERS : Int) ∧
      ((create_events papiRelease 2 4 cpu_to_use_two).energy_native_events
        (native_index papiRelease { ni_event := 3, ni_position := 0 }).toNat).type =
          PACKAGE_ENERGY_CNT) ∧
    convert_energy_readings (create_events papiRelease 2 4 cpu_to_use_two).energy_native_events
      65536 (native_index papiRelease { ni_event := 3, ni_position := 0 }).toNat 77 = 77 :=
  ⟨⟨by decide, by decide, by decide, by decide⟩,
   (raw_count_is_total papiRelease
      (create_events papiRelease 2 4 cpu_to_use_two).energy_native_events 65536 (msrs_const 5) 0
      (context_const 1 2) control_slot0 native_twelve { ni_event := 3, ni_position := 0 }
      (by decide) (by decide) (by decide) (by decide)).1 77 65536⟩

/-- The selector of every descriptor of the built catalog. -/
theorem create_events_selector (papi : PapiDefs) (P C : Nat) (cpu_to_use : Nat → Int) (pos : Nat)
    (hpos : pos < (create_events papi P C cpu_to_use).num_events) :
    ((create_events papi P C cpu_to_use).energy_native_events pos).resources.selector =
      pos + 1 := by
  rw [create_events_num] at hpos
  rw [create_events_entry]
  split_ifs
  · rfl
  · rfl
  · rfl
  · rfl
  · exfalso; omega

/-- The entry of `native` as the body of the loop leaves it. -/
theorem update_body_native (papi : PapiDefs) (events : Nat → _energy_native_event_entry_t)
    (a : NativeInfo_t) (control : _energy_control_state_t) :
    (update_body papi events a control).1 =
      { a with
        ni_position :=
          toInt32 ((events (native_index papi a).toNat).resources.selector + 4294967295) } := by
  unfold update_body
  simp only []
  split_ifs <;> rfl

/-- The array `native` as the loop of `_amd_energy_update_control_state` leaves it. -/
theorem update_loop_native (papi : PapiDefs) (events : Nat → _energy_native_event_entry_t)
    (native : List NativeInfo_t) :
    ∀ control : _energy_control_state_t,
      (update_loop papi events native control).1 =
        native.map (fun n =>
          { n with
            ni_position :=
              toInt32 ((events (native_index papi n).toNat).resources.selector + 4294967295) }) := by
  induction native with
  | nil => intro control; rfl
  | cons a rest ih =>
    intro control
    rw [update_loop]
    simp only [List.map_cons]
    rw [ih, update_body_native]

theorem toInt32_lt (n : Nat) : toInt32 n < 2147483648 := by
  unfold toInt32
  split_ifs with h
  · omega
  · omega

/-- The selector minus one, in `unsigned int` arithmetic, stored in an `int`. -/
theorem toInt32_selector (i : Nat) (h : i < 2147483648) :
    toInt32 (i + 1 + 4294967295) = (i : Int) := by
  unfold toInt32
  have h1 : (i + 1 + 4294967295) % 4294967296 = i := by omega
  rw [h1, if_pos h]

/-- C13: in a built catalog the descriptor at every position `i` below the
catalog length has `resources.selector = i + 1`; so
`_amd_energy_update_control_state` gives every native event whose code
`ni_event` is a catalog position the result position `ni_position` equal to
that code (`PAPI_NATIVE_AND_MASK` leaves the catalog positions unchanged, as
the mask of the release does for every code below 2^30; the number of events
is an `int`). -/
theorem selector_is_position_plus_one (papi : PapiDefs) (P C : Nat) (cpu_to_use : Nat → Int)
    (control : _energy_control_state_t) (native : List NativeInfo_t) (i : Nat)
    (hi : i < (create_events papi P C cpu_to_use).num_events)
    (hsize : (create_events papi P C cpu_to_use).num_events < 2147483648)
    (hmask : ∀ c, c < (create_events papi P C cpu_to_use).num_events →
      Nat.land c papi.PAPI_NATIVE_AND_MASK = c)
    (hnative : ∀ n ∈ native, 0 ≤ n.ni_event ∧
      n.ni_event < ((create_events papi P C cpu_to_use).num_events : Int)) :
    ((create_events papi P C cpu_to_use).energy_native_events i).resources.selector = i + 1 ∧
    (_amd_energy_update_control_state papi
      (create_events papi P C cpu_to_use).energy_native_events control native).2.1 =
      native.map (fun n => { n with ni_position := n.ni_event }) ∧
    (_amd_energy_update_control_state papi
      (create_events papi P C cpu_to_use).energy_native_events control native).1 =
      PapiStatus.PAPI_OK := by
  refine ⟨create_events_selector papi P C cpu_to_use i hi, ?_, rfl⟩
  unfold _amd_energy_update_control_state
  simp only []
  rw [update_loop_native]
  apply List.map_congr_left
  intro n hn
  obtain ⟨h0, h1⟩ := hnative n hn
  have hidx : native_index papi n = n.ni_event :=
    native_index_code papi n _ hsize hmask h0 h1
  have hpos : (native_index papi n).toNat < (create_events papi P C cpu_to_use).num_events := by
    omega
  rw [create_events_selector papi P C cpu_to_use _ hpos, toInt32_selector _ (by omega)]
  congr 1
  omega

/-- Witness of C13: 2 packages and 4 cores, the events with the codes 5 and 9
selected: position 5 has selector 6, and the result positions are 5 and 9. -/
theorem selector_is_position_plus_one_witness :
    (5 < (create_events papiRelease 2 4 cpu_to_use_two).num_events ∧
      (create_events papiRelease 2 4 cpu_to_use_two).num_events < 2147483648 ∧
      (∀ c, c < (create_events papiRelease 2 4 cpu_to_use_two).num_events →
        Nat.land c papiRelease.PAPI_NATIVE_AND_MASK = c) ∧
      ∀ n ∈ [({ ni_event := 5, ni_position := 0 } : NativeInfo_t),
          { ni_event := 9, ni_position := 0 }],
        0 ≤ n.ni_event ∧
          n.ni_event < ((create_events papiRelease 2 4 cpu_to_use_two).num_events : Int)) ∧
    ((create_events papiRelease 2 4 cpu_to_use_two).energy_native_events 5).resources.selector =
      5 + 1 ∧
    (_amd_energy_update_control_state papiRelease
      (create_events papiRelease 2 4 cpu_to_use_two).energy_native_events control_slot0
      [{ ni_event := 5, ni_position := 0 }, { ni_event := 9, ni_position := 0 }]).2.1 =
      [{ ni_event := 5, ni_position := 5 }, { ni_event := 9, ni_position := 9 }] :=
  ⟨⟨by decide, by decide,
    fun c hc => native_mask_release c (lt_trans hc (by decide)), by decide⟩,
   (selector_is_position_plus_one papiRelease 2 4 cpu_to_use_two control_slot0
      [{ ni_event := 5, ni_position := 0 }, { ni_event := 9, ni_position := 0 }] 5
      (by decide) (by decide) (fun c hc => native_mask_release c (lt_trans hc (by decide)))
      (by decide)).1,
   (selector_is_position_plus_one papiRelease 2 4 cpu_to_use_two control_slot0
      [{ ni_event := 5, ni_position := 0 }, { ni_event := 9, ni_position := 0 }] 5
      (by decide) (by decide) (fun c hc => native_mask_release c (lt_trans hc (by decide)))
      (by decide)).2.1⟩

/-- On a catalog that fits the arrays (at most `AMD_ENERGY_MAX_COUNTERS`
events), after `_amd_energy_update_control_state` the slot of every selected
event code is marked as measured and has `need_difference = 1`, whether its
descriptor is a RAW_COUNT or a CONVERTED_ENERGY one; start stores the masked
reading as its baseline and stop adds the wraparound delta against that
baseline to its total. -/
theorem selected_slots_differenced_in_arrays (papi : PapiDefs) (P C : Nat)
    (cpu_to_use : Nat → Int) (D : Int) (msrs0 msrs1 : MsrFile) (now0 now1 : Int)
    (context : _energy_context_t) (control : _energy_control_state_t)
    (native : List NativeInfo_t) (n : NativeInfo_t)
    (hfit : (create_events papi P C cpu_to_use).num_events ≤ AMD_ENERGY_MAX_COUNTERS)
    (hmask : ∀ c, c < (create_events papi P C cpu_to_use).num_events →
      Nat.land c papi.PAPI_NATIVE_AND_MASK = c)
    (hn : n ∈ native) (h0 : 0 ≤ n.ni_event)
    (hcat : n.ni_event < ((create_events papi P C cpu_to_use).num_events : Int)) :
    (_amd_energy_update_control_state papi
      (create_events papi P C cpu_to_use).energy_native_events control native).2.2.need_difference
      n.ni_event.toNat = 1 ∧
    (_amd_energy_update_control_state papi
      (create_events papi P C cpu_to_use).energy_native_events control native).2.2.being_measured
      n.ni_event.toNat = 1 ∧
    (((create_events papi P C cpu_to_use).energy_native_events n.ni_event.toNat).type =
        PACKAGE_ENERGY ∨
      ((create_events papi P C cpu_to_use).energy_native_events n.ni_event.toNat).type =
        PACKAGE_ENERGY_CNT) ∧
    (_amd_energy_start (create_events papi P C cpu_to_use).energy_native_events msrs0 now0
      context
      (_amd_energy_update_control_state papi
        (create_events papi P C cpu_to_use).energy_native_events control
        native).2.2).2.1.start_value n.ni_event.toNat =
      mask32 (read_energy_value (create_events papi P C cpu_to_use).energy_native_events msrs0
        n.ni_event.toNat) ∧
    (_amd_energy_stop (create_events papi P C cpu_to_use).energy_native_events D msrs1 now1
      context
      (_amd_energy_update_control_state papi
        (create_events papi P C cpu_to_use).energy_native_events control
        native).2.2).2.1.accumulated_value n.ni_event.toNat =
      context.accumulated_value n.ni_event.toNat +
        wrap_delta (context.start_value n.ni_event.toNat)
          (mask32 (read_energy_value (create_events papi P C cpu_to_use).energy_native_events
            msrs1 n.ni_event.toNat)) := by
  have hfit' : (create_events papi P C cpu_to_use).num_events ≤ 260 := hfit
  have hidx : native_index papi n = n.ni_event :=
    native_index_code papi n _ (by omega) hmask h0 hcat
  have hcat' : (native_index papi n).toNat < (create_events papi P C cpu_to_use).num_events := by
    omega
  have hmax' : (native_index papi n).toNat < AMD_ENERGY_MAX_COUNTERS := by
    show (native_index papi n).toNat < 260
    omega
  have hmax : native_index papi n < (AMD_ENERGY_MAX_COUNTERS : Int) := by
    show native_index papi n < ((260 : Nat) : Int)
    omega
  obtain ⟨u1, u2⟩ := update_selected papi
    (create_events papi P C cpu_to_use).energy_native_events control native n hn (by omega) hmax
  have ht := create_events_type papi P C cpu_to_use _ hcat'
  have hd := update_differenced papi P C cpu_to_use control native n hn (by omega) hmax hcat'
  have s1 := (start_slot (create_events papi P C cpu_to_use).energy_native_events msrs0 now0
    context _ _ hmax' hd).1
  have t2 := (stop_slot (create_events papi P C cpu_to_use).energy_native_events D msrs1 now1
    context _ _ hmax' hd).2.1
  rw [if_pos ht] at u2
  rw [hidx] at u1 u2 ht s1 t2
  exact ⟨u2, u1, ht, s1, t2⟩

/-- The 12 events of 2 packages and 4 cores, all selected: slot 7 has its
difference flag set. -/
theorem selected_slots_differenced_twelve :
    (_amd_energy_update_control_state papiRelease
      (create_events papiRelease 2 4 cpu_to_use_two).energy_native_events control_slot0
      native_twelve).2.2.need_difference
      ({ ni_event := 7, ni_position := 0 } : NativeInfo_t).ni_event.toNat = 1 :=
  (selected_slots_differenced_in_arrays papiRelease 2 4 cpu_to_use_two 65536 (msrs_const 1)
    (msrs_const 2) 0 1 (context_const 0 0) control_slot0 native_twelve
    { ni_event := 7, ni_position := 0 } (by decide)
    (fun c hc => native_mask_release c (lt_trans hc (by decide))) (by decide) (by decide)
    (by decide)).1

/-- C19: the claim fails on a catalog of more than `AMD_ENERGY_MAX_COUNTERS`
events. With 2 packages and 256 cpus the catalog has 516 events; the event
with code 260 is within `[0, 516)`, a CONVERTED_ENERGY event (type
`PACKAGE_ENERGY`), its index is 260 = `AMD_ENERGY_MAX_COUNTERS`, and the
store `need_difference[260]` of `_amd_energy_update_control_state` is outside
the array, made without a bound check. After the call no slot of the control
state has `need_difference` set and no slot is differenced: the selected event
has no slot that start and stop difference against a baseline. -/
theorem difference_flag_beyond_counters :
    (create_events papiRelease 2 256 cpu_to_use_two).num_events = 516 ∧
    ((create_events papiRelease 2 256 cpu_to_use_two).energy_native_events 260).type =
      PACKAGE_ENERGY ∧
    native_index papiRelease { ni_event := 260, ni_position := 0 } =
      (AMD_ENERGY_MAX_COUNTERS : Int) ∧
    ¬ update_in_bounds papiRelease native_code_260 ∧
    ∀ j : Nat,
      (_amd_energy_update_control_state papiRelease
        (create_events papiRelease 2 256 cpu_to_use_two).energy_native_events
        (control_reported 7) native_code_260).2.2.need_difference j = 0 ∧
      ¬ differenced
        (_amd_energy_update_control_state papiRelease
          (create_events papiRelease 2 256 cpu_to_use_two).energy_native_events
          (control_reported 7) native_code_260).2.2 j := by
  refine ⟨by rw [create_events_num], ?_, by decide, by decide, ?_⟩
  · rw [create_events_core_energy papiRelease 2 256 cpu_to_use_two 0 (by decide)]
    rfl
  · intro j
    rw [update_out_of_arrays papiRelease _ (control_reported 7) native_code_260 (by decide)]
    refine ⟨rfl, ?_⟩
    rintro ⟨_, h⟩
    exact h rfl

/-! ## The topology scan -/

/-- The sentinel fill in closed form. -/
theorem sentinel_fill_closed (nr_cpus : Int) (i : Nat) :
    sentinel_fill nr_cpus i = if i < nr_cpus.toNat then -1 else 0 := by
  unfold sentinel_fill
  generalize nr_cpus.toNat = n
  induction n with
  | zero => simp [for_loop]
  | succ n ih =>
    rw [for_loop]
    simp only [setAt]
    by_cases h1 : i = n
    · have : i < n + 1 := by omega
      rw [if_pos h1, if_pos this]
    · rw [if_neg h1, ih]
      by_cases h2 : i < n
      · have : i < n + 1 := by omega
        rw [if_pos h2, if_pos this]
      · have : ¬ i < n + 1 := by omega
        rw [if_neg h2, if_neg this]

/-- The state before the first core satisfies the invariant. -/
theorem scan_invariant_start (nr_cpus : Int) (n0 : Nat) :
    scan_invariant nr_cpus n0 []
      { packages := sentinel_fill nr_cpus
        cpu_to_use := sentinel_fill nr_cpus
        num_packages := n0
        j := 0 } := by
  refine ⟨rfl, by simp, ?_⟩
  intro p hp0 hp1
  have hlt : p.toNat < nr_cpus.toNat := by omega
  refine ⟨fun h => absurd h (List.not_mem_nil p), fun _ => ?_⟩
  simp only [sentinel_fill_closed, if_pos hlt, and_self]

/-- One core with a package id within the range: the scan goes on and the
invariant holds with this core added. -/
theorem topology_step_ok (papi : PapiDefs) (nr_cpus : Int) (n0 : Nat) (pre : List Int)
    (st : TopologyScan) (p : Int) (hinv : scan_invariant nr_cpus n0 pre st)
    (hp : 0 ≤ p ∧ p < nr_cpus) :
    (topology_step papi nr_cpus (some p) st).2 = none ∧
    scan_invariant nr_cpus n0 (pre ++ [p]) (topology_step papi nr_cpus (some p) st).1 := by
  obtain ⟨hj, hnum, harr⟩ := hinv
  unfold topology_step
  simp only [if_pos hp]
  by_cases hmem : p ∈ pre
  · have hpk : st.packages p.toNat = p := ((harr p hp.1 hp.2).1 hmem).1
    have hne : ¬ (st.packages p.toNat = -1) := by rw [hpk]; omega
    rw [if_neg hne]
    refine ⟨rfl, ?_, ?_, ?_⟩
    · simp [hj]
    · have : (pre ++ [p]).toFinset = pre.toFinset := by
        ext q
        simp only [List.toFinset_append, List.toFinset_cons, List.toFinset_nil,
          Finset.mem_union, Finset.mem_insert, List.mem_toFinset, Finset.not_mem_empty,
          or_false]
        constructor
        · rintro (h | h)
          · exact h
          · rw [h]; exact hmem
        · exact fun h => Or.inl h
      simp only [this]
      exact hnum
    · intro q hq0 hq1
      constructor
      · intro hq
        have hq' : q ∈ pre := by
          rcases List.mem_append.mp hq with h | h
          · exact h
          · rw [List.mem_singleton.mp h]; exact hmem
        rw [List.indexOf_append_of_mem hq']
        exact (harr q hq0 hq1).1 hq'
      · intro hq
        have hq' : q ∉ pre := fun h => hq (List.mem_append.mpr (Or.inl h))
        exact (harr q hq0 hq1).2 hq'
  · have hpk : st.packages p.toNat = -1 := ((harr p hp.1 hp.2).2 hmem).1
    rw [if_pos hpk]
    refine ⟨rfl, ?_, ?_, ?_⟩
    · simp [hj]
    · have : (pre ++ [p]).toFinset = insert p pre.toFinset := by
        ext q
        simp only [List.toFinset_append, List.toFinset_cons, List.toFinset_nil,
          Finset.mem_union, Finset.mem_insert, List.mem_toFinset, Finset.not_mem_empty,
          or_false]
        exact or_comm
      simp only [this]
      rw [Finset.card_insert_of_not_mem (by simpa using hmem), hnum]
      omega
    · intro q hq0 hq1
      by_cases hqp : q = p
      · subst hqp
        refine ⟨fun _ => ?_, fun h => absurd (List.mem_append.mpr (Or.inr (List.mem_singleton.mpr rfl))) h⟩
        simp only [setAt, if_true]
        rw [List.indexOf_append_of_not_mem hmem, List.indexOf_cons_self, hj]
        simp
      · have hnat : ¬ (q.toNat = p.toNat) := by omega
        simp only [setAt, if_neg hnat]
        constructor
        · intro hq
          have hq' : q ∈ pre := by
            rcases List.mem_append.mp hq with h | h
            · exact h
            · exact absurd (List.mem_singleton.mp h) hqp
          rw [List.indexOf_append_of_mem hq']
          exact (harr q hq0 hq1).1 hq'
        · intro hq
          have hq' : q ∉ pre := fun h => hq (List.mem_append.mpr (Or.inl h))
          exact (harr q hq0 hq1).2 hq'

/-- A scan over cores whose package ids are all within the range does not fail
and keeps the invariant. -/
theorem topology_loop_ok (papi : PapiDefs) (nr_cpus : Int) (n0 : Nat) (ids : List Int) :
    ∀ (pre : List Int) (st : TopologyScan), scan_invariant nr_cpus n0 pre st →
      (∀ p ∈ ids, 0 ≤ p ∧ p < nr_cpus) →
      (topology_loop papi nr_cpus (ids.map some) st).2 = none ∧
      scan_invariant nr_cpus n0 (pre ++ ids) (topology_loop papi nr_cpus (ids.map some) st).1 := by
  induction ids with
  | nil =>
    intro pre st hinv _
    simp only [List.map_nil, topology_loop, List.append_nil, true_and]
    exact hinv
  | cons p rest ih =>
    intro pre st hinv hall
    obtain ⟨h1, h2⟩ := topology_step_ok papi nr_cpus n0 pre st p hinv
      (hall p (List.mem_cons_self p rest))
    simp only [List.map_cons, topology_loop, h1]
    have := ih (pre ++ [p]) _ h2 (fun q hq => hall q (List.mem_cons_of_mem p hq))
    simpa using this

/-- A scan over readable topology files fails exactly when some package id is
outside the range, and then with the range failure. -/
theorem topology_loop_failure (papi : PapiDefs) (nr_cpus : Int) (ids : List Int) :
    ∀ st : TopologyScan,
      ((∃ p ∈ ids, ¬ (0 ≤ p ∧ p < nr_cpus)) →
        (topology_loop papi nr_cpus (ids.map some) st).2 = some (range_failure papi)) ∧
      ((∀ p ∈ ids, 0 ≤ p ∧ p < nr_cpus) →
        (topology_loop papi nr_cpus (ids.map some) st).2 = none) := by
  induction ids with
  | nil =>
    intro st
    refine ⟨fun ⟨p, hp, _⟩ => absurd hp (List.not_mem_nil p), fun _ => rfl⟩
  | cons p rest ih =>
    intro st
    by_cases hp : 0 ≤ p ∧ p < nr_cpus
    · have hstep : (topology_step papi nr_cpus (some p) st).2 = none := by
        unfold topology_step
        simp only [if_pos hp]
        split_ifs <;> rfl
      simp only [List.map_cons, topology_loop, hstep]
      constructor
      · rintro ⟨q, hq, hbad⟩
        rcases List.mem_cons.mp hq with h | h
        · rw [h] at hbad; exact absurd hp hbad
        · exact (ih _).1 ⟨q, h, hbad⟩
      · intro hall
        exact (ih _).2 (fun q hq => hall q (List.mem_cons_of_mem p hq))
    · have hstep : (topology_step papi nr_cpus (some p) st).2 = some (range_failure papi) := by
        unfold topology_step
        simp only [if_neg hp]
        rfl
      simp only [List.map_cons, topology_loop, hstep]
      constructor
      · intro _; trivial
      · intro hall
        exact absurd (hall p (List.mem_cons_self p rest)) hp

/-- A scan over two runs of cores is the scan over the second run from the state
after the first, when the first does not fail. -/
theorem topology_loop_append (papi : PapiDefs) (nr_cpus : Int) (l1 l2 : List (Option Int)) :
    ∀ st : TopologyScan, (topology_loop papi nr_cpus l1 st).2 = none →
      topology_loop papi nr_cpus (l1 ++ l2) st =
        topology_loop papi nr_cpus l2 (topology_loop papi nr_cpus l1 st).1 := by
  induction l1 with
  | nil => intro st _; rfl
  | cons a rest ih =>
    intro st h
    rw [List.cons_append, topology_loop]
    rw [topology_loop] at h
    cases hstep : (topology_step papi nr_cpus a st).2 with
    | some failure =>
      rw [hstep] at h
      exact absurd h (by simp)
    | none =>
      rw [hstep] at h
      simp only []
      rw [ih _ h]
      conv_rhs => rw [topology_loop, hstep]

/-- The scan over one core is one iteration. -/
theorem topology_loop_single (papi : PapiDefs) (nr_cpus : Int) (entry : Option Int)
    (st : TopologyScan) :
    topology_loop papi nr_cpus [entry] st = topology_step papi nr_cpus entry st := by
  rw [topology_loop]
  cases hstep : (topology_step papi nr_cpus entry st).2 with
  | some failure =>
    simp only []
    exact Prod.ext rfl hstep.symm
  | none =>
    simp only [topology_loop]
    exact Prod.ext rfl hstep.symm

/-- The position `indexOf` is the first one that holds the element. -/
theorem indexOf_is_first (p : Int) (ids : List Int) :
    (p ∈ ids → ids[ids.indexOf p]? = some p) ∧
    ∀ k, k < ids.indexOf p → ids[k]? ≠ some p := by
  induction ids with
  | nil =>
    refine ⟨fun h => absurd h (List.not_mem_nil p), fun k hk => ?_⟩
    simp
  | cons a rest ih =>
    by_cases hap : a = p
    · subst hap
      refine ⟨fun _ => by simp, fun k hk => ?_⟩
      simp at hk
    · have hidx : (a :: rest).indexOf p = rest.indexOf p + 1 := by
        rw [List.indexOf_cons_ne _ hap]
      rw [hidx]
      constructor
      · intro hmem
        have hrest : p ∈ rest := by
          rcases List.mem_cons.mp hmem with h | h
          · exact absurd h.symm hap
          · exact h
        simpa using ih.1 hrest
      · intro k hk
        cases k with
        | zero => simpa using hap
        | succ k =>
          have := ih.2 k (by omega)
          simpa using this

/-- C14: for every sequence of package ids read for the cores `0 .. N-1`, all
within the accepted range, the topology scan ends without failure with core
count `N` and package count equal to the number of distinct ids; for every id
`p` that occurs, `cpu_to_use[p]` is the first core whose id is `p` (no core
before it has the id `p`); and one more core with an id that occurred changes
neither `cpu_to_use` nor the package count. -/
theorem topology_scan_result (papi : PapiDefs) (kernel_max : ScanResult) (ids : List Int)
    (p : Int) (hrange : ∀ q ∈ ids, 0 ≤ q ∧ q < get_kernel_nr_cpus kernel_max)
    (hp : p ∈ ids) :
    (discover_topology papi kernel_max (ids.map some) 0).2 = none ∧
    (discover_topology papi kernel_max (ids.map some) 0).1.j = ids.length ∧
    (discover_topology papi kernel_max (ids.map some) 0).1.num_packages = ids.toFinset.card ∧
    (discover_topology papi kernel_max (ids.map some) 0).1.cpu_to_use p.toNat =
      (ids.indexOf p : Int) ∧
    ids[ids.indexOf p]? = some p ∧
    (∀ k, k < ids.indexOf p → ids[k]? ≠ some p) ∧
    (discover_topology papi kernel_max ((ids ++ [p]).map some) 0).2 = none ∧
    (discover_topology papi kernel_max ((ids ++ [p]).map some) 0).1.cpu_to_use =
      (discover_topology papi kernel_max (ids.map some) 0).1.cpu_to_use ∧
    (discover_topology papi kernel_max ((ids ++ [p]).map some) 0).1.num_packages =
      (discover_topology papi kernel_max (ids.map some) 0).1.num_packages := by
  have h := topology_loop_ok papi (get_kernel_nr_cpus kernel_max) 0 ids [] _
    (scan_invariant_start (get_kernel_nr_cpus kernel_max) 0) hrange
  rw [List.nil_append] at h
  obtain ⟨hnone, hj, hnum, harr⟩ := h
  have hpr := hrange p hp
  have hseen := (harr p hpr.1 hpr.2).1 hp
  have hfirst := indexOf_is_first p ids
  have happ : discover_topology papi kernel_max ((ids ++ [p]).map some) 0 =
      topology_step papi (get_kernel_nr_cpus kernel_max) (some p)
        (discover_topology papi kernel_max (ids.map some) 0).1 := by
    unfold discover_topology
    rw [List.map_append, topology_loop_append _ _ _ _ _ hnone]
    simp only [List.map_cons, List.map_nil]
    rw [topology_loop_single]
  have hstep : topology_step papi (get_kernel_nr_cpus kernel_max) (some p)
      (discover_topology papi kernel_max (ids.map some) 0).1 =
      ({ (discover_topology papi kernel_max (ids.map some) 0).1 with
          j := (discover_topology papi kernel_max (ids.map some) 0).1.j + 1 }, none) := by
    unfold topology_step
    simp only [if_pos hpr]
    have hne : ¬ ((discover_topology papi kernel_max (ids.map some) 0).1.packages p.toNat = -1) := by
      unfold discover_topology
      rw [hseen.1]; omega
    rw [if_neg hne]
  refine ⟨hnone, hj, ?_, hseen.2, hfirst.1 hp, hfirst.2, ?_, ?_, ?_⟩
  · unfold discover_topology; rw [hnum]; omega
  · rw [happ, hstep]
  · rw [happ, hstep]
  · rw [happ, hstep]

/-- Witness of C14: the package ids 0, 0, 1, 1 with `kernel_max` 7: package 1 is
first seen on core 2. -/
theorem topology_scan_result_witness :
    ((∀ q ∈ [(0 : Int), 0, 1, 1], 0 ≤ q ∧ q < get_kernel_nr_cpus (ScanResult.number 7)) ∧
      (1 : Int) ∈ [(0 : Int), 0, 1, 1]) ∧
    (discover_topology papiRelease (ScanResult.number 7) ([(0 : Int), 0, 1, 1].map some)
      0).1.cpu_to_use (1 : Int).toNat = 2 :=
  ⟨⟨by decide, by decide⟩,
   ((topology_scan_result papiRelease (ScanResult.number 7) [0, 0, 1, 1] 1 (by decide)
      (by decide)).2.2.2.1).trans (by decide)⟩

/-- C15, as stated, fails: with `kernel_max` 1 the count `nr_cpus` is 2, and a
core that reports the package id 2, which is not negative and does not exceed
2, makes the topology scan fail with `PAPI_ESYS` and the reason of the range
check. -/
theorem package_id_equal_to_count_counterexample :
    get_kernel_nr_cpus (ScanResult.number 1) = 2 ∧
    ((0 : Int) ≤ 2 ∧ ¬ ((2 : Int) > get_kernel_nr_cpus (ScanResult.number 1))) ∧
    (discover_topology papiRelease (ScanResult.number 1) [some 2] 0).2 =
      some { retval := PapiStatus.PAPI_ESYS, reason := "Package outside of allowed range" } ∧
    (_amd_energy_init_component papiRelease
      { env_with_topology [some 2] with kernel_max := ScanResult.number 1 } 0
      component_at_load).1 = PapiStatus.PAPI_ESYS := by
  refine ⟨by decide, by decide, by decide, by decide⟩

/-- C15, amended: the topology scan over readable topology files fails with the
range failure (`PAPI_ESYS`, reason "Package outside of allowed range") exactly
when some core reports a package id that is negative or not below `nr_cpus`
(an id equal to `nr_cpus` is rejected as well), and does not fail exactly when
every id `p` satisfies `0 <= p < nr_cpus`; `nr_cpus` is `kernel_max + 1`, or 1
when the file is missing or holds no number; and on such a failure
`_amd_energy_init_component` returns `PAPI_ESYS` and stores it with that
reason. -/
theorem package_range_check (papi : PapiDefs) (env : InitEnv) (cidx : Int)
    (g : ComponentState) (ids : List Int) (v : Int) :
    ((discover_topology papi env.kernel_max (ids.map some) g.num_packages).2 =
        some (range_failure papi) ↔
      ∃ p ∈ ids, p < 0 ∨ get_kernel_nr_cpus env.kernel_max ≤ p) ∧
    ((discover_topology papi env.kernel_max (ids.map some) g.num_packages).2 = none ↔
      ∀ p ∈ ids, 0 ≤ p ∧ p < get_kernel_nr_cpus env.kernel_max) ∧
    get_kernel_nr_cpus (ScanResult.number v) = v + 1 ∧
    get_kernel_nr_cpus ScanResult.no_file = 1 ∧
    get_kernel_nr_cpus ScanResult.no_number = 1 ∧
    range_failure papi =
      { retval := PapiStatus.PAPI_ESYS
        reason := strncpy_z papi.PAPI_MAX_STR_LEN "Package outside of allowed range" } ∧
    (env.vendor = Vendor.PAPI_VENDOR_AMD → env.cpuid_family = 0x17 →
      env.topology = ids.map some →
      (∃ p ∈ ids, p < 0 ∨ get_kernel_nr_cpus env.kernel_max ≤ p) →
      (_amd_energy_init_component papi env cidx g).1 = PapiStatus.PAPI_ESYS ∧
      (_amd_energy_init_component papi env cidx g).2.disabled = PapiStatus.PAPI_ESYS ∧
      (_amd_energy_init_component papi env cidx g).2.disabled_reason =
        strncpy_z papi.PAPI_MAX_STR_LEN "Package outside of allowed range") := by
  have hloop := topology_loop_failure papi (get_kernel_nr_cpus env.kernel_max) ids
    { packages := sentinel_fill (get_kernel_nr_cpus env.kernel_max)
      cpu_to_use := sentinel_fill (get_kernel_nr_cpus env.kernel_max)
      num_packages := g.num_packages
      j := 0 }
  have hbad : (∃ p ∈ ids, p < 0 ∨ get_kernel_nr_cpus env.kernel_max ≤ p) ↔
      ∃ p ∈ ids, ¬ (0 ≤ p ∧ p < get_kernel_nr_cpus env.kernel_max) := by
    constructor
    · rintro ⟨p, hp, h⟩; exact ⟨p, hp, by omega⟩
    · rintro ⟨p, hp, h⟩; exact ⟨p, hp, by omega⟩
  have hcases : (∃ p ∈ ids, ¬ (0 ≤ p ∧ p < get_kernel_nr_cpus env.kernel_max)) ∨
      ∀ p ∈ ids, 0 ≤ p ∧ p < get_kernel_nr_cpus env.kernel_max := by
    by_cases h : ∀ p ∈ ids, 0 ≤ p ∧ p < get_kernel_nr_cpus env.kernel_max
    · exact Or.inr h
    · left
      push_neg at h
      obtain ⟨p, hp, h⟩ := h
      exact ⟨p, hp, fun hh => absurd hh.2 (not_lt.mpr (h hh.1))⟩
  have hfail : (∃ p ∈ ids, p < 0 ∨ get_kernel_nr_cpus env.kernel_max ≤ p) →
      (discover_topology papi env.kernel_max (ids.map some) g.num_packages).2 =
        some (range_failure papi) := fun h => hloop.1 (hbad.mp h)
  refine ⟨⟨?_, hfail⟩, ⟨?_, fun h => hloop.2 h⟩, rfl, rfl, rfl, rfl, ?_⟩
  · intro h
    rcases hcases with hc | hc
    · exact hbad.mpr hc
    · have hn : (discover_topology papi env.kernel_max (ids.map some) g.num_packages).2 = none :=
        hloop.2 hc
      rw [hn] at h
      exact absurd h (by simp)
  · intro h
    rcases hcases with hc | hc
    · have hs : (discover_topology papi env.kernel_max (ids.map some) g.num_packages).2 =
          some (range_failure papi) := hloop.1 hc
      rw [hs] at h
      exact absurd h (by simp)
    · exact hc
  · intro hv hf ht hex
    have hs := hfail hex
    unfold _amd_energy_init_component
    rw [hv]
    simp only []
    have hf' : ¬ (env.cpuid_family ≠ 0x17) := by rw [hf]; simp
    rw [if_neg hf', ht, hs]
    exact ⟨rfl, rfl, rfl⟩

/-! ## Initialization failures -/

/-- A text copied into a buffer of at least two bytes is not empty when the
source is not. -/
theorem strncpy_z_ne_empty (size : Nat) (text : String) (h : 2 ≤ size)
    (ht : text.data ≠ []) : strncpy_z size text ≠ "" := by
  unfold strncpy_z
  intro heq
  have hd : text.data.take (size - 1) = [] := by
    have := congrArg String.data heq
    simpa using this
  obtain ⟨k, hk⟩ : ∃ k, size - 1 = k + 1 := ⟨size - 2, by omega⟩
  rw [hk] at hd
  cases hdat : text.data with
  | nil => exact ht hdat
  | cons c r =>
    rw [hdat] at hd
    simp at hd

/-- C17: `_amd_energy_init_component` on unusable hardware: with a vendor other
than AMD it returns `PAPI_ENOSUPP`, with the vendor AMD and a family other than
`0x17` it returns `PAPI_ENOIMPL`, and when the topology scan ends with zero
packages it returns `PAPI_ESYS`; each time the return value is also stored as
the disabled status, a non-empty disabled reason is written, and `num_events`
stays 0. The reason buffer has at least two bytes. -/
theorem init_rejects_unusable_hardware (papi : PapiDefs) (env : InitEnv) (cidx : Int)
    (g : ComponentState) (hmax : 2 ≤ papi.PAPI_MAX_STR_LEN) (hg : g.num_events = 0) :
    (env.vendor = Vendor.other →
      (_amd_energy_init_component papi env cidx g).1 = PapiStatus.PAPI_ENOSUPP ∧
      (_amd_energy_init_component papi env cidx g).2.disabled = PapiStatus.PAPI_ENOSUPP ∧
      (_amd_energy_init_component papi env cidx g).2.disabled_reason ≠ "" ∧
      (_amd_energy_init_component papi env cidx g).2.num_events = 0) ∧
    (env.vendor = Vendor.PAPI_VENDOR_AMD → env.cpuid_family ≠ 0x17 →
      (_amd_energy_init_component papi env cidx g).1 = PapiStatus.PAPI_ENOIMPL ∧
      (_amd_energy_init_component papi env cidx g).2.disabled = PapiStatus.PAPI_ENOIMPL ∧
      (_amd_energy_init_component papi env cidx g).2.disabled_reason ≠ "" ∧
      (_amd_energy_init_component papi env cidx g).2.num_events = 0) ∧
    (env.vendor = Vendor.PAPI_VENDOR_AMD → env.cpuid_family = 0x17 →
      (discover_topology papi env.kernel_max env.topology g.num_packages).2 = none →
      (discover_topology papi env.kernel_max env.topology g.num_packages).1.num_packages = 0 →
      (_amd_energy_init_component papi env cidx g).1 = PapiStatus.PAPI_ESYS ∧
      (_amd_energy_init_component papi env cidx g).2.disabled = PapiStatus.PAPI_ESYS ∧
      (_amd_energy_init_component papi env cidx g).2.disabled_reason ≠ "" ∧
      (_amd_energy_init_component papi env cidx g).2.num_events = 0) := by
  refine ⟨?_, ?_, ?_⟩
  · intro hv
    unfold _amd_energy_init_component init_exit
    rw [hv]
    exact ⟨rfl, rfl, strncpy_z_ne_empty _ _ hmax (by decide), hg⟩
  · intro hv hf
    unfold _amd_energy_init_component init_exit
    rw [hv]
    simp only [if_pos hf, true_and]
    exact ⟨strncpy_z_ne_empty _ _ hmax (by decide), hg⟩
  · intro hv hf hnone hzero
    unfold _amd_energy_init_component
    rw [hv]
    have hf' : ¬ (env.cpuid_family ≠ 0x17) := by rw [hf]; simp
    simp only [if_neg hf', hnone]
    unfold init_after_topology init_exit
    simp only [hzero, if_true, true_and]
    exact ⟨strncpy_z_ne_empty _ _ hmax (by decide), hg⟩

/-- Witness of C17: an AMD machine of family `0x19`, from the state at load. -/
theorem init_rejects_unusable_hardware_witness :
    (2 ≤ papiRelease.PAPI_MAX_STR_LEN ∧ component_at_load.num_events = 0) ∧
    (_amd_energy_init_component papiRelease
      { env_with_topology [some 0, some 0] with cpuid_family := 0x19 } 0
      component_at_load).1 = PapiStatus.PAPI_ENOIMPL :=
  ⟨⟨by decide, rfl⟩,
   ((init_rejects_unusable_hardware papiRelease
      { env_with_topology [some 0, some 0] with cpuid_family := 0x19 } 0 component_at_load
      (by decide) rfl).2.1 rfl (by decide)).1⟩

/-! ## Representative cores of the packages -/

/-- C18: the claim fails on an accepted topology whose package ids are not
`0 .. P-1`. With 4 cores in the packages 0, 0, 2, 2 the scan finds 2 packages
with representatives `cpu_to_use[0] = 0` and `cpu_to_use[2] = 2`, the
initialization succeeds with 12 events, and the package descriptor 1 of both
halves (positions 1 and 7) has `fd_offset = cpu_to_use[1] = -1`, the sentinel.
With 2 cores in the package 1 the access point of the calibration,
`cpu_to_use[0]`, is the sentinel. -/
theorem package_access_point_sentinel :
    (discover_topology papiRelease (ScanResult.number 7) [some 0, some 0, some 2, some 2]
      0).2 = none ∧
    (discover_topology papiRelease (ScanResult.number 7) [some 0, some 0, some 2, some 2]
      0).1.num_packages = 2 ∧
    (discover_topology papiRelease (ScanResult.number 7) [some 0, some 0, some 2, some 2]
      0).1.cpu_to_use 2 = 2 ∧
    (_amd_energy_init_component papiRelease
      (env_with_topology [some 0, some 0, some 2, some 2]) 0 component_at_load).1 =
      PapiStatus.PAPI_OK ∧
    (_amd_energy_init_component papiRelease
      (env_with_topology [some 0, some 0, some 2, some 2]) 0 component_at_load).2.num_events =
      12 ∧
    ((_amd_energy_init_component papiRelease
      (env_with_topology [some 0, some 0, some 2, some 2]) 0
      component_at_load).2.energy_native_events 1).fd_offset = -1 ∧
    ((_amd_energy_init_component papiRelease
      (env_with_topology [some 0, some 0, some 2, some 2]) 0
      component_at_load).2.energy_native_events 7).fd_offset = -1 ∧
    (discover_topology papiRelease (ScanResult.number 7) [some 1, some 1] 0).2 = none ∧
    (discover_topology papiRelease (ScanResult.number 7) [some 1, some 1] 0).1.num_packages =
      1 ∧
    (discover_topology papiRelease (ScanResult.number 7) [some 1, some 1] 0).1.cpu_to_use 0 =
      -1 := by
  refine ⟨by decide, by decide, by decide, by decide, by decide, by decide, by decide,
    by decide, by decide, by decide⟩

/-! ## Names of the events -/

theorem digit_value_digitChar (k : Nat) (hk : k < 10) : (Nat.digitChar k).toNat - 48 = k := by
  interval_cases k <;> rfl

/-- Reading back the digits that `Nat.toDigitsCore` puts in front of `ds`. -/
theorem foldl_toDigitsCore (fuel : Nat) :
    ∀ (n : Nat) (ds : List Char), n < fuel →
      List.foldl digit_value 0 (Nat.toDigitsCore 10 fuel n ds) = List.foldl digit_value n ds := by
  induction fuel with
  | zero => intro n ds h; omega
  | succ fuel ih =>
    intro n ds h
    rw [Nat.toDigitsCore]
    have hd : digit_value (n / 10) (Nat.digitChar (n % 10)) = n := by
      unfold digit_value
      rw [digit_value_digitChar _ (Nat.mod_lt _ (by norm_num))]
      omega
    by_cases h0 : n / 10 = 0
    · simp only [h0, if_true, List.foldl_cons]
      rw [h0] at hd
      rw [hd]
    · simp only [h0, if_false]
      rw [ih (n / 10) _ (by omega)]
      simp only [List.foldl_cons]
      rw [hd]

/-- Two numbers that `%d` prints alike are equal. -/
theorem toString_nat_injective (a b : Nat) (h : toString a = toString b) : a = b := by
  have h1 : (Nat.toDigits 10 a) = (Nat.toDigits 10 b) := by
    have := congrArg String.data h
    simpa [toString, Nat.repr] using this
  have ha := foldl_toDigitsCore (a + 1) a [] (by omega)
  have hb := foldl_toDigitsCore (b + 1) b [] (by omega)
  unfold Nat.toDigits at h1
  rw [h1] at ha
  rw [ha] at hb
  simpa using hb

/-- A name that fits the buffer is not truncated. -/
theorem snprintf_d_fits (size : Nat) (text : String) (j : Nat)
    (h : text.length + (toString j).length < size) :
    snprintf_d size text j = text ++ toString j := by
  unfold snprintf_d
  have hlen : (text ++ toString j).data.length ≤ size - 1 := by
    have : (text ++ toString j).data.length = text.length + (toString j).length := by
      rw [String.data_append, List.length_append]
      rfl
    omega
  rw [List.take_of_length_le hlen]

theorem kind_text_length (k : Fin 4) : 15 ≤ (kind_text k).length ∧ (kind_text k).length ≤ 26 := by
  revert k; decide

theorem kind_text_head (k1 k2 : Fin 4) (h : k1 ≠ k2) :
    (kind_text k1).data.take 15 ≠ (kind_text k2).data.take 15 := by
  revert k1 k2; decide

/-- Names of different kinds or of different indices differ. -/
theorem kind_name_injective (k1 k2 : Fin 4) (a b : Nat)
    (h : kind_text k1 ++ toString a = kind_text k2 ++ toString b) : k1 = k2 ∧ a = b := by
  have hd : (kind_text k1).data ++ (toString a).data = (kind_text k2).data ++ (toString b).data := by
    have := congrArg String.data h
    simpa using this
  have hk : k1 = k2 := by
    by_contra hne
    apply kind_text_head k1 k2 hne
    have h1 : ((kind_text k1).data ++ (toString a).data).take 15 = (kind_text k1).data.take 15 :=
      List.take_append_of_le_length (kind_text_length k1).1
    have h2 : ((kind_text k2).data ++ (toString b).data).take 15 = (kind_text k2).data.take 15 :=
      List.take_append_of_le_length (kind_text_length k2).1
    rw [← h1, ← h2, hd]
  subst hk
  refine ⟨rfl, toString_nat_injective a b ?_⟩
  have := List.append_cancel_left hd
  exact String.ext this

/-- The name at a position of the catalog: its kind and its index. -/
theorem create_events_name (papi : PapiDefs) (P C : Nat) (cpu_to_use : Nat → Int) (pos : Nat)
    (hpos : pos < (create_events papi P C cpu_to_use).num_events) :
    ((create_events papi P C cpu_to_use).energy_native_events pos).name =
      snprintf_d papi.PAPI_MAX_STR_LEN (kind_text (name_kind P C pos)) (name_index P C pos) := by
  rw [create_events_num] at hpos
  rw [create_events_entry]
  unfold name_kind name_index
  split_ifs
  · rfl
  · rfl
  · rfl
  · rfl
  · exfalso; omega

theorem name_index_lt (P C pos : Nat) (hpos : pos < (P + C) * 2) :
    name_index P C pos < max P C := by
  unfold name_index
  have := le_max_left P C
  have := le_max_right P C
  split_ifs <;> omega

/-- Different positions have different kinds or different indices. -/
theorem name_kind_index_injective (P C i j : Nat)
    (hk : name_kind P C i = name_kind P C j) (hn : name_index P C i = name_index P C j) :
    i = j := by
  unfold name_kind at hk
  unfold name_index at hn
  split_ifs at hk hn <;> omega

/-- C20: when no name is truncated at `PAPI_MAX_STR_LEN` (the longest text has 26
characters), the names of the built catalog are pairwise distinct, and each
name is one of `PACKAGE_ENERGY_CNT:PACKAGE<n>`, `PP0_ENERGY_CNT:CORE<n>`,
`PACKAGE_ENERGY:PACKAGE<n>`, `PP0_ENERGY:CORE<n>` with `<n>` the decimal
package or core index. -/
theorem catalog_names_distinct (papi : PapiDefs) (P C : Nat) (cpu_to_use : Nat → Int)
    (i j : Nat)
    (hfit : ∀ n, n < max P C → 26 + (toString n).length < papi.PAPI_MAX_STR_LEN)
    (hi : i < (create_events papi P C cpu_to_use).num_events)
    (hj : j < (create_events papi P C cpu_to_use).num_events) (hij : i ≠ j) :
    ((create_events papi P C cpu_to_use).energy_native_events i).name ≠
      ((create_events papi P C cpu_to_use).energy_native_events j).name ∧
    (∃ n, n < max P C ∧
      (((create_events papi P C cpu_to_use).energy_native_events i).name =
          "PACKAGE_ENERGY_CNT:PACKAGE" ++ toString n ∨
        ((create_events papi P C cpu_to_use).energy_native_events i).name =
          "PP0_ENERGY_CNT:CORE" ++ toString n ∨
        ((create_events papi P C cpu_to_use).energy_native_events i).name =
          "PACKAGE_ENERGY:PACKAGE" ++ toString n ∨
        ((create_events papi P C cpu_to_use).energy_native_events i).name =
          "PP0_ENERGY:CORE" ++ toString n)) := by
  have hi' : i < (P + C) * 2 := by rw [create_events_num] at hi; exact hi
  have hj' : j < (P + C) * 2 := by rw [create_events_num] at hj; exact hj
  have hname : ∀ pos, pos < (P + C) * 2 →
      ((create_events papi P C cpu_to_use).energy_native_events pos).name =
        kind_text (name_kind P C pos) ++ toString (name_index P C pos) := by
    intro pos hpos
    rw [create_events_name papi P C cpu_to_use pos (by rw [create_events_num]; exact hpos)]
    apply snprintf_d_fits
    have h1 := hfit _ (name_index_lt P C pos hpos)
    have h2 := (kind_text_length (name_kind P C pos)).2
    omega
  constructor
  · rw [hname i hi', hname j hj']
    intro heq
    obtain ⟨hk, hn⟩ := kind_name_injective _ _ _ _ heq
    exact hij (name_kind_index_injective P C i j hk hn)
  · refine ⟨name_index P C i, name_index_lt P C i hi', ?_⟩
    rw [hname i hi']
    have hcases : ∀ k : Fin 4, k = 0 ∨ k = 1 ∨ k = 2 ∨ k = 3 := by decide
    rcases hcases (name_kind P C i) with h | h | h | h
    · left; rw [h]; rfl
    · right; left; rw [h]; rfl
    · right; right; left; rw [h]; rfl
    · right; right; right; rw [h]; rfl

/-- Witness of C20: 2 packages and 4 cores, positions 1 and 7. -/
theorem catalog_names_distinct_witness :
    ((∀ n, n < max 2 4 → 26 + (toString n).length < papiRelease.PAPI_MAX_STR_LEN) ∧
      1 < (create_events papiRelease 2 4 cpu_to_use_two).num_events ∧
      7 < (create_events papiRelease 2 4 cpu_to_use_two).num_events ∧ (1 : Nat) ≠ 7) ∧
    ((create_events papiRelease 2 4 cpu_to_use_two).energy_native_events 1).name ≠
      ((create_events papiRelease 2 4 cpu_to_use_two).energy_native_events 7).name :=
  ⟨⟨by decide, by decide, by decide, by decide⟩,
   (catalog_names_distinct papiRelease 2 4 cpu_to_use_two 1 7 (by decide) (by decide)
      (by decide) (by decide)).1⟩

/-! ## Lookup of the native events -/

/-- The lookups of the description and of the info record accept exactly the
codes below the catalog length, and deliver the fields of the descriptor at
the code. -/
theorem descr_info_lookup (sizes : InfoSizes) (events : Nat → _energy_native_event_entry_t)
    (n c len : Nat) (hn : n < 2147483648) (hc : c < 4294967296) :
    (c < n →
      _amd_energy_ntv_code_to_descr events (n : Int) c len =
        (PapiStatus.PAPI_OK, some (strncpy_n len (events c).description)) ∧
      _amd_energy_ntv_code_to_info sizes events (n : Int) c =
        (PapiStatus.PAPI_OK,
         some
          { symbol := strncpy_z sizes.symbol (events c).name
            long_descr := strncpy_z sizes.long_descr (events c).description
            units := strncpy_z sizes.units (events c).units
            data_type := (events c).return_type })) ∧
    (n ≤ c →
      _amd_energy_ntv_code_to_descr events (n : Int) c len = (PapiStatus.PAPI_ENOEVNT, none) ∧
      _amd_energy_ntv_code_to_info sizes events (n : Int) c = (PapiStatus.PAPI_ENOEVNT, none)) := by
  constructor
  · intro hlt
    have hidx : toInt32 c = (c : Int) := toInt32_small c (by omega)
    unfold _amd_energy_ntv_code_to_descr _amd_energy_ntv_code_to_info
    simp only [hidx, Int.toNat_ofNat]
    have h1 : (0 : Int) ≤ (c : Int) ∧ (c : Int) < (n : Int) := by omega
    have h2 : ¬ ((c : Int) < 0 ∨ (c : Int) ≥ (n : Int)) := by omega
    rw [if_pos h1, if_neg h2]
    exact ⟨rfl, rfl⟩
  · intro hge
    unfold _amd_energy_ntv_code_to_descr _amd_energy_ntv_code_to_info
    have hcases : toInt32 c < 0 ∨ toInt32 c ≥ (n : Int) := by
      unfold toInt32
      have hm : c % 4294967296 = c := Nat.mod_eq_of_lt hc
      rw [hm]
      split_ifs <;> omega
    have h1 : ¬ ((0 : Int) ≤ toInt32 c ∧ toInt32 c < (n : Int)) := by omega
    simp only [if_neg h1, if_pos hcases, and_self]

/-- The lookup of the name accepts exactly the codes whose masked value, as an
`int`, is a catalog position, and delivers the name at the masked value. -/
theorem name_lookup (papi : PapiDefs) (events : Nat → _energy_native_event_entry_t)
    (n : Int) (c len : Nat) :
    (0 ≤ native_index papi { ni_event := (c : Int), ni_position := 0 } ∧
        native_index papi { ni_event := (c : Int), ni_position := 0 } < n →
      c < 4294967296 →
      _amd_energy_ntv_code_to_name papi events n c len =
        (PapiStatus.PAPI_OK,
         some (strncpy_n len
          (events (native_index papi { ni_event := (c : Int), ni_position := 0 }).toNat).name))) ∧
    ((_amd_energy_ntv_code_to_name papi events n c len).1 = PapiStatus.PAPI_OK ∨
      _amd_energy_ntv_code_to_name papi events n c len = (PapiStatus.PAPI_ENOEVNT, none)) := by
  constructor
  · intro h hc
    have hu : toUInt32 (c : Int) = c := by
      unfold toUInt32
      omega
    unfold native_index at h
    simp only [hu] at h
    unfold _amd_energy_ntv_code_to_name native_index
    simp only [hu, if_pos h]
  · unfold _amd_energy_ntv_code_to_name
    simp only []
    split_ifs
    · exact Or.inl rfl
    · exact Or.inr rfl

/-- C16: the three lookups do not agree on the valid codes. In the catalog of
2 packages and 4 cores (12 events), with the mask of the PAPI releases, the
code `0x40000000` is not below 12; `_amd_energy_ntv_code_to_descr` and
`_amd_energy_ntv_code_to_info` return `PAPI_ENOEVNT` for it, and
`_amd_energy_ntv_code_to_name`, which masks the code first, returns `PAPI_OK`
with the name of the descriptor at position 0. For the code 5 the three
lookups return `PAPI_OK`. -/
theorem name_lookup_masks_code :
    ¬ ((0x40000000 : Nat) < (create_events papiRelease 2 4 cpu_to_use_two).num_events) ∧
    _amd_energy_ntv_code_to_name papiRelease
      (create_events papiRelease 2 4 cpu_to_use_two).energy_native_events 12 0x40000000 128 =
      (PapiStatus.PAPI_OK, some "PACKAGE_ENERGY_CNT:PACKAGE0") ∧
    _amd_energy_ntv_code_to_descr
      (create_events papiRelease 2 4 cpu_to_use_two).energy_native_events 12 0x40000000 128 =
      (PapiStatus.PAPI_ENOEVNT, none) ∧
    _amd_energy_ntv_code_to_info infoSizesRelease
      (create_events papiRelease 2 4 cpu_to_use_two).energy_native_events 12 0x40000000 =
      (PapiStatus.PAPI_ENOEVNT, none) ∧
    (_amd_energy_ntv_code_to_name papiRelease
      (create_events papiRelease 2 4 cpu_to_use_two).energy_native_events 12 5 128).1 =
      PapiStatus.PAPI_OK ∧
    _amd_energy_ntv_code_to_descr
      (create_events papiRelease 2 4 cpu_to_use_two).energy_native_events 12 5 128 =
      (PapiStatus.PAPI_OK, some "Energy used in counts by all cores in package 3") ∧
    (_amd_energy_ntv_code_to_info infoSizesRelease
      (create_events papiRelease 2 4 cpu_to_use_two).energy_native_events 12 5).1 =
      PapiStatus.PAPI_OK := by
  refine ⟨by decide, by decide, by decide, by decide, by decide, by decide, by decide⟩

/-! ## The wraparound delta as a difference modulo 2^32 -/

/-- The wraparound law on a 32-bit baseline and a 32-bit reading is the
difference modulo `2^32`. -/
theorem wrap_delta_mod (b r : Int) (hb0 : 0 ≤ b) (hb1 : b < 4294967296) (hr0 : 0 ≤ r)
    (hr1 : r < 4294967296) :
    wrap_delta b r = (r - b) % 4294967296 := by
  unfold wrap_delta
  split <;> omega

/-- The wraparound law recovers the growth of a counter that grew by less than
`2^32`. -/
theorem wrap_delta_counter (t_prev t : Int) (h0 : t_prev ≤ t) (h1 : t - t_prev < 4294967296) :
    wrap_delta (t_prev % 4294967296) (t % 4294967296) = t - t_prev := by
  unfold wrap_delta
  split <;> omega

/-- C22: for every baseline `b` in `[0, 2^32)` and every raw reading `x`, the
delta that the two-branch code of `_amd_energy_stop` adds to the total of an
active differenced slot is `((x mod 2^32) - b) mod 2^32`, and lies in
`[0, 2^32)`. -/
theorem stop_delta_is_difference_mod (events : Nat → _energy_native_event_entry_t) (D : Int)
    (msrs : MsrFile) (now : Int) (context : _energy_context_t)
    (control : _energy_control_state_t) (i : Nat)
    (hi : i < AMD_ENERGY_MAX_COUNTERS) (hb : control.being_measured i ≠ 0)
    (hn : control.need_difference i ≠ 0) (hb0 : 0 ≤ context.start_value i)
    (hb1 : context.start_value i < 2 ^ 32) :
    (_amd_energy_stop events D msrs now context control).2.1.accumulated_value i -
        context.accumulated_value i =
      (read_energy_value events msrs i % 2 ^ 32 - context.start_value i) % 2 ^ 32 ∧
    0 ≤ (_amd_energy_stop events D msrs now context control).2.1.accumulated_value i -
        context.accumulated_value i ∧
    (_amd_energy_stop events D msrs now context control).2.1.accumulated_value i -
        context.accumulated_value i < 2 ^ 32 := by
  have h := (stop_slot events D msrs now context control i hi ⟨hb, hn⟩).2.1
  have hm := wrap_delta_mod (context.start_value i) (mask32 (read_energy_value events msrs i))
    hb0 (by omega) (mask32_nonneg _) (mask32_lt _)
  rw [h, hm]
  unfold mask32
  refine ⟨by norm_num, ?_, ?_⟩ <;> omega

/-- Witness of C22: baseline `0xFFFFFFF0`, raw reading `0x300000010`: the delta
is `0x20`. -/
theorem stop_delta_is_difference_mod_witness :
    (0 < AMD_ENERGY_MAX_COUNTERS ∧ control_slot0.being_measured 0 ≠ 0 ∧
      control_slot0.need_difference 0 ≠ 0 ∧
      0 ≤ (context_const 0xFFFFFFF0 7).start_value 0 ∧
      (context_const 0xFFFFFFF0 7).start_value 0 < 2 ^ 32) ∧
    (_amd_energy_stop (fun _ => zero_entry) 65536 (msrs_const 0x300000010) 0
        (context_const 0xFFFFFFF0 7) control_slot0).2.1.accumulated_value 0 -
      (context_const 0xFFFFFFF0 7).accumulated_value 0 = 0x20 :=
  ⟨⟨by decide, by decide, by decide, by decide, by decide⟩,
   ((stop_delta_is_difference_mod (fun _ => zero_entry) 65536 (msrs_const 0x300000010) 0
      (context_const 0xFFFFFFF0 7) control_slot0 0 (by decide) (by decide) (by decide)
      (by decide) (by decide)).1).trans (by decide)⟩

/-! ## Measurement across wraps -/

/-- A sequence of calls whose readings follow a true counter adds the growth
of the counter to the total. -/
theorem run_calls_tracks (events : Nat → _energy_native_event_entry_t) (D : Int) (i : Nat)
    (hi : i < AMD_ENERGY_MAX_COUNTERS) (steps : List (Call × Int)) :
    ∀ (t_prev : Int) (s : _energy_context_t × _energy_control_state_t), differenced s.2 i →
      s.1.start_value i = t_prev % 4294967296 →
      tracks_counter events i t_prev steps →
      (run_calls events D (steps.map Prod.fst) s).1.accumulated_value i =
        s.1.accumulated_value i + (last_counter t_prev steps - t_prev) := by
  induction steps with
  | nil =>
    intro t_prev s _ _ _
    simp [run_calls, last_counter]
  | cons step rest ih =>
    intro t_prev s hd hs htr
    obtain ⟨h0, h1, hr, hrest⟩ := htr
    obtain ⟨c1, c2, c3⟩ := run_call_slot events D step.1 s i hi hd
    rw [List.map_cons, run_calls, last_counter]
    rw [ih step.2 _ c3 (by rw [c1, hr]) hrest, c2, hs, hr, wrap_delta_counter t_prev step.2 h0 h1]
    ring

/-- C21: let the readings of an active differenced slot follow a true counter
`t0 <= t1 <= ... <= tn` whose consecutive increases are below `2^32`: the
register holds a value with the low 32 bits of `t0` at start and of `t_k` at
the `k`-th stop/read call. Then after the calls the accumulated value is
`tn - t0`, however often the 32-bit counter wrapped. -/
theorem accumulated_tracks_counter (events : Nat → _energy_native_event_entry_t) (D : Int)
    (msrs0 : MsrFile) (now0 : Int) (context : _energy_context_t)
    (control : _energy_control_state_t) (i : Nat) (t0 : Int) (steps : List (Call × Int))
    (hi : i < AMD_ENERGY_MAX_COUNTERS) (hb : control.being_measured i ≠ 0)
    (hn : control.need_difference i ≠ 0)
    (h0 : mask32 (read_energy_value events msrs0 i) = t0 % 4294967296)
    (htr : tracks_counter events i t0 steps) :
    (run_calls events D (steps.map Prod.fst)
        ((_amd_energy_start events msrs0 now0 context control).2.1,
         (_amd_energy_start events msrs0 now0 context control).2.2)).1.accumulated_value i =
      last_counter t0 steps - t0 := by
  have hd : differenced control i := ⟨hb, hn⟩
  have hd0 := (start_differenced events msrs0 now0 context control i).mpr hd
  obtain ⟨s1, s2⟩ := start_slot events msrs0 now0 context control i hi hd
  rw [run_calls_tracks events D i hi steps t0 _ hd0 (by simp only [s1, h0]) htr]
  simp only [s2, zero_add]

/-- Witness of C21: the counter goes from `0xFFFFFFF0` to `0x100000010` and to
`0x1FFFFFFF0`, the register wraps once between start and stop and shows the
start value again at the read; the total is `0x100000000`. -/
theorem accumulated_tracks_counter_witness :
    (0 < AMD_ENERGY_MAX_COUNTERS ∧ control_slot0.being_measured 0 ≠ 0 ∧
      control_slot0.need_difference 0 ≠ 0 ∧
      mask32 (read_energy_value (fun _ => zero_entry) (msrs_const 0xFFFFFFF0) 0) =
        0xFFFFFFF0 % 4294967296 ∧
      tracks_counter (fun _ => zero_entry) 0 0xFFFFFFF0 steps_two_wraps) ∧
    (run_calls (fun _ => zero_entry) 65536 (steps_two_wraps.map Prod.fst)
        ((_amd_energy_start (fun _ => zero_entry) (msrs_const 0xFFFFFFF0) 0 (context_const 3 9)
            control_slot0).2.1,
         (_amd_energy_start (fun _ => zero_entry) (msrs_const 0xFFFFFFF0) 0 (context_const 3 9)
            control_slot0).2.2)).1.accumulated_value 0 = 0x100000000 :=
  ⟨⟨by decide, by decide, by decide, by decide,
    by simp only [steps_two_wraps, tracks_counter]; decide⟩,
   ((accumulated_tracks_counter (fun _ => zero_entry) 65536 (msrs_const 0xFFFFFFF0) 0
      (context_const 3 9) control_slot0 0 0xFFFFFFF0 steps_two_wraps (by decide) (by decide)
      (by decide) (by decide)
      (by simp only [steps_two_wraps, tracks_counter]; decide)).trans
    (by simp only [steps_two_wraps, last_counter]; decide))⟩

/-! ## The invariant of the counter state machine -/

/-- One start, stop or read call keeps an active differenced slot differenced
and keeps, or establishes, its invariant. -/
theorem run_operation_slot (events : Nat → _energy_native_event_entry_t) (D : Int)
    (op : Operation) (s : _energy_context_t × _energy_control_state_t) (i : Nat)
    (hi : i < AMD_ENERGY_MAX_COUNTERS) (hd : differenced s.2 i) :
    differenced (run_operation events D op s).2 i ∧
    (op.kind = OperationKind.start → slot_invariant (run_operation events D op s) i) ∧
    (slot_invariant s i → slot_invariant (run_operation events D op s) i) := by
  have hstart : op.kind = OperationKind.start →
      differenced (run_operation events D op s).2 i ∧
        slot_invariant (run_operation events D op s) i := by
    intro hk
    obtain ⟨a1, a2⟩ := start_slot events op.msrs op.now s.1 s.2 i hi hd
    have a3 := (start_differenced events op.msrs op.now s.1 s.2 i).mpr hd
    unfold run_operation slot_invariant
    rw [hk]
    simp only [a1, a2]
    exact ⟨a3, mask32_nonneg _, mask32_lt _, le_refl 0⟩
  have hstop : slot_invariant s i →
      differenced ((_amd_energy_stop events D op.msrs op.now s.1 s.2).2.1,
        (_amd_energy_stop events D op.msrs op.now s.1 s.2).2.2).2 i ∧
      slot_invariant ((_amd_energy_stop events D op.msrs op.now s.1 s.2).2.1,
        (_amd_energy_stop events D op.msrs op.now s.1 s.2).2.2) i := by
    intro hinv
    obtain ⟨_, hlt, hacc⟩ := hinv
    obtain ⟨b1, b2, _⟩ := stop_slot events D op.msrs op.now s.1 s.2 i hi hd
    have b3 := (stop_differenced events D op.msrs op.now s.1 s.2 i).mpr hd
    have hw := wrap_delta_nonneg (s.1.start_value i)
      (mask32 (read_energy_value events op.msrs i)) hlt (mask32_nonneg _)
    unfold slot_invariant
    simp only [b1, b2]
    exact ⟨b3, mask32_nonneg _, mask32_lt _, by omega⟩
  have hdiff : differenced (run_operation events D op s).2 i := by
    unfold run_operation
    cases op.kind with
    | start => exact (start_differenced events op.msrs op.now s.1 s.2 i).mpr hd
    | stop => exact (stop_differenced events D op.msrs op.now s.1 s.2 i).mpr hd
    | read =>
      simp only [read_control]
      exact (stop_differenced events D op.msrs op.now s.1 s.2 i).mpr hd
  refine ⟨hdiff, fun hk => (hstart hk).2, ?_⟩
  intro hinv
  cases hk : op.kind with
  | start => exact (hstart hk).2
  | stop =>
    unfold run_operation
    rw [hk]
    exact (hstop hinv).2
  | read =>
    unfold run_operation
    rw [hk]
    simp only [read_context, read_control]
    exact (hstop hinv).2

/-- A sequence of calls keeps an active differenced slot differenced and keeps
its invariant. -/
theorem run_operations_slot (events : Nat → _energy_native_event_entry_t) (D : Int) (i : Nat)
    (hi : i < AMD_ENERGY_MAX_COUNTERS) (ops : List Operation) :
    ∀ s : _energy_context_t × _energy_control_state_t, differenced s.2 i →
      slot_invariant s i →
      differenced (run_operations events D ops s).2 i ∧
        slot_invariant (run_operations events D ops s) i := by
  induction ops with
  | nil => intro s hd hinv; exact ⟨hd, hinv⟩
  | cons op ops ih =>
    intro s hd hinv
    obtain ⟨h1, _, h3⟩ := run_operation_slot events D op s i hi hd
    rw [run_operations]
    exact ih _ h1 (h3 hinv)

/-- C23: once `_amd_energy_start` has run, an active differenced slot has
`start_value` in `[0, 2^32)` and `accumulated_value >= 0`, and this holds after
every further sequence of stop, read and start calls, for arbitrary register
contents; each single call preserves it from any state in which it holds. -/
theorem slot_invariant_preserved (events : Nat → _energy_native_event_entry_t) (D : Int)
    (msrs0 : MsrFile) (now0 : Int) (context : _energy_context_t)
    (control : _energy_control_state_t) (i : Nat) (ops : List Operation) (op : Operation)
    (hi : i < AMD_ENERGY_MAX_COUNTERS) (hb : control.being_measured i ≠ 0)
    (hn : control.need_difference i ≠ 0) :
    (0 ≤ (_amd_energy_start events msrs0 now0 context control).2.1.start_value i ∧
      (_amd_energy_start events msrs0 now0 context control).2.1.start_value i < 2 ^ 32 ∧
      0 ≤ (_amd_energy_start events msrs0 now0 context control).2.1.accumulated_value i) ∧
    (0 ≤ (run_operations events D ops
        ((_amd_energy_start events msrs0 now0 context control).2.1,
         (_amd_energy_start events msrs0 now0 context control).2.2)).1.start_value i ∧
      (run_operations events D ops
        ((_amd_energy_start events msrs0 now0 context control).2.1,
         (_amd_energy_start events msrs0 now0 context control).2.2)).1.start_value i < 2 ^ 32 ∧
      0 ≤ (run_operations events D ops
        ((_amd_energy_start events msrs0 now0 context control).2.1,
         (_amd_energy_start events msrs0 now0 context control).2.2)).1.accumulated_value i) ∧
    (∀ s : _energy_context_t × _energy_control_state_t,
      s.2.being_measured i ≠ 0 → s.2.need_difference i ≠ 0 →
      0 ≤ s.1.start_value i → s.1.start_value i < 2 ^ 32 → 0 ≤ s.1.accumulated_value i →
      (run_operation events D op s).2.being_measured i ≠ 0 ∧
      (run_operation events D op s).2.need_difference i ≠ 0 ∧
      0 ≤ (run_operation events D op s).1.start_value i ∧
      (run_operation events D op s).1.start_value i < 2 ^ 32 ∧
      0 ≤ (run_operation events D op s).1.accumulated_value i) := by
  have hd : differenced control i := ⟨hb, hn⟩
  have hd0 := (start_differenced events msrs0 now0 context control i).mpr hd
  obtain ⟨s1, s2⟩ := start_slot events msrs0 now0 context control i hi hd
  have hinv0 : slot_invariant
      ((_amd_energy_start events msrs0 now0 context control).2.1,
       (_amd_energy_start events msrs0 now0 context control).2.2) i := by
    unfold slot_invariant
    simp only [s1, s2]
    exact ⟨mask32_nonneg _, mask32_lt _, le_refl 0⟩
  have hseq := (run_operations_slot events D i hi ops _ hd0 hinv0).2
  refine ⟨?_, ?_, ?_⟩
  · obtain ⟨a, b, c⟩ := hinv0
    exact ⟨a, by norm_num; exact b, c⟩
  · obtain ⟨a, b, c⟩ := hseq
    exact ⟨a, by norm_num; exact b, c⟩
  · intro s hsb hsn h0 h1 h2
    obtain ⟨d1, _, d3⟩ := run_operation_slot events D op s i hi ⟨hsb, hsn⟩
    obtain ⟨a, b, c⟩ := d3 ⟨h0, by norm_num at h1; exact h1, h2⟩
    exact ⟨d1.1, d1.2, a, by norm_num; exact b, c⟩

/-- Witness of C23: slot 0, a start, then a stop on a register holding
`0xFFFFFFFFFFFFFFF0` and a second start. -/
theorem slot_invariant_preserved_witness :
    (0 < AMD_ENERGY_MAX_COUNTERS ∧ control_slot0.being_measured 0 ≠ 0 ∧
      control_slot0.need_difference 0 ≠ 0) ∧
    (0 ≤ (run_operations (fun _ => zero_entry) 65536
        [{ kind := OperationKind.stop, msrs := msrs_const 0xFFFFFFFFFFFFFFF0, now := 1 },
         { kind := OperationKind.start, msrs := msrs_const 5, now := 2 }]
        ((_amd_energy_start (fun _ => zero_entry) (msrs_const 7) 0 (context_const (-3) (-9))
            control_slot0).2.1,
         (_amd_energy_start (fun _ => zero_entry) (msrs_const 7) 0 (context_const (-3) (-9))
            control_slot0).2.2)).1.start_value 0 ∧
      (run_operations (fun _ => zero_entry) 65536
        [{ kind := OperationKind.stop, msrs := msrs_const 0xFFFFFFFFFFFFFFF0, now := 1 },
         { kind := OperationKind.start, msrs := msrs_const 5, now := 2 }]
        ((_amd_energy_start (fun _ => zero_entry) (msrs_const 7) 0 (context_const (-3) (-9))
            control_slot0).2.1,
         (_amd_energy_start (fun _ => zero_entry) (msrs_const 7) 0 (context_const (-3) (-9))
            control_slot0).2.2)).1.start_value 0 < 2 ^ 32 ∧
      0 ≤ (run_operations (fun _ => zero_entry) 65536
        [{ kind := OperationKind.stop, msrs := msrs_const 0xFFFFFFFFFFFFFFF0, now := 1 },
         { kind := OperationKind.start, msrs := msrs_const 5, now := 2 }]
        ((_amd_energy_start (fun _ => zero_entry) (msrs_const 7) 0 (context_const (-3) (-9))
            control_slot0).2.1,
         (_amd_energy_start (fun _ => zero_entry) (msrs_const 7) 0 (context_const (-3) (-9))
            control_slot0).2.2)).1.accumulated_value 0) :=
  ⟨⟨by decide, by decide, by decide⟩,
   (slot_invariant_preserved (fun _ => zero_entry) 65536 (msrs_const 7) 0
      (context_const (-3) (-9)) control_slot0 0
      [{ kind := OperationKind.stop, msrs := msrs_const 0xFFFFFFFFFFFFFFF0, now := 1 },
       { kind := OperationKind.start, msrs := msrs_const 5, now := 2 }]
      { kind := OperationKind.read, msrs := msrs_const 9, now := 3 }
      (by decide) (by decide) (by decide)).2.1⟩

/-! ## The active set -/

/-- On a catalog of `N` events that fits the arrays (at most
`AMD_ENERGY_MAX_COUNTERS` events), `_amd_energy_update_control_state` replaces
the active set: whatever the control state was, afterwards a slot `j` of the
arrays has `being_measured = 1` when some entry of `native` has the code `j`
and `being_measured = 0` otherwise; the `count` array and `lastupdate` are the
ones before the call (the function does not use its context argument, so the
context is no part of its result). `_amd_energy_init_control_state` clears
`being_measured` of every slot and keeps `count`. -/
theorem update_active_set_in_arrays (papi : PapiDefs)
    (events : Nat → _energy_native_event_entry_t) (control : _energy_control_state_t)
    (native : List NativeInfo_t) (N j : Nat) (hfit : N ≤ AMD_ENERGY_MAX_COUNTERS)
    (hmask : ∀ c, c < N → Nat.land c papi.PAPI_NATIVE_AND_MASK = c)
    (hj : j < AMD_ENERGY_MAX_COUNTERS)
    (hnative : ∀ n ∈ native, 0 ≤ n.ni_event ∧ n.ni_event < (N : Int)) :
    (_amd_energy_update_control_state papi events control native).2.2.being_measured j =
      (if ∃ n ∈ native, n.ni_event = (j : Int) then 1 else 0) ∧
    (_amd_energy_update_control_state papi events control native).2.2.count = control.count ∧
    (_amd_energy_update_control_state papi events control native).2.2.lastupdate =
      control.lastupdate ∧
    (_amd_energy_update_control_state papi events control native).1 = PapiStatus.PAPI_OK ∧
    (_amd_energy_init_control_state control).2.being_measured j = 0 ∧
    (_amd_energy_init_control_state control).2.count = control.count ∧
    (_amd_energy_init_control_state control).1 = PapiStatus.PAPI_OK := by
  have hfit' : N ≤ 260 := hfit
  have hidx : ∀ n ∈ native, native_index papi n = n.ni_event := fun n hn =>
    native_index_code papi n N (by omega) hmask (hnative n hn).1 (hnative n hn).2
  have hiff : (∃ n ∈ native, native_index papi n = (j : Int)) ↔
      ∃ n ∈ native, n.ni_event = (j : Int) := by
    constructor
    · rintro ⟨n, hn, h⟩
      exact ⟨n, hn, by rw [← hidx n hn]; exact h⟩
    · rintro ⟨n, hn, h⟩
      exact ⟨n, hn, by rw [hidx n hn]; exact h⟩
  rw [update_control]
  refine ⟨?_, rfl, rfl, rfl, ?_, ?_, rfl⟩
  · simp only [hj, if_true, true_and]
    by_cases h : ∃ n ∈ native, native_index papi n = (j : Int)
    · rw [if_pos h, if_pos (hiff.mp h)]
    · rw [if_neg h, if_neg (fun h2 => h (hiff.mpr h2))]
  · unfold _amd_energy_init_control_state
    simp only [clear_loop_closed, hj, if_true]
  · unfold _amd_energy_init_control_state
    simp only [clear_loop_closed]

/-- Slot 0 was measured before; after the call with the events 3 and 5 of a
catalog of 12 events it is not. -/
theorem update_active_set_twelve :
    (_amd_energy_update_control_state papiRelease (fun _ => zero_entry) control_slot0
      [{ ni_event := 3, ni_position := 0 }, { ni_event := 5, ni_position := 0 }]).2.2.being_measured
      0 = 0 :=
  ((update_active_set_in_arrays papiRelease (fun _ => zero_entry) control_slot0
    [{ ni_event := 3, ni_position := 0 }, { ni_event := 5, ni_position := 0 }] 12 0 (by decide)
    (fun c hc => native_mask_release c (lt_trans hc (by decide))) (by decide)
    (by decide)).1).trans (by decide)

/-- C24: the claim fails on a catalog of more than `AMD_ENERGY_MAX_COUNTERS`
events. With 2 packages and 256 cpus the catalog has 516 events; the event
with code 260 is within `[0, 516)`, its index is 260 =
`AMD_ENERGY_MAX_COUNTERS`, and `_amd_energy_update_control_state` stores
`being_measured[260]` and `need_difference[260]` outside the arrays without a
bound check (with the usual layout of the structure they land in `count[0]`,
which the claim says is left unchanged, and in `lastupdate`). The stores within the
arrays are those of the clearing loop alone: slot 0, measured before, is
cleared, and no slot has `being_measured = 1`, although the code 260 appears
in the list. -/
theorem active_set_beyond_counters :
    (create_events papiRelease 2 256 cpu_to_use_two).num_events = 516 ∧
    native_index papiRelease { ni_event := 260, ni_position := 0 } =
      (AMD_ENERGY_MAX_COUNTERS : Int) ∧
    ¬ update_in_bounds papiRelease native_code_260 ∧
    control_slot0.being_measured 0 = 1 ∧
    ∀ j : Nat,
      (_amd_energy_update_control_state papiRelease
        (create_events papiRelease 2 256 cpu_to_use_two).energy_native_events control_slot0
        native_code_260).2.2.being_measured j = 0 := by
  refine ⟨by rw [create_events_num], by decide, by decide, rfl, ?_⟩
  intro j
  rw [update_out_of_arrays papiRelease _ control_slot0 native_code_260 (by decide)]
  show (if j < AMD_ENERGY_MAX_COUNTERS then 0 else if j = 0 then 1 else 0) = (0 : Int)
  by_cases hj : j < AMD_ENERGY_MAX_COUNTERS
  · rw [if_pos hj]
  · have hj0 : ¬ j = 0 := by
      intro h; subst h; exact hj (by decide)
    rw [if_neg hj, if_neg hj0]

end AmdEnergy
